import Mathlib

/-!
# Embedded aircraft autopilot: protocol engine

A shallow embedding of `main.c` / `main.h`: the two ring buffers, the
frame parser, the command handlers, the telemetry scheduler and the message
encoder, followed by theorems about them.

Conventions of the embedding.

* The global variables of `main.h` and the peripheral bits the program
  drives are the fields of `State`; every C function is a function on `State`.
* `uint8_t` / `uint16_t` values are natural numbers; where the C arithmetic
  can wrap, the wrap is written out (`% 256`, `% 65536`).
* Characters are their ASCII codes (`'$'` is 36, `'#'` is 35, `'0'` is 48,
  `'A'` is 65, `'a'` is 97).
* The global interrupt enable bit, the interrupt acknowledge flags and the
  timer reload registers only serve the interleaving of interrupt and main
  code; they are outside the sequential model and are left out.
-/

namespace Autopilot

/-! ## Types of `main.h` -/

/-- Selector of a ring buffer, `buf_t`. -/
inductive buf_t where
  | INBUF
  | OUTBUF
deriving DecidableEq, Repr

/-- States of the frame parser, `ParseState`. -/
inductive ParseState where
  | PARSE_IDLE
  | PARSE_HEADER
  | PARSE_BODY
deriving DecidableEq, Repr

/-- Command kinds, `MessageType`. -/
inductive MessageType where
  | MT_GO
  | MT_END
  | MT_SPEED
  | MT_ALTITUDE
  | MT_MANUAL
  | MT_LED
deriving DecidableEq, Repr

/-- A `bool[4]` array (one flag per button RB4..RB7). -/
structure Bool4 where
  b0 : Bool
  b1 : Bool
  b2 : Bool
  b3 : Bool
deriving DecidableEq, Repr

/-- Read `a[i]` of a `bool[4]` array. -/
def Bool4.get (a : Bool4) (i : Nat) : Bool :=
  match i with
  | 0 => a.b0
  | 1 => a.b1
  | 2 => a.b2
  | 3 => a.b3
  | _ => false

/-- The `char message_name[3]` array. -/
structure Name3 where
  c0 : Nat
  c1 : Nat
  c2 : Nat
deriving DecidableEq, Repr

/-- The store `message_name[i] = v`. A store at an index of 3 or more falls
outside the array; what it overwrites depends on the memory layout, which
is not part of the model, so the model leaves the array as it was. -/
def Name3.set (n : Name3) (i v : Nat) : Name3 :=
  match i with
  | 0 => { n with c0 := v }
  | 1 => { n with c1 := v }
  | 2 => { n with c2 := v }
  | _ => n

/-- Size of each ring buffer, `BUFSIZE`. -/
def BUFSIZE : Nat := 255

/-- The global variables of the program and the peripheral bits it drives. -/
structure State where
  /-- Variable `uint16_t dist`. -/
  dist : Nat
  /-- Variable `AltitudePeriod altitude_period`, holding the quotient that `get_altitude` stores. -/
  altitude_period : Nat
  /-- Variable `uint8_t counter`. -/
  counter : Nat
  /-- Variable `bool is_manual`. -/
  is_manual : Bool
  /-- Variable `uint16_t adc`. -/
  adc : Nat
  /-- Variable `uint16_t speed`. -/
  speed : Nat
  /-- Variable `ParseState parse_state`. -/
  parse_state : ParseState
  /-- Variable `MessageType message_type`. -/
  message_type : MessageType
  /-- Variable `char message_name[3]`. -/
  message_name : Name3
  /-- Variable `uint8_t message_pos`. -/
  message_pos : Nat
  /-- Variable `uint16_t parsed_number`. -/
  parsed_number : Nat
  /-- Variable `uint8_t digit_count_to_be_parsed`. -/
  digit_count_to_be_parsed : Nat
  /-- Variable `uint8_t parsed_digit_count`. -/
  parsed_digit_count : Nat
  /-- Variable `bool portb_prev[4]`. -/
  portb_prev : Bool4
  /-- Variable `bool portb_enable[4]`. -/
  portb_enable : Bool4
  /-- Variable `bool portb_send[4]`. -/
  portb_send : Bool4
  /-- Variable `uint8_t inbuf[BUFSIZE]`. -/
  inbuf : List Nat
  /-- Variable `uint8_t outbuf[BUFSIZE]`. -/
  outbuf : List Nat
  /-- Index `head[INBUF]`. -/
  head_in : Nat
  /-- Index `head[OUTBUF]`. -/
  head_out : Nat
  /-- Index `tail[INBUF]`. -/
  tail_in : Nat
  /-- Index `tail[OUTBUF]`. -/
  tail_out : Nat
  /-- Bit `INTCONbits.TMR0IE`. -/
  tmr0ie : Bool
  /-- Bit `T0CONbits.TMR0ON`. -/
  tmr0on : Bool
  /-- Bit `INTCONbits.RBIE`. -/
  rbie : Bool
  /-- Bit `TXSTA1bits.TXEN`. -/
  txen : Bool
  /-- Bit `LATAbits.LA0`. -/
  la0 : Bool
  /-- Bit `LATBbits.LB0`. -/
  lb0 : Bool
  /-- Bit `LATCbits.LC0`. -/
  lc0 : Bool
  /-- Bit `LATDbits.LD0`. -/
  ld0 : Bool
deriving DecidableEq, Repr

/-! ## Ring buffers -/

/-- The index `head[buf]`. -/
def State.head (s : State) (buf : buf_t) : Nat :=
  match buf with
  | buf_t.INBUF => s.head_in
  | buf_t.OUTBUF => s.head_out

/-- The index `tail[buf]`. -/
def State.tail (s : State) (buf : buf_t) : Nat :=
  match buf with
  | buf_t.INBUF => s.tail_in
  | buf_t.OUTBUF => s.tail_out

/-- The array behind `buf` (`inbuf` or `outbuf`). -/
def State.data (s : State) (buf : buf_t) : List Nat :=
  match buf with
  | buf_t.INBUF => s.inbuf
  | buf_t.OUTBUF => s.outbuf

/-- The C function `buf_isempty`: 1 when `head[buf] == tail[buf]`, else 0. -/
def buf_isempty (buf : buf_t) (s : State) : Nat :=
  if s.head buf = s.tail buf then 1 else 0

/-- The C function `buf_push`: store `v` at `head[buf]`, increment the
`uint8_t` index and wrap it to 0 when it reaches `BUFSIZE`. The arrays have
`BUFSIZE` slots; a store at an index outside the array (never reached from
indices below `BUFSIZE`) is outside the model and leaves the array as it
was. -/
def buf_push (v : Nat) (buf : buf_t) (s : State) : State :=
  match buf with
  | buf_t.INBUF =>
    let s := { s with inbuf := s.inbuf.set s.head_in v }
    let s := { s with head_in := (s.head_in + 1) % 256 }
    if s.head_in = BUFSIZE then { s with head_in := 0 } else s
  | buf_t.OUTBUF =>
    let s := { s with outbuf := s.outbuf.set s.head_out v }
    let s := { s with head_out := (s.head_out + 1) % 256 }
    if s.head_out = BUFSIZE then { s with head_out := 0 } else s

/-- The C function `buf_pop`: the sentinel 0xFF on an empty buffer, else the
byte at `tail[buf]`, with the index incremented and wrapped. A read outside
the array (never reached from indices below `BUFSIZE`) is outside the model
and gives 0. -/
def buf_pop (buf : buf_t) (s : State) : Nat × State :=
  if buf_isempty buf s ≠ 0 then (0xFF, s)
  else
    match buf with
    | buf_t.INBUF =>
      let v := s.inbuf.getD s.tail_in 0
      let s := { s with tail_in := (s.tail_in + 1) % 256 }
      let s := if s.tail_in = BUFSIZE then { s with tail_in := 0 } else s
      (v, s)
    | buf_t.OUTBUF =>
      let v := s.outbuf.getD s.tail_out 0
      let s := { s with tail_out := (s.tail_out + 1) % 256 }
      let s := if s.tail_out = BUFSIZE then { s with tail_out := 0 } else s
      (v, s)

/-- The bytes waiting in a buffer, oldest first: the slots from `tail[buf]`
up to `head[buf]`, around the ring. -/
def buf_contents (buf : buf_t) (s : State) : List Nat :=
  (List.range ((s.head buf + BUFSIZE - s.tail buf) % BUFSIZE)).map
    (fun i => (s.data buf).getD ((s.tail buf + i) % BUFSIZE) 0)

/-- Push the bytes of `bs` in order (a sequence of `buf_push` calls). -/
def buf_push_all (bs : List Nat) (buf : buf_t) (s : State) : State :=
  bs.foldl (fun t b => buf_push b buf t) s

/-! ## Peripheral enables and start-up -/

/-- The C function `enable_timer0`: TIMER0 interrupt and module on. -/
def enable_timer0 (s : State) : State :=
  { s with tmr0ie := true, tmr0on := true }

/-- The C function `disable_timer0`: TIMER0 interrupt and module off. -/
def disable_timer0 (s : State) : State :=
  { s with tmr0ie := false, tmr0on := false }

/-- The C function `init_vars`. -/
def init_vars (s : State) : State :=
  { s with
    dist := 0, altitude_period := 0, is_manual := false, adc := 0,
    counter := 0, speed := 0, parse_state := ParseState.PARSE_IDLE,
    message_pos := 0, parsed_number := 0, digit_count_to_be_parsed := 0,
    parsed_digit_count := 0,
    portb_prev := ⟨false, false, false, false⟩,
    portb_enable := ⟨false, false, false, false⟩,
    portb_send := ⟨false, false, false, false⟩,
    head_in := 0, head_out := 0, tail_in := 0, tail_out := 0 }

/-- The C function `init_ports`: of the registers it writes, the four
indicator latches are modelled; all are cleared. -/
def init_ports (s : State) : State :=
  { s with la0 := false, lb0 := false, lc0 := false, ld0 := false }

/-- The C function `init_interrupts`: of the bits it sets, `RBIE` is
modelled. -/
def init_interrupts (s : State) : State :=
  { s with rbie := true }

/-- The C function `init_timer`: `T0CON = 0b00000011` leaves `TMR0ON`
(bit 7) clear. -/
def init_timer (s : State) : State :=
  { s with tmr0on := false }

/-- The memory and peripheral bits as the device leaves reset and the C
start-up code has run: the variables without initialiser are zeroed,
`head` and `tail` are `{0, 0}`, and the interrupt enables and the
transmitter enable are clear. `TMR0ON` and the latches are written by the
initialisation of `main` before they are used; they are given as clear. -/
def power_on : State :=
  { dist := 0, altitude_period := 0, counter := 0, is_manual := false,
    adc := 0, speed := 0, parse_state := ParseState.PARSE_IDLE,
    message_type := MessageType.MT_GO, message_name := ⟨0, 0, 0⟩,
    message_pos := 0, parsed_number := 0, digit_count_to_be_parsed := 0,
    parsed_digit_count := 0,
    portb_prev := ⟨false, false, false, false⟩,
    portb_enable := ⟨false, false, false, false⟩,
    portb_send := ⟨false, false, false, false⟩,
    inbuf := List.replicate BUFSIZE 0, outbuf := List.replicate BUFSIZE 0,
    head_in := 0, head_out := 0, tail_in := 0, tail_out := 0,
    tmr0ie := false, tmr0on := false, rbie := false, txen := false,
    la0 := false, lb0 := false, lc0 := false, ld0 := false }

/-- The initialisation calls of `main`, up to the entry of its loop
(`init_serial`, `init_adc` and `start_system` write only registers that are
not modelled). -/
def main_init (s : State) : State :=
  init_timer (init_interrupts (init_ports (init_vars s)))

/-- The state in which `main` enters its loop after a reset. -/
def reset_state : State := main_init power_on

/-- Modelled from the spec: `RESET()` is the reset instruction of the device,
defined by the compiler's header and not in the source tree; the
specification reads it as re-running the process initialisation. The device
restarts, the start-up code and the initialisation of `main` run again, and
the call never returns to its caller. The model continues from the state in
which the restarted `main` enters its loop. -/
def RESET (_s : State) : State := reset_state

/-! ## Command handlers -/

/-- The C function `get_go`. -/
def get_go (distance : Nat) (s : State) : State :=
  enable_timer0 { s with dist := distance }

/-- The C function `get_end`. -/
def get_end (s : State) : State :=
  RESET (disable_timer0 { s with dist := 0 })

/-- The C function `get_speed`. -/
def get_speed (spd : Nat) (s : State) : State :=
  { s with speed := spd }

/-- The C function `get_altitude`. The quotient of a `uint16_t` by 100 is at
most 655; the cast to `AltitudePeriod` is taken to keep it (an enumeration
object as wide as `int`). -/
def get_altitude (period : Nat) (s : State) : State :=
  { s with altitude_period := period / 100, counter := 0 }

/-- The C function `get_manual`: the `uint8_t` argument is converted to
`bool` on assignment. -/
def get_manual (activation : Nat) (s : State) : State :=
  let s := { s with is_manual := decide (activation ≠ 0) }
  if s.is_manual then { s with rbie := true } else { s with rbie := false }

/-- The C function `get_led`. -/
def get_led (led : Nat) (s : State) : State :=
  match led with
  | 0 =>
    { s with la0 := false, lb0 := false, lc0 := false, ld0 := false,
             portb_enable := ⟨false, false, false, false⟩ }
  | 1 => { s with ld0 := true, portb_enable := { s.portb_enable with b0 := true } }
  | 2 => { s with lc0 := true, portb_enable := { s.portb_enable with b1 := true } }
  | 3 => { s with lb0 := true, portb_enable := { s.portb_enable with b2 := true } }
  | 4 => { s with la0 := true, portb_enable := { s.portb_enable with b3 := true } }
  | _ => s

/-! ## Message encoder -/

/-- The C function `to_hex`; the result is a `char`. -/
def to_hex (nibble : Nat) : Nat :=
  if nibble < 10 then (nibble + 48) % 256 else (nibble + 65 - 10) % 256

/-- The C function `to_nibble`. -/
def to_nibble (character : Nat) : Nat :=
  if 48 ≤ character ∧ character ≤ 57 then character - 48
  else if 97 ≤ character ∧ character ≤ 102 then character - 97 + 10
  else if 65 ≤ character ∧ character ≤ 70 then character - 65 + 10
  else 0xFF

/-- The C function `send`. -/
def send (s : State) : State :=
  { s with txen := true }

/-- The C function `send_distance`. -/
def send_distance (distance : Nat) (s : State) : State :=
  let nibble0 := distance &&& 0xF
  let distance := distance >>> 4
  let nibble1 := distance &&& 0xF
  let distance := distance >>> 4
  let nibble2 := distance &&& 0xF
  let distance := distance >>> 4
  let nibble3 := distance &&& 0xF
  let s := buf_push 36 buf_t.OUTBUF s
  let s := buf_push 68 buf_t.OUTBUF s
  let s := buf_push 83 buf_t.OUTBUF s
  let s := buf_push 84 buf_t.OUTBUF s
  let s := buf_push (to_hex nibble3) buf_t.OUTBUF s
  let s := buf_push (to_hex nibble2) buf_t.OUTBUF s
  let s := buf_push (to_hex nibble1) buf_t.OUTBUF s
  let s := buf_push (to_hex nibble0) buf_t.OUTBUF s
  let s := buf_push 35 buf_t.OUTBUF s
  send s

/-- The C function `adc_to_alt`. -/
def adc_to_alt (value : Nat) : Nat :=
  if value < 256 then 9000
  else if value < 512 then 10000
  else if value < 768 then 11000
  else 12000

/-- The C function `send_altitude`. -/
def send_altitude (adc_value : Nat) (s : State) : State :=
  let alt := adc_to_alt adc_value
  let nibble0 := alt &&& 0xF
  let alt := alt >>> 4
  let nibble1 := alt &&& 0xF
  let alt := alt >>> 4
  let nibble2 := alt &&& 0xF
  let alt := alt >>> 4
  let nibble3 := alt &&& 0xF
  let s := buf_push 36 buf_t.OUTBUF s
  let s := buf_push 65 buf_t.OUTBUF s
  let s := buf_push 76 buf_t.OUTBUF s
  let s := buf_push 84 buf_t.OUTBUF s
  let s := buf_push (to_hex nibble3) buf_t.OUTBUF s
  let s := buf_push (to_hex nibble2) buf_t.OUTBUF s
  let s := buf_push (to_hex nibble1) buf_t.OUTBUF s
  let s := buf_push (to_hex nibble0) buf_t.OUTBUF s
  let s := buf_push 35 buf_t.OUTBUF s
  send s

/-- The C function `send_button_press`. -/
def send_button_press (button : Nat) (s : State) : State :=
  let nibble0 := button &&& 0xF
  let button := button >>> 4
  let nibble1 := button &&& 0xF
  let s := buf_push 36 buf_t.OUTBUF s
  let s := buf_push 80 buf_t.OUTBUF s
  let s := buf_push 82 buf_t.OUTBUF s
  let s := buf_push 83 buf_t.OUTBUF s
  let s := buf_push (to_hex nibble1) buf_t.OUTBUF s
  let s := buf_push (to_hex nibble0) buf_t.OUTBUF s
  let s := buf_push 35 buf_t.OUTBUF s
  send s

/-! ## Interrupt service routines -/

/-- The C function `portb_isr`; `current` holds the levels read from
RB4..RB7. -/
def portb_isr (current : Bool4) (s : State) : State :=
  let s := if s.portb_enable.b0 && !current.b0 && s.portb_prev.b0
    then { s with portb_send := { s.portb_send with b0 := true } } else s
  let s := if s.portb_enable.b1 && !current.b1 && s.portb_prev.b1
    then { s with portb_send := { s.portb_send with b1 := true } } else s
  let s := if s.portb_enable.b2 && !current.b2 && s.portb_prev.b2
    then { s with portb_send := { s.portb_send with b2 := true } } else s
  let s := if s.portb_enable.b3 && !current.b3 && s.portb_prev.b3
    then { s with portb_send := { s.portb_send with b3 := true } } else s
  { s with portb_prev := ⟨current.b0, current.b1, current.b2, current.b3⟩ }

/-- The C function `receive_isr`; `RCREG1` is the byte received. -/
def receive_isr (RCREG1 : Nat) (s : State) : State :=
  buf_push RCREG1 buf_t.INBUF s

/-- First statement of `timer_isr`: subtract the speed from the distance,
stopping at 0. -/
def timer_isr_countdown (s : State) : State :=
  if s.dist ≥ s.speed then { s with dist := s.dist - s.speed }
  else { s with dist := 0 }

/-- Second statement of `timer_isr`: `counter++` on the `uint8_t` counter. -/
def timer_isr_count (s : State) : State :=
  { s with counter := (s.counter + 1) % 256 }

/-- Third statement of `timer_isr`: the `if` / `else if` chain that sends
one message. -/
def timer_isr_select (s : State) : State :=
  if s.altitude_period ≠ 0 ∧ s.counter = s.altitude_period then
    { send_altitude s.adc s with counter := 0 }
  else if s.portb_send.b0 then
    let t := send_button_press 4 s
    { t with portb_send := { t.portb_send with b0 := false } }
  else if s.portb_send.b1 then
    let t := send_button_press 5 s
    { t with portb_send := { t.portb_send with b1 := false } }
  else if s.portb_send.b2 then
    let t := send_button_press 6 s
    { t with portb_send := { t.portb_send with b2 := false } }
  else if s.portb_send.b3 then
    let t := send_button_press 7 s
    { t with portb_send := { t.portb_send with b3 := false } }
  else
    send_distance s.dist s

/-- Last statement of `timer_isr`: clear the counter while the period is 0. -/
def timer_isr_clear (s : State) : State :=
  if s.altitude_period = 0 then { s with counter := 0 } else s

/-- The C function `timer_isr`: its four statements in order. -/
def timer_isr (s : State) : State :=
  timer_isr_clear (timer_isr_select (timer_isr_count (timer_isr_countdown s)))

/-- The C function `adc_isr`; `ADRESH` and `ADRESL` are the result
registers of the converter. The value is stored in a `uint16_t`. -/
def adc_isr (ADRESH _ADRESL : Nat) (s : State) : State :=
  { s with adc := ((ADRESH <<< 8) ||| (ADRESH &&& 0xF)) % 65536 }

/-! ## Frame parser -/

/-- A call of a command handler made by the parser, with its argument. -/
inductive Call where
  | get_go (distance : Nat)
  | get_end
  | get_speed (spd : Nat)
  | get_altitude (period : Nat)
  | get_manual (activation : Nat)
  | get_led (led : Nat)
deriving DecidableEq, Repr

/-- The handler call of the `switch (message_type)` in `parse`, with the
argument the code passes. -/
def dispatch_call (s : State) : Call :=
  match s.message_type with
  | MessageType.MT_GO => Call.get_go s.parsed_number
  | MessageType.MT_END => Call.get_end
  | MessageType.MT_SPEED => Call.get_speed s.parsed_number
  | MessageType.MT_ALTITUDE => Call.get_altitude s.parsed_number
  | MessageType.MT_MANUAL => Call.get_manual (s.parsed_number &&& 0xFF)
  | MessageType.MT_LED => Call.get_led (s.parsed_number &&& 0xFF)

/-- Run a handler call. -/
def run_call (c : Call) (s : State) : State :=
  match c with
  | Call.get_go distance => get_go distance s
  | Call.get_end => get_end s
  | Call.get_speed spd => get_speed spd s
  | Call.get_altitude period => get_altitude period s
  | Call.get_manual activation => get_manual activation s
  | Call.get_led led => get_led led s

/-- The tail of the header branch of `parse` once a header has matched:
enter the body state and clear `message_pos` and `parsed_digit_count`. -/
def header_matched (mt : MessageType) (digits : Nat) (s : State) : State :=
  let s := { s with message_type := mt, digit_count_to_be_parsed := digits }
  { s with parse_state := ParseState.PARSE_BODY, message_pos := 0,
           parsed_digit_count := 0 }

/-- One iteration of the `while` loop of `parse` after the byte `value` has
been popped: the `switch (parse_state)`. The result is the new state and the
handler calls made (none or one). After `get_end` the device restarts, so
the three assignments that follow the dispatch are not executed; in the
model they rewrite values the restart has already set. -/
def parse_byte (s : State) (value : Nat) : State × List Call :=
  match s.parse_state with
  | ParseState.PARSE_IDLE =>
    if value = 36 then ({ s with parse_state := ParseState.PARSE_HEADER }, [])
    else (s, [])
  | ParseState.PARSE_HEADER =>
    let s := { s with message_name := s.message_name.set s.message_pos value }
    let s := { s with message_pos := (s.message_pos + 1) % 256 }
    if s.message_pos = 3 then
      if s.message_name.c0 = 71 ∧ s.message_name.c1 = 79 ∧ s.message_name.c2 = 79 then
        (header_matched MessageType.MT_GO 4 s, [])
      else if s.message_name.c0 = 69 ∧ s.message_name.c1 = 78 ∧ s.message_name.c2 = 68 then
        (header_matched MessageType.MT_END 0 s, [])
      else if s.message_name.c0 = 83 ∧ s.message_name.c1 = 80 ∧ s.message_name.c2 = 68 then
        (header_matched MessageType.MT_SPEED 4 s, [])
      else if s.message_name.c0 = 65 ∧ s.message_name.c1 = 76 ∧ s.message_name.c2 = 84 then
        (header_matched MessageType.MT_ALTITUDE 4 s, [])
      else if s.message_name.c0 = 77 ∧ s.message_name.c1 = 65 ∧ s.message_name.c2 = 78 then
        (header_matched MessageType.MT_MANUAL 2 s, [])
      else if s.message_name.c0 = 76 ∧ s.message_name.c1 = 69 ∧ s.message_name.c2 = 68 then
        (header_matched MessageType.MT_LED 2 s, [])
      else ({ s with parse_state := ParseState.PARSE_IDLE }, [])
    else (s, [])
  | ParseState.PARSE_BODY =>
    let is_digit : Bool := (decide (48 ≤ value) && decide (value ≤ 57))
      || (decide (65 ≤ value) && decide (value ≤ 70))
      || (decide (97 ≤ value) && decide (value ≤ 102))
    let is_end : Bool := decide (value = 35)
    if !(is_digit || is_end) then
      ({ s with parse_state := ParseState.PARSE_IDLE }, [])
    else if is_digit then
      if s.parsed_digit_count = s.digit_count_to_be_parsed then
        ({ s with parse_state := ParseState.PARSE_IDLE }, [])
      else
        let s := { s with parsed_number := (s.parsed_number <<< 4) % 65536 }
        let s := { s with parsed_number := s.parsed_number ||| to_nibble value }
        ({ s with parsed_digit_count := (s.parsed_digit_count + 1) % 256 }, [])
    else
      let r : State × List Call :=
        if s.parsed_digit_count = s.digit_count_to_be_parsed then
          (run_call (dispatch_call s) s, [dispatch_call s])
        else (s, [])
      ({ r.1 with parsed_digit_count := 0, parse_state := ParseState.PARSE_IDLE,
                  parsed_number := 0 }, r.2)

/-- The `while (!buf_isempty(INBUF))` loop of `parse`, unrolled at most
`fuel` times: `none` when the buffer is still not empty after `fuel`
iterations. -/
def parse_loop : Nat → State → Option (State × List Call)
  | 0, s => if buf_isempty buf_t.INBUF s ≠ 0 then some (s, []) else none
  | fuel + 1, s =>
    if buf_isempty buf_t.INBUF s ≠ 0 then some (s, [])
    else
      let p := buf_pop buf_t.INBUF s
      let r := parse_byte p.2 p.1
      match parse_loop fuel r.1 with
      | some q => some (q.1, r.2 ++ q.2)
      | none => none

/-- The C function `parse`. A buffer with indices below `BUFSIZE` holds at
most 254 bytes, so 255 iterations drain it. -/
def parse (s : State) : Option (State × List Call) :=
  parse_loop BUFSIZE s

/-- The bytes `bs` arrive on the serial line one after the other: each is
stored by `receive_isr` and the main loop then runs `parse`. The result is
the final state and the handler calls made, in order. -/
def serial_in : State → List Nat → Option (State × List Call)
  | s, [] => some (s, [])
  | s, b :: bs =>
    match parse (receive_isr b s) with
    | some r =>
      match serial_in r.1 bs with
      | some q => some (q.1, r.2 ++ q.2)
      | none => none
    | none => none

/-- The parser of `parse` run over a byte stream without the ring buffer:
`parse_byte` folded over the bytes. -/
def parse_bytes : State → List Nat → State × List Call
  | s, [] => (s, [])
  | s, b :: bs =>
    let r := parse_byte s b
    let q := parse_bytes r.1 bs
    (q.1, r.2 ++ q.2)

/-! ## Vocabulary of the statements -/

/-- The inbound buffer is drained and well formed: `head` equals `tail`,
the index is below `BUFSIZE` and the array has `BUFSIZE` slots. -/
def InbufReady (s : State) : Prop :=
  s.head_in = s.tail_in ∧ s.head_in < BUFSIZE ∧ s.inbuf.length = BUFSIZE

/-- The state with the inbound buffer and its two indices blanked: what
is left is every variable the parser and the handlers work on. -/
def core (s : State) : State :=
  { s with inbuf := [], head_in := 0, tail_in := 0 }

/-- Value of one hexadecimal digit character of the command grammar, upper
or lower case; `none` for any other byte. -/
def hex_digit_value (c : Nat) : Option Nat :=
  match c with
  | 48 => some 0
  | 49 => some 1
  | 50 => some 2
  | 51 => some 3
  | 52 => some 4
  | 53 => some 5
  | 54 => some 6
  | 55 => some 7
  | 56 => some 8
  | 57 => some 9
  | 65 => some 10
  | 66 => some 11
  | 67 => some 12
  | 68 => some 13
  | 69 => some 14
  | 70 => some 15
  | 97 => some 10
  | 98 => some 11
  | 99 => some 12
  | 100 => some 13
  | 101 => some 14
  | 102 => some 15
  | _ => none

/-- The byte is a hexadecimal digit character. -/
def is_hex (c : Nat) : Prop := (hex_digit_value c).isSome = true

/-- Value of a digit string read most significant digit first, continuing
from `acc`; `none` when a byte is not a hexadecimal digit. -/
def hex_value_from (acc : Nat) : List Nat → Option Nat
  | [] => some acc
  | c :: cs =>
    match hex_digit_value c with
    | some d => hex_value_from (16 * acc + d) cs
    | none => none

/-- Value of a hexadecimal digit string, most significant digit first. -/
def hex_value (cs : List Nat) : Option Nat := hex_value_from 0 cs

/-- Header letters of each command of the serial grammar: `GOO`, `END`,
`SPD`, `ALT`, `MAN`, `LED`. -/
def frame_header (h : MessageType) : List Nat :=
  match h with
  | MessageType.MT_GO => [71, 79, 79]
  | MessageType.MT_END => [69, 78, 68]
  | MessageType.MT_SPEED => [83, 80, 68]
  | MessageType.MT_ALTITUDE => [65, 76, 84]
  | MessageType.MT_MANUAL => [77, 65, 78]
  | MessageType.MT_LED => [76, 69, 68]

/-- Number of hexadecimal digits each command of the grammar carries. -/
def frame_digits (h : MessageType) : Nat :=
  match h with
  | MessageType.MT_GO => 4
  | MessageType.MT_END => 0
  | MessageType.MT_SPEED => 4
  | MessageType.MT_ALTITUDE => 4
  | MessageType.MT_MANUAL => 2
  | MessageType.MT_LED => 2

/-- The handler call a command of the grammar stands for, with payload `v`. -/
def frame_call (h : MessageType) (v : Nat) : Call :=
  match h with
  | MessageType.MT_GO => Call.get_go v
  | MessageType.MT_END => Call.get_end
  | MessageType.MT_SPEED => Call.get_speed v
  | MessageType.MT_ALTITUDE => Call.get_altitude v
  | MessageType.MT_MANUAL => Call.get_manual v
  | MessageType.MT_LED => Call.get_led v

/-- The bytes of a command frame: `$`, the header, the body, `#`. -/
def frame (h : MessageType) (body : List Nat) : List Nat :=
  36 :: (frame_header h ++ body ++ [35])

/-- The accumulator of the body state after the digit characters `ds`,
starting from `pn`: the shift and or of `parse`, digit by digit. -/
def accumulate (pn : Nat) (ds : List Nat) : Nat :=
  ds.foldl (fun a c => ((a <<< 4) % 65536) ||| to_nibble c) pn

/-- The parser context right after a matched header: body state, counters
cleared, the header letters stored. -/
def body_start (h : MessageType) (s : State) : State :=
  { s with
    parse_state := ParseState.PARSE_BODY,
    message_type := h,
    message_name := ⟨(frame_header h).getD 0 0, (frame_header h).getD 1 0,
      (frame_header h).getD 2 0⟩,
    message_pos := 0,
    digit_count_to_be_parsed := frame_digits h,
    parsed_digit_count := 0 }

/-- The parser context when the digits of the body have been read. -/
def body_read (h : MessageType) (digits : List Nat) (s : State) : State :=
  { body_start h s with
    parsed_number := accumulate s.parsed_number digits,
    parsed_digit_count := digits.length }

/-- The state in which the parser leaves a frame it has dispatched: the
handler has run and the digit count and accumulator are cleared. -/
def frame_done (c : Call) (s : State) : State :=
  { (run_call c s) with
    parsed_digit_count := 0, parse_state := ParseState.PARSE_IDLE, parsed_number := 0 }

/-- The state after `receive_isr` has stored `b` in a drained inbound
buffer and `parse` has popped it again: slot written, both indices advanced. -/
def rx (b : Nat) (s : State) : State :=
  { s with inbuf := s.inbuf.set s.head_in b,
           head_in := if s.head_in + 1 = BUFSIZE then 0 else s.head_in + 1,
           tail_in := if s.head_in + 1 = BUFSIZE then 0 else s.head_in + 1 }

/-- The state with the parser context blanked. -/
def parser_blanked (s : State) : State :=
  { s with parse_state := ParseState.PARSE_IDLE, message_type := MessageType.MT_GO,
           message_name := ⟨0, 0, 0⟩, message_pos := 0, parsed_number := 0,
           digit_count_to_be_parsed := 0, parsed_digit_count := 0 }

/-- Being a hexadecimal digit character is decidable. -/
instance is_hex_decidable (c : Nat) : Decidable (is_hex c) := by
  unfold is_hex; infer_instance

/-- A single malformed command frame, in one of three ways. A frame is one
`$` ... `#` unit, so the bytes after its `$` hold no further `$`.

* `unknown_header`: `$`, three bytes that are none of the six headers, and
  any remaining bytes.
* `wrong_digit_count`: a known header, a run of hexadecimal digits whose
  length is not the digit count of the header, and `#`.
* `invalid_byte`: a known header, a body without `#` and `$` that holds a
  byte that is not a hexadecimal digit, and `#`. -/
inductive MalformedFrame : List Nat → Prop where
  | unknown_header (x y z : Nat) (rest : List Nat) :
      (∀ h, [x, y, z] ≠ frame_header h) → (∀ c ∈ rest, c ≠ 36) →
      MalformedFrame (36 :: x :: y :: z :: rest)
  | wrong_digit_count (h : MessageType) (ds : List Nat) :
      (∀ c ∈ ds, is_hex c) → ds.length ≠ frame_digits h →
      MalformedFrame (frame h ds)
  | invalid_byte (h : MessageType) (body : List Nat) :
      (∀ c ∈ body, c ≠ 35 ∧ c ≠ 36) → (∃ x ∈ body, ¬ is_hex x) →
      MalformedFrame (frame h body)

/-- In a reachable parser context the body state has `message_pos` cleared. -/
def BodyPosClear (s : State) : Prop :=
  s.parse_state = ParseState.PARSE_BODY → s.message_pos = 0

/-! ## Vocabulary of the telemetry statements -/

/-- The four hexadecimal characters `send_distance` and `send_altitude` push for a 16-bit
value, most significant nibble first. -/
def hex4 (value : Nat) : List Nat :=
  let nibble0 := value &&& 0xF
  let value := value >>> 4
  let nibble1 := value &&& 0xF
  let value := value >>> 4
  let nibble2 := value &&& 0xF
  let value := value >>> 4
  let nibble3 := value &&& 0xF
  [to_hex nibble3, to_hex nibble2, to_hex nibble1, to_hex nibble0]

/-- The two hexadecimal characters `send_button_press` pushes. -/
def hex2 (button : Nat) : List Nat :=
  let nibble0 := button &&& 0xF
  let button := button >>> 4
  let nibble1 := button &&& 0xF
  [to_hex nibble1, to_hex nibble0]

/-- The distance frame `$DSTxxxx#`. -/
def dst_frame (distance : Nat) : List Nat := [36, 68, 83, 84] ++ hex4 distance ++ [35]

/-- The altitude frame `$ALTxxxx#` for a raw sample. -/
def alt_frame (adc_value : Nat) : List Nat :=
  [36, 65, 76, 84] ++ hex4 (adc_to_alt adc_value) ++ [35]

/-- The button frame `$PRSxx#`. -/
def prs_frame (button : Nat) : List Nat := [36, 80, 82, 83] ++ hex2 button ++ [35]

/-- The outbound channel of a state: array, head and tail. -/
def outbound (s : State) : List Nat × Nat × Nat := (s.outbuf, s.head_out, s.tail_out)

/-- One `buf_push` on an array and its head index. -/
def ring_push (v : Nat) (r : List Nat × Nat) : List Nat × Nat :=
  (r.1.set r.2 v, if (r.2 + 1) % 256 = BUFSIZE then 0 else (r.2 + 1) % 256)

/-- A run of `buf_push` on an array and its head index. -/
def ring_push_all (bs : List Nat) (r : List Nat × Nat) : List Nat × Nat :=
  bs.foldl (fun t b => ring_push b t) r

/-- An altitude report is due at the tick taken in state `s`: the period is not Off and the
8-bit tick counter, once incremented, equals the period. -/
def altitude_due (s : State) : Prop :=
  s.altitude_period ≠ 0 ∧ (s.counter + 1) % 256 = s.altitude_period

instance altitude_due_decidable (s : State) : Decidable (altitude_due s) := by
  unfold altitude_due; infer_instance

/-- The store `a[i] = v` on a `bool[4]` array. -/
def Bool4.set (a : Bool4) (i : Nat) (v : Bool) : Bool4 :=
  match i with
  | 0 => { a with b0 := v }
  | 1 => { a with b1 := v }
  | 2 => { a with b2 := v }
  | 3 => { a with b3 := v }
  | _ => a

/-- The lowest button index whose flag is set, if any. -/
def lowest_pending (a : Bool4) : Option Nat :=
  [0, 1, 2, 3].find? (fun i => a.get i)

/-- The state after the first two statements of `timer_isr`. -/
def tick_pre (s : State) : State :=
  { s with dist := s.dist - s.speed, counter := (s.counter + 1) % 256 }

/-- The state with the bytes `f` pushed on the outbound buffer and the transmitter enabled. -/
def sent (f : List Nat) (s : State) : State :=
  { s with outbuf := (ring_push_all f (s.outbuf, s.head_out)).1,
           head_out := (ring_push_all f (s.outbuf, s.head_out)).2,
           txen := true }

/-- A complete frame: `$`, bytes that are neither `$` nor `#`, `#`. -/
def complete_frame (f : List Nat) : Prop :=
  ∃ mid, f = 36 :: (mid ++ [35]) ∧ ∀ c ∈ mid, c ≠ 36 ∧ c ≠ 35

/-- The ASCII codes of a text. -/
def ascii (t : String) : List Nat := t.toList.map Char.toNat

/-- The bytes waiting in a ring: the slots from `tail` up to `head`. -/
def ring_contents (a : List Nat) (head tail : Nat) : List Nat :=
  (List.range ((head + BUFSIZE - tail) % BUFSIZE)).map
    (fun i => a.getD ((tail + i) % BUFSIZE) 0)

/-- The outbound ring is well formed: 255 slots and both indices below `BUFSIZE`. -/
def OutbufReady (s : State) : Prop :=
  s.outbuf.length = BUFSIZE ∧ s.head_out < BUFSIZE ∧ s.tail_out < BUFSIZE

/-- A state in which an altitude report is due (period 2, counter 1) while
button 1 is pending. -/
def report_due_example : State :=
  { reset_state with altitude_period := 2, counter := 1,
                     portb_send := ⟨false, true, false, false⟩ }

/-- The ten distance frames of the scenario `$GOO03E8#`, `$SPD000A#`, ten
ticks. -/
def ten_dst_frames : List Nat :=
  ascii "$DST03DE#$DST03D4#$DST03CA#$DST03C0#$DST03B6#" ++
    ascii "$DST03AC#$DST03A2#$DST0398#$DST038E#$DST0384#"

/-! ## Vocabulary of the channel, button and cadence statements -/

/-- An operation on a byte channel. -/
inductive ChanOp where
  | push (v : Nat)
  | pop
deriving DecidableEq, Repr

/-- Run channel operations on buffer `buf` with `buf_push` and `buf_pop`; the result is the
final state and the values the pops returned, in order. -/
def run_ops (buf : buf_t) : List ChanOp → State → State × List Nat
  | [], s => (s, [])
  | ChanOp.push v :: ops, s => run_ops buf ops (buf_push v buf s)
  | ChanOp.pop :: ops, s =>
    let p := buf_pop buf s
    let r := run_ops buf ops p.2
    (r.1, p.1 :: r.2)

/-- The byte channel of the specification, a first-in first-out queue: `push` appends a byte,
`pop` removes and returns the oldest byte, or signals empty (`none`) and changes nothing. The
result is the final queue and what the pops returned, in order. -/
def fifo_ops : List ChanOp → List Nat → List Nat × List (Option Nat)
  | [], q => (q, [])
  | ChanOp.push v :: ops, q => fifo_ops ops (q ++ [v])
  | ChanOp.pop :: ops, [] =>
    let r := fifo_ops ops []
    (r.1, none :: r.2)
  | ChanOp.pop :: ops, x :: q =>
    let r := fifo_ops ops q
    (r.1, some x :: r.2)

/-- The number of bytes stored never exceeds 254 while the operations run on queue `q`. -/
def within_capacity : List ChanOp → List Nat → Bool
  | [], q => decide (q.length ≤ 254)
  | ChanOp.push v :: ops, q => decide (q.length ≤ 254) && within_capacity ops (q ++ [v])
  | ChanOp.pop :: ops, q => decide (q.length ≤ 254) && within_capacity ops q.tail

/-- The bytes pushed by a run of operations, in order. -/
def pushed : List ChanOp → List Nat
  | [] => []
  | ChanOp.push v :: ops => v :: pushed ops
  | ChanOp.pop :: ops => pushed ops

/-- Buffer `buf` is well formed: 255 slots and both indices below `BUFSIZE`. -/
def ChannelReady (buf : buf_t) (s : State) : Prop :=
  (s.data buf).length = BUFSIZE ∧ s.head buf < BUFSIZE ∧ s.tail buf < BUFSIZE

/-- One latch step of `portb_isr` for one button: the flag is kept, and set when the button
is enabled, its level is now de-asserted and was asserted at the previous sample. -/
def latch (pending enabled previous current : Bool) : Bool :=
  pending || (enabled && !current && previous)

/-- The indicator of button `i`: `LED01` drives `LD0` for button 0 (RB4), `LED02` drives
`LC0`, `LED03` drives `LB0`, `LED04` drives `LA0`. -/
def indicator (s : State) (i : Nat) : Bool :=
  match i with
  | 0 => s.ld0
  | 1 => s.lc0
  | 2 => s.lb0
  | 3 => s.la0
  | _ => false

/-- The state with the four indicators and the four enable flags switched off. -/
def led_blanked (s : State) : State :=
  { s with la0 := false, lb0 := false, lc0 := false, ld0 := false,
           portb_enable := ⟨false, false, false, false⟩ }

/-- The upper-case hexadecimal digit character of a nibble. -/
def upper_hex (n : Nat) : Nat := (ascii "0123456789ABCDEF").getD n 0

/-- A button level change as the interrupt controller delivers it: the port-change interrupt
is raised only while `RBIE` is set, and its service routine is `portb_isr`. With `RBIE` clear
the flag `RBIF` is still latched, and `highPriorityISR`, which tests the flags only, runs
`portb_isr` at the next interrupt of another source; that later service is not part of
this definition. -/
def port_change (current : Bool4) (s : State) : State :=
  if s.rbie then portb_isr current s else s

/-- An event of a session: a byte arriving on the serial line (stored by `receive_isr`, then
consumed by `parse` in the main loop), a 100 ms tick, a change of the button levels, or the
end of a conversion. -/
inductive Event where
  | byte (b : Nat)
  | tick
  | button (current : Bool4)
  | sample (ADRESH ADRESL : Nat)
deriving DecidableEq, Repr

/-- Whether an event can carry a command: only the serial bytes do. -/
def Event.is_command (e : Event) : Bool :=
  match e with
  | Event.byte _ => true
  | _ => false

/-- Run one event; the result is the new state and the handler calls the parser made. -/
def run_event (e : Event) (s : State) : Option (State × List Call) :=
  match e with
  | Event.byte b => parse (receive_isr b s)
  | Event.tick => some (timer_isr s, [])
  | Event.button current => some (portb_isr current s, [])
  | Event.sample h l => some (adc_isr h l s, [])

/-- Run a list of events in order, collecting the handler calls. -/
def run_events : State → List Event → Option (State × List Call)
  | s, [] => some (s, [])
  | s, e :: es =>
    match run_event e s with
    | some r =>
      match run_events r.1 es with
      | some q => some (q.1, r.2 ++ q.2)
      | none => none
    | none => none

/-- The number of ticks in a list of events. -/
def ticks_in (es : List Event) : Nat :=
  (es.filter (fun e => decide (e = Event.tick))).length

/-- A handler call with a valid argument: the period of `get_altitude` is one of 0, 200, 400
and 600; the other handlers take any argument. -/
def valid_call (c : Call) : Bool :=
  match c with
  | Call.get_altitude period => period == 0 || period == 200 || period == 400 || period == 600
  | _ => true

/-- The relation between the tick counter and the altitude period: the period is one of
Off, 2, 4 and 6 ticks, the counter is below a period that is not Off, and the counter is 0
while the period is Off. -/
def tick_inv (s : State) : Prop :=
  (s.altitude_period = 0 ∨ s.altitude_period = 2 ∨ s.altitude_period = 4 ∨
    s.altitude_period = 6) ∧
  (s.altitude_period ≠ 0 → s.counter < s.altitude_period) ∧
  (s.altitude_period = 0 → s.counter = 0)

/-- The events of the example session: the bytes of `$ALT0190#` (a period of 400 ms), then
three ticks with a button change and a conversion in between. -/
def cadence_events : List Event :=
  (ascii "$ALT0190#").map Event.byte ++
    [Event.tick, Event.button ⟨true, false, false, false⟩, Event.tick, Event.sample 2 0,
      Event.tick]

/-- The state the example session ends in. -/
def cadence_example : State :=
  ((run_events reset_state cadence_events).getD (reset_state, [])).1

/-- The index of `message_name` at which `parse` stores the next byte it pops: in the header
state the store is `message_name[message_pos] = value`; the other states store nothing
there. -/
def header_store_index (s : State) : Option Nat :=
  match s.parse_state with
  | ParseState.PARSE_HEADER => some s.message_pos
  | _ => none

/-- The inbound channel of a state: array, head and tail. -/
def inbound (s : State) : List Nat × Nat × Nat := (s.inbuf, s.head_in, s.tail_in)

/-- A state in which the 8-bit tick counter is at 255 while the period is 256 ticks (the
quotient of the accepted argument 25600) and button 1 is pending. -/
def counter_wrap_example : State :=
  { reset_state with altitude_period := 256, counter := 255,
                     portb_enable := ⟨false, true, false, false⟩,
                     portb_prev := ⟨true, false, true, true⟩,
                     portb_send := ⟨false, true, false, false⟩ }

/-- The state reached from reset by the calls of `$LED02#` and `$ALT6400#`, 255 ticks, and
button 1 sampled high and then low. -/
def counter_wrap_reached : State :=
  portb_isr ⟨true, false, true, true⟩ (portb_isr ⟨true, true, true, true⟩
    (timer_isr^[255] (get_altitude 25600 (get_led 2 reset_state))))

/-- Whether every store `message_name[message_pos] = value` made while `parse` consumes the
bytes `bs` from the context `s` falls inside the three-byte array: at each byte consumed in
the header state the store index `message_pos` is below 3. -/
def stores_in_array : State → List Nat → Bool
  | _, [] => true
  | s, b :: bs =>
    (match header_store_index s with
      | some i => decide (i < 3)
      | none => true) && stores_in_array (parse_byte s b).1 bs

/-! ## The inbound buffer and the parser loop -/

theorem run_call_core (c : Call) (s : State) :
    core (run_call c s) = core (run_call c (core s)) := by
  cases c with
  | get_go d => rfl
  | get_end => rfl
  | get_speed d => rfl
  | get_altitude d => rfl
  | get_manual a =>
    by_cases h : a = 0 <;> simp [run_call, get_manual, core, h]
  | get_led l =>
    rcases l with _|_|_|_|_|l <;> rfl

theorem dispatch_call_core (s : State) : dispatch_call (core s) = dispatch_call s := by
  unfold dispatch_call
  cases h : s.message_type <;> (have h2 : (core s).message_type = _ := h) <;> simp only [h2] <;> rfl

theorem inbuf_ready_reset : InbufReady reset_state := by
  refine ⟨rfl, by decide, ?_⟩
  show (List.replicate BUFSIZE 0).length = BUFSIZE
  simp

/-- A handler leaves the inbound buffer alone or restarts the device. -/
theorem run_call_inbuf (c : Call) (s : State) :
    (run_call c s = reset_state) ∨
    ((run_call c s).inbuf = s.inbuf ∧ (run_call c s).head_in = s.head_in ∧
      (run_call c s).tail_in = s.tail_in) := by
  cases c with
  | get_go d => exact Or.inr ⟨rfl, rfl, rfl⟩
  | get_end => exact Or.inl rfl
  | get_speed d => exact Or.inr ⟨rfl, rfl, rfl⟩
  | get_altitude d => exact Or.inr ⟨rfl, rfl, rfl⟩
  | get_manual a =>
    right
    by_cases h : a = 0 <;> simp [run_call, get_manual, h]
  | get_led l =>
    right
    rcases l with _|_|_|_|_|l <;> exact ⟨rfl, rfl, rfl⟩

theorem parse_byte_ready (s : State) (v : Nat) (h : InbufReady s) :
    InbufReady (parse_byte s v).1 := by
  unfold parse_byte
  cases hps : s.parse_state
  · simp only
    split <;> exact h
  · simp only [header_matched]
    split_ifs <;> exact h
  · simp only
    split_ifs
    · exact h
    · exact h
    · exact h
    · rcases run_call_inbuf (dispatch_call s) s with e | ⟨e1, e2, e3⟩
      · rw [e]; exact inbuf_ready_reset
      · obtain ⟨h1, h2, h3⟩ := h
        refine ⟨?_, ?_, ?_⟩
        · show (run_call (dispatch_call s) s).head_in = (run_call (dispatch_call s) s).tail_in
          rw [e2, e3]; exact h1
        · show (run_call (dispatch_call s) s).head_in < BUFSIZE
          rw [e2]; exact h2
        · show (run_call (dispatch_call s) s).inbuf.length = BUFSIZE
          rw [e1]; exact h3
    · exact h

theorem rx_ready (b : Nat) (s : State) (h : InbufReady s) : InbufReady (rx b s) := by
  obtain ⟨h1, h2, h3⟩ := h
  refine ⟨rfl, ?_, ?_⟩
  · show (if s.head_in + 1 = BUFSIZE then 0 else s.head_in + 1) < BUFSIZE
    unfold BUFSIZE at *
    split <;> omega
  · show (s.inbuf.set s.head_in b).length = BUFSIZE
    simpa using h3

theorem rx_core (b : Nat) (s : State) : core (rx b s) = core s := rfl

theorem pop_receive (b : Nat) (s : State) (h : InbufReady s) :
    buf_isempty buf_t.INBUF (receive_isr b s) = 0 ∧
    buf_pop buf_t.INBUF (receive_isr b s) = (b, rx b s) := by
  obtain ⟨h1, h2, h3⟩ := h
  unfold BUFSIZE at h2 h3
  have hm : (s.head_in + 1) % 256 = s.head_in + 1 := by omega
  have hne : buf_isempty buf_t.INBUF (receive_isr b s) = 0 := by
    simp only [buf_isempty, receive_isr, buf_push, State.head, State.tail, BUFSIZE, hm]
    split_ifs <;> simp_all
  refine ⟨hne, ?_⟩
  unfold buf_pop
  rw [if_neg (by simp [hne])]
  simp only [receive_isr, buf_push, BUFSIZE, hm, rx]
  have hget : (s.inbuf.set s.head_in b)[s.tail_in]?.getD 0 = b := by
    rw [← h1]
    simp [List.getElem?_set, h3, h2]
  by_cases hw : s.head_in + 1 = 255
  · have ht : (s.tail_in + 1) % 256 = 255 := by omega
    simp [hw, ht, hget]
  · have ht : (s.tail_in + 1) % 256 = s.head_in + 1 := by omega
    simp [hw, ht, hget]

theorem parse_loop_empty (n : Nat) (s : State) (h : buf_isempty buf_t.INBUF s ≠ 0) :
    parse_loop n s = some (s, []) := by
  cases n <;> (unfold parse_loop; rw [if_pos h])

theorem parse_loop_step (n : Nat) (s : State) (h : buf_isempty buf_t.INBUF s = 0) :
    parse_loop (n + 1) s =
      match parse_loop n (parse_byte (buf_pop buf_t.INBUF s).2 (buf_pop buf_t.INBUF s).1).1 with
      | some q => some (q.1, (parse_byte (buf_pop buf_t.INBUF s).2 (buf_pop buf_t.INBUF s).1).2 ++ q.2)
      | none => none := by
  rw [parse_loop, if_neg (by simp [h])]

theorem parse_receive (b : Nat) (s : State) (h : InbufReady s) :
    parse (receive_isr b s) = some (parse_byte (rx b s) b) := by
  obtain ⟨h0, hp⟩ := pop_receive b s h
  have hr := parse_byte_ready (rx b s) b (rx_ready b s h)
  have he : buf_isempty buf_t.INBUF (parse_byte (rx b s) b).1 ≠ 0 := by
    simp [buf_isempty, State.head, State.tail, hr.1]
  show parse_loop (254 + 1) (receive_isr b s) = _
  rw [parse_loop_step _ _ h0, hp]
  simp only
  rw [parse_loop_empty _ _ he]
  simp

theorem parse_byte_core (s : State) (v : Nat) :
    core (parse_byte s v).1 = core (parse_byte (core s) v).1 ∧
      (parse_byte s v).2 = (parse_byte (core s) v).2 := by
  unfold parse_byte
  cases hps : s.parse_state
  · have : (core s).parse_state = ParseState.PARSE_IDLE := hps
    simp only [this]
    split <;> simp [core]
  · have : (core s).parse_state = ParseState.PARSE_HEADER := hps
    simp only [this]
    simp only [core, header_matched]
    split_ifs <;> simp
  · have : (core s).parse_state = ParseState.PARSE_BODY := hps
    simp only [this, dispatch_call_core]
    have e1 : (core s).parsed_digit_count = s.parsed_digit_count := rfl
    have e2 : (core s).digit_count_to_be_parsed = s.digit_count_to_be_parsed := rfl
    simp only [e1, e2]
    split_ifs
    · exact ⟨rfl, rfl⟩
    · exact ⟨rfl, rfl⟩
    · exact ⟨rfl, rfl⟩
    · refine ⟨?_, rfl⟩
      have := run_call_core (dispatch_call s) s
      simp only [core] at this ⊢
      simp only [State.mk.injEq] at this ⊢
      simp [this]
    · exact ⟨rfl, rfl⟩

theorem parse_byte_core_congr (s s' : State) (v : Nat) (h : core s = core s') :
    core (parse_byte s v).1 = core (parse_byte s' v).1 ∧
      (parse_byte s v).2 = (parse_byte s' v).2 := by
  have a := parse_byte_core s v
  have b := parse_byte_core s' v
  rw [h] at a
  exact ⟨a.1.trans b.1.symm, a.2.trans b.2.symm⟩

/-- Feeding bytes through the inbound buffer gives the calls and, up to the buffer itself,
the state of the parser run directly over the byte stream. -/
theorem serial_in_parse_bytes (bs : List Nat) :
    ∀ s s' : State, InbufReady s → core s = core s' →
      ∃ t, serial_in s bs = some (t, (parse_bytes s' bs).2) ∧
        core t = core (parse_bytes s' bs).1 ∧ InbufReady t := by
  induction bs with
  | nil => intro s s' h hc; exact ⟨s, rfl, hc, h⟩
  | cons b bs ih =>
    intro s s' h hc
    have hcr : core (rx b s) = core s' := hc
    obtain ⟨c1, c2⟩ := parse_byte_core_congr (rx b s) s' b hcr
    have hr := parse_byte_ready (rx b s) b (rx_ready b s h)
    obtain ⟨t, ht1, ht2, ht3⟩ := ih (parse_byte (rx b s) b).1 (parse_byte s' b).1 hr c1
    refine ⟨t, ?_, ht2, ht3⟩
    simp only [serial_in, parse_receive b s h, ht1, parse_bytes, c2]

/-- A parser step leaves the indices of the inbound buffer alone or restarts the device. -/
theorem parse_byte_inbuf (s : State) (v : Nat) :
    ((parse_byte s v).1.head_in = 0 ∧ (parse_byte s v).1.tail_in = 0) ∨
    ((parse_byte s v).1.head_in = s.head_in ∧ (parse_byte s v).1.tail_in = s.tail_in) := by
  unfold parse_byte
  cases hps : s.parse_state
  · simp only
    split <;> exact Or.inr ⟨rfl, rfl⟩
  · simp only [header_matched]
    split_ifs <;> exact Or.inr ⟨rfl, rfl⟩
  · simp only
    split_ifs
    · exact Or.inr ⟨rfl, rfl⟩
    · exact Or.inr ⟨rfl, rfl⟩
    · exact Or.inr ⟨rfl, rfl⟩
    · rcases run_call_inbuf (dispatch_call s) s with e | ⟨_, e2, e3⟩
      · left
        constructor
        · show (run_call (dispatch_call s) s).head_in = 0
          rw [e]; rfl
        · show (run_call (dispatch_call s) s).tail_in = 0
          rw [e]; rfl
      · exact Or.inr ⟨e2, e3⟩
    · exact Or.inr ⟨rfl, rfl⟩

/-- The loop of `parse` ends within as many iterations as bytes wait in the inbound buffer. -/
theorem parse_loop_total (fuel : Nat) : ∀ s : State,
    s.head_in < BUFSIZE → s.tail_in < BUFSIZE →
    (s.head_in + BUFSIZE - s.tail_in) % BUFSIZE ≤ fuel →
    (parse_loop fuel s).isSome = true := by
  induction fuel with
  | zero =>
    intro s hh ht hc
    have : s.head_in = s.tail_in := by unfold BUFSIZE at *; omega
    rw [parse_loop_empty 0 s (by simp [buf_isempty, State.head, State.tail, this])]
    rfl
  | succ n ih =>
    intro s hh ht hc
    by_cases he : buf_isempty buf_t.INBUF s = 0
    · rw [parse_loop_step n s he]
      have hne : s.head_in ≠ s.tail_in := by
        intro h
        simp [buf_isempty, State.head, State.tail, h] at he
      have hpop : (buf_pop buf_t.INBUF s).2.head_in = s.head_in ∧
          (buf_pop buf_t.INBUF s).2.tail_in =
            (if s.tail_in + 1 = BUFSIZE then 0 else s.tail_in + 1) := by
        unfold buf_pop
        rw [if_neg (by simp [he])]
        unfold BUFSIZE at *
        have hm : (s.tail_in + 1) % 256 = s.tail_in + 1 := by omega
        simp only [hm]
        split <;> exact ⟨rfl, rfl⟩
      have hsome : (parse_loop n
          (parse_byte (buf_pop buf_t.INBUF s).2 (buf_pop buf_t.INBUF s).1).1).isSome = true := by
        apply ih
        · rcases parse_byte_inbuf (buf_pop buf_t.INBUF s).2 (buf_pop buf_t.INBUF s).1 with
            ⟨a, _⟩ | ⟨a, _⟩
          · rw [a]; decide
          · rw [a, hpop.1]; exact hh
        · rcases parse_byte_inbuf (buf_pop buf_t.INBUF s).2 (buf_pop buf_t.INBUF s).1 with
            ⟨_, b⟩ | ⟨_, b⟩
          · rw [b]; decide
          · rw [b, hpop.2]; unfold BUFSIZE at *; split <;> omega
        · rcases parse_byte_inbuf (buf_pop buf_t.INBUF s).2 (buf_pop buf_t.INBUF s).1 with
            ⟨a, b⟩ | ⟨a, b⟩
          · rw [a, b]; simp [BUFSIZE]
          · rw [a, b, hpop.1, hpop.2]; unfold BUFSIZE at *; split <;> omega
      cases hq : parse_loop n
          (parse_byte (buf_pop buf_t.INBUF s).2 (buf_pop buf_t.INBUF s).1).1 with
      | none => rw [hq] at hsome; exact absurd hsome (by decide)
      | some q => rfl
    · rw [parse_loop_empty _ s he]
      rfl

/-- The function `parse` returns whenever the indices of the inbound buffer are in range. -/
theorem parse_total (s : State) (hh : s.head_in < BUFSIZE) (ht : s.tail_in < BUFSIZE) :
    (parse s).isSome = true :=
  parse_loop_total BUFSIZE s hh ht (by unfold BUFSIZE at *; omega)

/-! ## The parser over a byte stream -/

theorem parse_bytes_append (a b : List Nat) : ∀ s : State,
    parse_bytes s (a ++ b) =
      ((parse_bytes (parse_bytes s a).1 b).1, (parse_bytes s a).2 ++ (parse_bytes (parse_bytes s a).1 b).2) := by
  induction a with
  | nil => intro s; simp [parse_bytes]
  | cons x xs ih => intro s; simp [parse_bytes, ih, List.append_assoc]

theorem parse_bytes_cons (b : Nat) (bs : List Nat) (s : State) :
    parse_bytes s (b :: bs) =
      ((parse_bytes (parse_byte s b).1 bs).1, (parse_byte s b).2 ++ (parse_bytes (parse_byte s b).1 bs).2) := rfl

/-- In the idle state every byte other than `$` is discarded. -/
theorem parse_bytes_idle_skip (p : List Nat) (s : State)
    (hidle : s.parse_state = ParseState.PARSE_IDLE) (hp : ∀ c ∈ p, c ≠ 36) :
    parse_bytes s p = (s, []) := by
  induction p with
  | nil => rfl
  | cons c cs ih =>
    have hc : c ≠ 36 := hp c (List.mem_cons_self _ _)
    have h1 : parse_byte s c = (s, []) := by
      unfold parse_byte; rw [hidle]; simp [hc]
    rw [parse_bytes_cons, h1]
    simp [ih (fun c hc => hp c (List.mem_cons_of_mem _ hc))]

/-- A `$` and the three letters of a known header lead from idle to the start of the body. -/
theorem parse_bytes_header (h : MessageType) (s : State)
    (hidle : s.parse_state = ParseState.PARSE_IDLE) (hpos : s.message_pos = 0) :
    parse_bytes s (36 :: frame_header h) = (body_start h s, []) := by
  cases h <;>
    simp [frame_header, parse_bytes, parse_byte, hidle, hpos, Name3.set, header_matched,
      body_start, frame_digits]

theorem hex_digit_cases (c : Nat) :
    (hex_digit_value c = none ∧ ¬ ((48 ≤ c ∧ c ≤ 57) ∨ (65 ≤ c ∧ c ≤ 70) ∨ (97 ≤ c ∧ c ≤ 102))) ∨
    (∃ d, hex_digit_value c = some d ∧ d < 16 ∧ to_nibble c = d ∧
      ((48 ≤ c ∧ c ≤ 57) ∨ (65 ≤ c ∧ c ≤ 70) ∨ (97 ≤ c ∧ c ≤ 102))) := by
  by_cases hc : c ≤ 102
  · interval_cases c <;> simp [hex_digit_value, to_nibble]
  · left
    refine ⟨?_, by omega⟩
    unfold hex_digit_value
    split <;> first | omega | rfl

theorem is_hex_iff (c : Nat) :
    is_hex c ↔ ((48 ≤ c ∧ c ≤ 57) ∨ (65 ≤ c ∧ c ≤ 70) ∨ (97 ≤ c ∧ c ≤ 102)) := by
  unfold is_hex
  rcases hex_digit_cases c with ⟨h1, h2⟩ | ⟨d, h1, _, _, h2⟩
  · simp [h1, h2]
  · simp [h1, h2]

theorem shift_or_nibble (a n : Nat) (hn : n < 16) :
    ((a <<< 4) % 65536) ||| n = 16 * (a % 4096) + n := by
  have h1 : (a <<< 4) % 65536 = 2 ^ 4 * (a % 4096) := by
    rw [Nat.shiftLeft_eq]; omega
  rw [h1, ← Nat.mul_add_lt_is_or (by simpa using hn)]

theorem parse_byte_body_digit (s : State) (c : Nat)
    (hbody : s.parse_state = ParseState.PARSE_BODY) (hc : is_hex c)
    (hcount : s.parsed_digit_count ≠ s.digit_count_to_be_parsed) :
    parse_byte s c =
      ({ s with parsed_number := ((s.parsed_number <<< 4) % 65536) ||| to_nibble c,
                parsed_digit_count := (s.parsed_digit_count + 1) % 256 }, []) := by
  have hr := (is_hex_iff c).1 hc
  have h35 : c ≠ 35 := by omega
  unfold parse_byte
  rw [hbody]
  have hd : ((decide (48 ≤ c) && decide (c ≤ 57)) || (decide (65 ≤ c) && decide (c ≤ 70))
      || (decide (97 ≤ c) && decide (c ≤ 102))) = true := by
    simpa [and_assoc, or_assoc] using hr
  simp only [hd, h35, hcount]
  simp

theorem parse_byte_body_extra (s : State) (c : Nat)
    (hbody : s.parse_state = ParseState.PARSE_BODY) (hc : is_hex c)
    (hcount : s.parsed_digit_count = s.digit_count_to_be_parsed) :
    parse_byte s c = ({ s with parse_state := ParseState.PARSE_IDLE }, []) := by
  have hr := (is_hex_iff c).1 hc
  have h35 : c ≠ 35 := by omega
  unfold parse_byte
  rw [hbody]
  have hd : ((decide (48 ≤ c) && decide (c ≤ 57)) || (decide (65 ≤ c) && decide (c ≤ 70))
      || (decide (97 ≤ c) && decide (c ≤ 102))) = true := by
    simpa [and_assoc, or_assoc] using hr
  simp only [hd, h35, hcount]
  simp

theorem parse_byte_body_invalid (s : State) (c : Nat)
    (hbody : s.parse_state = ParseState.PARSE_BODY) (hc : ¬ is_hex c) (h35 : c ≠ 35) :
    parse_byte s c = ({ s with parse_state := ParseState.PARSE_IDLE }, []) := by
  have hr := (not_congr (is_hex_iff c)).1 hc
  unfold parse_byte
  rw [hbody]
  have hd : ((decide (48 ≤ c) && decide (c ≤ 57)) || (decide (65 ≤ c) && decide (c ≤ 70))
      || (decide (97 ≤ c) && decide (c ≤ 102))) = false := by
    rw [← Bool.not_eq_true]
    simpa [and_assoc, or_assoc] using hr
  simp only [hd, h35]
  simp

theorem parse_byte_body_end (s : State) (hbody : s.parse_state = ParseState.PARSE_BODY) :
    parse_byte s 35 =
      if s.parsed_digit_count = s.digit_count_to_be_parsed then
        ({ (run_call (dispatch_call s) s) with
            parsed_digit_count := 0, parse_state := ParseState.PARSE_IDLE,
            parsed_number := 0 }, [dispatch_call s])
      else
        ({ s with parsed_digit_count := 0, parse_state := ParseState.PARSE_IDLE,
                  parsed_number := 0 }, []) := by
  unfold parse_byte
  rw [hbody]
  simp only
  split_ifs <;> simp_all

/-- The body state reads a run of hexadecimal digits that fits the expected count. -/
theorem parse_bytes_body_digits (ds : List Nat) : ∀ s : State,
    s.parse_state = ParseState.PARSE_BODY → (∀ c ∈ ds, is_hex c) →
    s.parsed_digit_count + ds.length ≤ s.digit_count_to_be_parsed →
    s.digit_count_to_be_parsed < 256 →
    parse_bytes s ds =
      ({ s with parsed_number := accumulate s.parsed_number ds,
                parsed_digit_count := s.parsed_digit_count + ds.length }, []) := by
  induction ds with
  | nil => intro s _ _ _ _; rfl
  | cons c cs ih =>
    intro s hbody hds hlen hdc
    simp only [List.length_cons] at hlen
    have hc : is_hex c := hds c (List.mem_cons_self _ _)
    have hne : s.parsed_digit_count ≠ s.digit_count_to_be_parsed := by omega
    have hm : (s.parsed_digit_count + 1) % 256 = s.parsed_digit_count + 1 := by omega
    rw [parse_bytes_cons, parse_byte_body_digit s c hbody hc hne, hm]
    dsimp only
    rw [ih { s with parsed_number := ((s.parsed_number <<< 4) % 65536) ||| to_nibble c,
                    parsed_digit_count := s.parsed_digit_count + 1 }
      hbody (fun c hc => hds c (List.mem_cons_of_mem _ hc)) (by dsimp only; omega) hdc]
    simp [accumulate, Nat.add_assoc, Nat.add_comm 1]

theorem hex_value_from_is_hex (ds : List Nat) : ∀ acc v, hex_value_from acc ds = some v →
    ∀ c ∈ ds, is_hex c := by
  induction ds with
  | nil => intro _ _ _ c hc; simp at hc
  | cons d ds ih =>
    intro acc v hv c hc
    unfold hex_value_from at hv
    cases hd : hex_digit_value d with
    | none => simp [hd] at hv
    | some x =>
      simp only [hd] at hv
      rcases List.mem_cons.1 hc with rfl | hc
      · simp [is_hex, hd]
      · exact ih _ _ hv c hc

theorem accumulate_four (pn a b c d v : Nat) (hv : hex_value [a, b, c, d] = some v) :
    accumulate pn [a, b, c, d] = v ∧ v < 65536 := by
  simp only [hex_value, hex_value_from] at hv
  rcases hex_digit_cases a with ⟨h1, _⟩ | ⟨da, ha, hla, hna, _⟩
  · simp [h1] at hv
  rcases hex_digit_cases b with ⟨h1, _⟩ | ⟨db, hb, hlb, hnb, _⟩
  · simp [ha, h1] at hv
  rcases hex_digit_cases c with ⟨h1, _⟩ | ⟨dc, hc, hlc, hnc, _⟩
  · simp [ha, hb, h1] at hv
  rcases hex_digit_cases d with ⟨h1, _⟩ | ⟨dd, hd, hld, hnd, _⟩
  · simp [ha, hb, hc, h1] at hv
  simp only [ha, hb, hc, hd, Option.some.injEq] at hv
  simp only [accumulate, List.foldl, hna, hnb, hnc, hnd]
  rw [shift_or_nibble _ _ hla, shift_or_nibble _ _ hlb, shift_or_nibble _ _ hlc,
    shift_or_nibble _ _ hld]
  omega

theorem accumulate_two (pn a b v : Nat) (hv : hex_value [a, b] = some v) :
    accumulate pn [a, b] &&& 0xFF = v ∧ v < 256 := by
  simp only [hex_value, hex_value_from] at hv
  rcases hex_digit_cases a with ⟨h1, _⟩ | ⟨da, ha, hla, hna, _⟩
  · simp [h1] at hv
  rcases hex_digit_cases b with ⟨h1, _⟩ | ⟨db, hb, hlb, hnb, _⟩
  · simp [ha, h1] at hv
  simp only [ha, hb, Option.some.injEq] at hv
  simp only [accumulate, List.foldl, hna, hnb]
  rw [shift_or_nibble _ _ hla, shift_or_nibble _ _ hlb]
  have : (0xFF : Nat) = 2 ^ 8 - 1 := by norm_num
  rw [this, Nat.and_pow_two_sub_one_eq_mod]
  omega

theorem list_length_four (l : List Nat) (h : l.length = 4) :
    ∃ a b c d, l = [a, b, c, d] := by
  rcases l with _ | ⟨a, _ | ⟨b, _ | ⟨c, _ | ⟨d, _ | ⟨e, l⟩⟩⟩⟩⟩ <;> simp at h
  exact ⟨a, b, c, d, rfl⟩

theorem list_length_two (l : List Nat) (h : l.length = 2) : ∃ a b, l = [a, b] := by
  rcases l with _ | ⟨a, _ | ⟨b, _ | ⟨c, l⟩⟩⟩ <;> simp at h
  exact ⟨a, b, rfl⟩

/-- The call the body state makes at `#` is the call the frame stands for. -/
theorem dispatch_call_body_read (h : MessageType) (digits : List Nat) (v : Nat) (s : State)
    (hlen : digits.length = frame_digits h) (hv : hex_value digits = some v) :
    dispatch_call (body_read h digits s) = frame_call h v := by
  have four : digits.length = 4 → accumulate s.parsed_number digits = v := by
    intro h4
    obtain ⟨a, b, c, d, rfl⟩ := list_length_four digits h4
    exact (accumulate_four s.parsed_number a b c d v hv).1
  have two : digits.length = 2 → accumulate s.parsed_number digits &&& 0xFF = v := by
    intro h2
    obtain ⟨a, b, rfl⟩ := list_length_two digits h2
    exact (accumulate_two s.parsed_number a b v hv).1
  cases h <;> simp only [frame_digits] at hlen
  · simp [dispatch_call, body_read, body_start, frame_call, four hlen]
  · rfl
  · simp [dispatch_call, body_read, body_start, frame_call, four hlen]
  · simp [dispatch_call, body_read, body_start, frame_call, four hlen]
  · simp only [dispatch_call, body_read, body_start, frame_call, two hlen]
  · simp only [dispatch_call, body_read, body_start, frame_call, two hlen]

/-- A well-formed frame read from the idle state makes exactly its handler call. -/
theorem parse_bytes_frame (h : MessageType) (digits : List Nat) (v : Nat) (s : State)
    (hidle : s.parse_state = ParseState.PARSE_IDLE) (hpos : s.message_pos = 0)
    (hlen : digits.length = frame_digits h) (hv : hex_value digits = some v) :
    parse_bytes s (frame h digits) =
      (frame_done (frame_call h v) (body_read h digits s), [frame_call h v]) := by
  have hall := hex_value_from_is_hex digits 0 v hv
  have e : frame h digits = (36 :: frame_header h) ++ (digits ++ [35]) := by
    simp [frame]
  have hd : frame_digits h < 256 := by cases h <;> decide
  rw [e, parse_bytes_append, parse_bytes_header h s hidle hpos]
  dsimp only
  rw [parse_bytes_append, parse_bytes_body_digits digits (body_start h s) rfl hall
    (by simp [body_start, hlen]) hd]
  dsimp only
  have hb : ({ body_start h s with
      parsed_number := accumulate (body_start h s).parsed_number digits,
      parsed_digit_count := (body_start h s).parsed_digit_count + digits.length } : State)
      = body_read h digits s := by
    simp [body_read, body_start]
  rw [hb, parse_bytes_cons, parse_byte_body_end _ rfl]
  rw [if_pos (by simp [body_read, body_start, hlen])]
  simp [parse_bytes, dispatch_call_body_read h digits v s hlen hv, frame_done]

theorem serial_in_append (a b : List Nat) : ∀ s : State,
    serial_in s (a ++ b) =
      match serial_in s a with
      | some r =>
        match serial_in r.1 b with
        | some q => some (q.1, r.2 ++ q.2)
        | none => none
      | none => none := by
  induction a with
  | nil =>
    intro s
    simp only [List.nil_append, serial_in]
    cases serial_in s b <;> simp
  | cons x xs ih =>
    intro s
    cases hp : parse (receive_isr x s) with
    | none => simp [serial_in, hp]
    | some r =>
      have e := ih r.1
      cases h1 : serial_in r.1 xs with
      | none => simp [serial_in, hp, e, h1]
      | some q =>
        cases h2 : serial_in q.1 b with
        | none => simp [serial_in, hp, e, h1, h2]
        | some u => simp [serial_in, hp, e, h1, h2, List.append_assoc]

/-- The frame end `#` after an `END` header restarts the device. -/
theorem serial_in_end (s : State) (hbuf : InbufReady s)
    (hbody : s.parse_state = ParseState.PARSE_BODY)
    (htype : s.message_type = MessageType.MT_END)
    (hcount : s.parsed_digit_count = s.digit_count_to_be_parsed) :
    serial_in s [35] = some (reset_state, [Call.get_end]) := by
  have h1 : (rx 35 s).parse_state = ParseState.PARSE_BODY := hbody
  have h2 : (rx 35 s).parsed_digit_count = (rx 35 s).digit_count_to_be_parsed := hcount
  have h3 : dispatch_call (rx 35 s) = Call.get_end := by
    have : (rx 35 s).message_type = MessageType.MT_END := htype
    simp [dispatch_call, this]
  simp only [serial_in, parse_receive 35 s hbuf, parse_byte_body_end _ h1, if_pos h2, h3]
  rfl

theorem parse_byte_no_call (s : State) (c : Nat) (h : (parse_byte s c).2 = []) :
    parser_blanked (parse_byte s c).1 = parser_blanked s := by
  unfold parse_byte at h ⊢
  cases hps : s.parse_state
  · simp only [hps] at h ⊢
    split <;> rfl
  · simp only [hps, header_matched] at h ⊢
    split_ifs <;> rfl
  · simp only [hps] at h ⊢
    split_ifs at h ⊢
    all_goals rfl

theorem parse_bytes_no_call (bs : List Nat) : ∀ s : State, (parse_bytes s bs).2 = [] →
    parser_blanked (parse_bytes s bs).1 = parser_blanked s := by
  induction bs with
  | nil => intro s _; rfl
  | cons c cs ih =>
    intro s h
    rw [parse_bytes_cons] at h ⊢
    simp only [List.append_eq_nil] at h
    dsimp only
    rw [ih _ h.2, parse_byte_no_call s c h.1]

theorem parse_bytes_unknown_header (x y z : Nat) (s : State)
    (hidle : s.parse_state = ParseState.PARSE_IDLE) (hpos : s.message_pos = 0)
    (hunk : ∀ h, [x, y, z] ≠ frame_header h) :
    parse_bytes s [36, x, y, z] =
      ({ s with parse_state := ParseState.PARSE_IDLE, message_name := ⟨x, y, z⟩,
                message_pos := 3 }, []) := by
  have h1 := hunk MessageType.MT_GO
  have h2 := hunk MessageType.MT_END
  have h3 := hunk MessageType.MT_SPEED
  have h4 := hunk MessageType.MT_ALTITUDE
  have h5 := hunk MessageType.MT_MANUAL
  have h6 := hunk MessageType.MT_LED
  simp only [frame_header, ne_eq, List.cons.injEq, and_true] at h1 h2 h3 h4 h5 h6
  simp [parse_bytes, parse_byte, hidle, hpos, Name3.set, h1, h2, h3, h4, h5, h6]

theorem hex_ne_marks (c : Nat) (h : is_hex c) : c ≠ 35 ∧ c ≠ 36 := by
  have := (is_hex_iff c).1 h
  omega

/-- The body state over bytes that hold neither `#` nor `$`: no handler is called, and the
parser either has returned to idle or has read the bytes as digits within the expected count. -/
theorem parse_bytes_body_run (bs : List Nat) : ∀ s : State,
    s.parse_state = ParseState.PARSE_BODY → s.message_pos = 0 →
    s.parsed_digit_count ≤ s.digit_count_to_be_parsed →
    s.digit_count_to_be_parsed < 256 →
    (∀ c ∈ bs, c ≠ 35 ∧ c ≠ 36) →
    (parse_bytes s bs).2 = [] ∧ (parse_bytes s bs).1.message_pos = 0 ∧
    ((parse_bytes s bs).1.parse_state = ParseState.PARSE_IDLE ∨
      ((parse_bytes s bs).1.parse_state = ParseState.PARSE_BODY ∧ (∀ c ∈ bs, is_hex c) ∧
        (parse_bytes s bs).1.parsed_digit_count = s.parsed_digit_count + bs.length ∧
        (parse_bytes s bs).1.digit_count_to_be_parsed = s.digit_count_to_be_parsed)) := by
  induction bs with
  | nil =>
    intro s hbody hpos _ _ _
    exact ⟨rfl, hpos, Or.inr ⟨hbody, by simp, rfl, rfl⟩⟩
  | cons c cs ih =>
    intro s hbody hpos hle hdc hbs
    have hcs : ∀ c ∈ cs, c ≠ 35 ∧ c ≠ 36 := fun c hc => hbs c (List.mem_cons_of_mem _ hc)
    have hc := hbs c (List.mem_cons_self _ _)
    have hidle : ∀ t : State, t.parse_state = ParseState.PARSE_IDLE →
        parse_bytes t cs = (t, []) :=
      fun t ht => parse_bytes_idle_skip cs t ht (fun c hc => (hcs c hc).2)
    rw [parse_bytes_cons]
    by_cases hx : is_hex c
    · by_cases hcount : s.parsed_digit_count = s.digit_count_to_be_parsed
      · rw [parse_byte_body_extra s c hbody hx hcount]
        dsimp only
        rw [hidle _ rfl]
        exact ⟨rfl, hpos, Or.inl rfl⟩
      · rw [parse_byte_body_digit s c hbody hx hcount]
        dsimp only
        have hm : (s.parsed_digit_count + 1) % 256 = s.parsed_digit_count + 1 := by omega
        rw [hm]
        have := ih { s with
            parsed_number := ((s.parsed_number <<< 4) % 65536) ||| to_nibble c,
            parsed_digit_count := s.parsed_digit_count + 1 } hbody hpos
            (by dsimp only; omega) hdc hcs
        obtain ⟨a1, a2, a3⟩ := this
        refine ⟨by simpa using a1, a2, ?_⟩
        rcases a3 with a3 | ⟨b1, b2, b3, b4⟩
        · exact Or.inl a3
        · refine Or.inr ⟨b1, ?_, ?_, b4⟩
          · intro d hd
            rcases List.mem_cons.1 hd with rfl | hd
            · exact hx
            · exact b2 d hd
          · rw [b3]
            simp only [List.length_cons]
            omega
    · rw [parse_byte_body_invalid s c hbody hx hc.1]
      dsimp only
      rw [hidle _ rfl]
      exact ⟨rfl, hpos, Or.inl rfl⟩

/-- A frame with a known header whose body is not the expected run of digits is dropped:
no handler is called and the parser is idle again, ready for a header. -/
theorem parse_bytes_dropped_frame (h : MessageType) (body : List Nat) (s : State)
    (hidle : s.parse_state = ParseState.PARSE_IDLE) (hpos : s.message_pos = 0)
    (hb : ∀ c ∈ body, c ≠ 35 ∧ c ≠ 36)
    (hbad : body.length ≠ frame_digits h ∨ ∃ x ∈ body, ¬ is_hex x) :
    (parse_bytes s (frame h body)).2 = [] ∧
    (parse_bytes s (frame h body)).1.parse_state = ParseState.PARSE_IDLE ∧
    (parse_bytes s (frame h body)).1.message_pos = 0 := by
  have e : frame h body = (36 :: frame_header h) ++ (body ++ [35]) := by simp [frame]
  have hd : frame_digits h < 256 := by cases h <;> decide
  rw [e, parse_bytes_append, parse_bytes_header h s hidle hpos]
  dsimp only
  rw [parse_bytes_append]
  obtain ⟨a1, a2, a3⟩ := parse_bytes_body_run body (body_start h s) rfl rfl
    (Nat.zero_le _) hd hb
  rw [a1]
  rcases a3 with a3 | ⟨b1, b2, b3, b4⟩
  · rw [parse_bytes_idle_skip [35] _ a3 (by simp)]
    exact ⟨rfl, a3, a2⟩
  · have hne : (parse_bytes (body_start h s) body).1.parsed_digit_count ≠
        (parse_bytes (body_start h s) body).1.digit_count_to_be_parsed := by
      rw [b3, b4]
      rcases hbad with hl | ⟨x, hx, hnx⟩
      · simpa [body_start] using hl
      · exact absurd (b2 x hx) hnx
    rw [parse_bytes_cons, parse_byte_body_end _ b1, if_neg hne]
    exact ⟨rfl, rfl, a2⟩

theorem serial_in_end_frame (s : State) (hbuf : InbufReady s)
    (hidle : s.parse_state = ParseState.PARSE_IDLE) (hpos : s.message_pos = 0) :
    serial_in s (frame MessageType.MT_END []) = some (reset_state, [Call.get_end]) := by
  have e : frame MessageType.MT_END [] = (36 :: frame_header MessageType.MT_END) ++ [35] := rfl
  obtain ⟨t, ht, hc, hr⟩ :=
    serial_in_parse_bytes (36 :: frame_header MessageType.MT_END) s s hbuf rfl
  rw [parse_bytes_header _ s hidle hpos] at ht hc
  have h1 : t.parse_state = ParseState.PARSE_BODY := congrArg State.parse_state hc
  have h2 : t.message_type = MessageType.MT_END := congrArg State.message_type hc
  have h3 : t.parsed_digit_count = 0 := congrArg State.parsed_digit_count hc
  have h4 : t.digit_count_to_be_parsed = 0 := congrArg State.digit_count_to_be_parsed hc
  rw [e, serial_in_append, ht]
  dsimp only
  rw [serial_in_end t hr h1 h2 (by rw [h3, h4])]
  rfl

theorem parse_byte_body_pos (s : State) (c : Nat) (h : BodyPosClear s) :
    BodyPosClear (parse_byte s c).1 := by
  unfold BodyPosClear at h ⊢
  unfold parse_byte
  cases hps : s.parse_state
  · simp only
    split <;> simp [hps]
  · simp only [header_matched]
    split_ifs <;> simp
  · simp only
    split_ifs <;> simp [h hps]

theorem parse_bytes_body_pos (bs : List Nat) : ∀ s : State, BodyPosClear s →
    BodyPosClear (parse_bytes s bs).1 := by
  induction bs with
  | nil => intro s h; exact h
  | cons c cs ih =>
    intro s h
    rw [parse_bytes_cons]
    exact ih _ (parse_byte_body_pos s c h)

theorem frame_tail_no_dollar (h : MessageType) (digits : List Nat) (v : Nat)
    (hv : hex_value digits = some v) :
    ∀ c ∈ frame_header h ++ digits ++ [35], c ≠ 36 := by
  have hall := hex_value_from_is_hex digits 0 v hv
  intro c hc
  simp only [List.mem_append, List.mem_singleton] at hc
  rcases hc with (hc | hc) | hc
  · cases h <;> simp [frame_header] at hc <;> omega
  · exact (hex_ne_marks c (hall c hc)).2
  · omega

/-! ## The telemetry scheduler and the encoder -/

theorem buf_push_out (v : Nat) (s : State) :
    buf_push v buf_t.OUTBUF s =
      { s with outbuf := (ring_push v (s.outbuf, s.head_out)).1,
               head_out := (ring_push v (s.outbuf, s.head_out)).2 } := by
  unfold buf_push ring_push
  dsimp only
  split <;> rfl

theorem buf_push_all_out (bs : List Nat) : ∀ s : State,
    buf_push_all bs buf_t.OUTBUF s =
      { s with outbuf := (ring_push_all bs (s.outbuf, s.head_out)).1,
               head_out := (ring_push_all bs (s.outbuf, s.head_out)).2 } := by
  induction bs with
  | nil => intro s; rfl
  | cons b bs ih =>
    intro s
    have : buf_push_all (b :: bs) buf_t.OUTBUF s
        = buf_push_all bs buf_t.OUTBUF (buf_push b buf_t.OUTBUF s) := rfl
    rw [this, ih, buf_push_out]
    rfl

theorem send_distance_eq (d : Nat) (s : State) :
    send_distance d s = send (buf_push_all (dst_frame d) buf_t.OUTBUF s) := by
  simp only [send_distance, dst_frame, hex4, buf_push_all, List.cons_append, List.nil_append,
    List.foldl_cons, List.foldl_nil]

theorem send_altitude_eq (a : Nat) (s : State) :
    send_altitude a s = send (buf_push_all (alt_frame a) buf_t.OUTBUF s) := by
  simp only [send_altitude, alt_frame, hex4, buf_push_all, List.cons_append, List.nil_append,
    List.foldl_cons, List.foldl_nil]

theorem send_button_press_eq (b : Nat) (s : State) :
    send_button_press b s = send (buf_push_all (prs_frame b) buf_t.OUTBUF s) := by
  simp only [send_button_press, prs_frame, hex2, buf_push_all, List.cons_append,
    List.nil_append, List.foldl_cons, List.foldl_nil]

/-- The outbound channel after a frame has been pushed depends on the outbound channel only. -/
theorem outbound_push_all (bs : List Nat) (s t : State) (h : outbound s = outbound t) :
    outbound (send (buf_push_all bs buf_t.OUTBUF s)) = outbound (buf_push_all bs buf_t.OUTBUF t) := by
  simp only [outbound, Prod.mk.injEq] at h
  obtain ⟨h1, h2, h3⟩ := h
  rw [buf_push_all_out, buf_push_all_out]
  simp only [outbound, send, h1, h2, h3]

theorem timer_isr_pre (s : State) : timer_isr_count (timer_isr_countdown s) = tick_pre s := by
  unfold timer_isr_countdown timer_isr_count tick_pre
  split
  · rfl
  · have : s.dist - s.speed = 0 := by omega
    rw [this]

theorem sent_eq (f : List Nat) (s : State) :
    send (buf_push_all f buf_t.OUTBUF s) = sent f s := by
  rw [buf_push_all_out]
  simp only [send, sent]

theorem send_altitude_sent (a : Nat) (s : State) : send_altitude a s = sent (alt_frame a) s :=
  (send_altitude_eq a s).trans (sent_eq _ s)

theorem send_distance_sent (d : Nat) (s : State) : send_distance d s = sent (dst_frame d) s :=
  (send_distance_eq d s).trans (sent_eq _ s)

theorem send_button_press_sent (b : Nat) (s : State) :
    send_button_press b s = sent (prs_frame b) s :=
  (send_button_press_eq b s).trans (sent_eq _ s)

theorem outbound_sent (f : List Nat) (s : State) :
    outbound (sent f s) = outbound (buf_push_all f buf_t.OUTBUF s) := by
  rw [buf_push_all_out]
  simp only [outbound, sent]

theorem timer_isr_clear_of_ne (t : State) (h : t.altitude_period ≠ 0) :
    timer_isr_clear t = t := if_neg h

theorem timer_isr_clear_of_eq (t : State) (h : t.altitude_period = 0) :
    timer_isr_clear t = { t with counter := 0 } := if_pos h

/-- A due tick. -/
theorem timer_isr_of_due (s : State) (h : altitude_due s) :
    timer_isr s = { sent (alt_frame s.adc) (tick_pre s) with counter := 0 } := by
  obtain ⟨h1, h2⟩ := h
  unfold timer_isr
  rw [timer_isr_pre]
  have hc : (tick_pre s).altitude_period ≠ 0 ∧ (tick_pre s).counter = (tick_pre s).altitude_period :=
    ⟨h1, h2⟩
  have hsel : timer_isr_select (tick_pre s) =
      { sent (alt_frame s.adc) (tick_pre s) with counter := 0 } := by
    unfold timer_isr_select
    rw [if_pos hc, send_altitude_sent]
    rfl
  rw [hsel]
  exact timer_isr_clear_of_ne _ h1

theorem timer_isr_select_button (t : State) (i : Nat)
    (hnd : ¬ (t.altitude_period ≠ 0 ∧ t.counter = t.altitude_period))
    (hp : lowest_pending t.portb_send = some i) :
    timer_isr_select t =
      { sent (prs_frame (4 + i)) t with portb_send := t.portb_send.set i false } := by
  unfold timer_isr_select
  rw [if_neg hnd]
  unfold lowest_pending at hp
  cases h0 : t.portb_send.b0
  · cases h1 : t.portb_send.b1
    · cases h2 : t.portb_send.b2
      · cases h3 : t.portb_send.b3
        · simp [List.find?, Bool4.get, h0, h1, h2, h3] at hp
        · simp [List.find?, Bool4.get, h0, h1, h2, h3] at hp
          subst hp
          simp only [Bool.false_eq_true, if_false, if_true, send_button_press_sent]
          rfl
      · simp [List.find?, Bool4.get, h0, h1, h2] at hp
        subst hp
        simp only [Bool.false_eq_true, if_false, if_true, send_button_press_sent]
        rfl
    · simp [List.find?, Bool4.get, h0, h1] at hp
      subst hp
      simp only [Bool.false_eq_true, if_false, if_true, send_button_press_sent]
      rfl
  · simp [List.find?, Bool4.get, h0] at hp
    subst hp
    simp only [if_true, send_button_press_sent]
    rfl

theorem timer_isr_select_distance (t : State)
    (hnd : ¬ (t.altitude_period ≠ 0 ∧ t.counter = t.altitude_period))
    (hp : lowest_pending t.portb_send = none) :
    timer_isr_select t = sent (dst_frame t.dist) t := by
  unfold timer_isr_select
  rw [if_neg hnd]
  unfold lowest_pending at hp
  cases h0 : t.portb_send.b0 <;> cases h1 : t.portb_send.b1 <;>
    cases h2 : t.portb_send.b2 <;> cases h3 : t.portb_send.b3 <;>
    simp [List.find?, Bool4.get, h0, h1, h2, h3] at hp
  simp only [Bool.false_eq_true, if_false, send_distance_sent]

theorem not_due_pre (s : State) (h : ¬ altitude_due s) :
    ¬ ((tick_pre s).altitude_period ≠ 0 ∧ (tick_pre s).counter = (tick_pre s).altitude_period) :=
  h

/-- A tick that is not due, with a button pending. -/
theorem timer_isr_of_button (s : State) (i : Nat) (h : ¬ altitude_due s)
    (hp : lowest_pending s.portb_send = some i) :
    timer_isr s = timer_isr_clear
      { sent (prs_frame (4 + i)) (tick_pre s) with portb_send := s.portb_send.set i false } := by
  unfold timer_isr
  rw [timer_isr_pre, timer_isr_select_button (tick_pre s) i (not_due_pre s h) hp]
  rfl

/-- A tick that is not due, with no button pending. -/
theorem timer_isr_of_idle (s : State) (h : ¬ altitude_due s)
    (hp : lowest_pending s.portb_send = none) :
    timer_isr s = timer_isr_clear (sent (dst_frame (s.dist - s.speed)) (tick_pre s)) := by
  unfold timer_isr
  rw [timer_isr_pre, timer_isr_select_distance (tick_pre s) (not_due_pre s h) hp]
  rfl

theorem timer_isr_clear_fields (t : State) :
    (timer_isr_clear t).dist = t.dist ∧ (timer_isr_clear t).speed = t.speed ∧
    (timer_isr_clear t).altitude_period = t.altitude_period ∧
    (timer_isr_clear t).portb_send = t.portb_send ∧
    outbound (timer_isr_clear t) = outbound t ∧
    (timer_isr_clear t).inbuf = t.inbuf ∧ (timer_isr_clear t).head_in = t.head_in ∧
    (timer_isr_clear t).tail_in = t.tail_in ∧ (timer_isr_clear t).adc = t.adc := by
  unfold timer_isr_clear
  split <;> exact ⟨rfl, rfl, rfl, rfl, rfl, rfl, rfl, rfl, rfl⟩

theorem lowest_pending_cases (a : Bool4) :
    lowest_pending a = none ∨ ∃ i, lowest_pending a = some i ∧ i < 4 ∧ a.get i = true := by
  unfold lowest_pending
  rcases a with ⟨b0, b1, b2, b3⟩
  cases b0 <;> cases b1 <;> cases b2 <;> cases b3 <;> simp [List.find?, Bool4.get]

theorem lowest_pending_none (a : Bool4) (h : lowest_pending a = none) (j : Nat) :
    a.get j = false := by
  unfold lowest_pending at h
  rcases a with ⟨b0, b1, b2, b3⟩
  rcases j with _ | _ | _ | _ | j <;>
    cases b0 <;> cases b1 <;> cases b2 <;> cases b3 <;> simp_all [List.find?, Bool4.get]

/-- The variables a tick leaves alone or changes in a fixed way. -/
theorem timer_isr_fields (s : State) :
    (timer_isr s).dist = s.dist - s.speed ∧ (timer_isr s).speed = s.speed ∧
    (timer_isr s).altitude_period = s.altitude_period ∧
    (timer_isr s).inbuf = s.inbuf ∧ (timer_isr s).head_in = s.head_in ∧
    (timer_isr s).tail_in = s.tail_in ∧ (timer_isr s).adc = s.adc := by
  by_cases hd : altitude_due s
  · rw [timer_isr_of_due s hd]
    exact ⟨rfl, rfl, rfl, rfl, rfl, rfl, rfl⟩
  · rcases lowest_pending_cases s.portb_send with hp | ⟨i, hp, _, _⟩
    · rw [timer_isr_of_idle s hd hp]
      obtain ⟨c1, c2, c3, _, _, c6, c7, c8, c9⟩ :=
        timer_isr_clear_fields (sent (dst_frame (s.dist - s.speed)) (tick_pre s))
      exact ⟨c1, c2, c3, c6, c7, c8, c9⟩
    · rw [timer_isr_of_button s i hd hp]
      obtain ⟨c1, c2, c3, _, _, c6, c7, c8, c9⟩ := timer_isr_clear_fields
        { sent (prs_frame (4 + i)) (tick_pre s) with portb_send := s.portb_send.set i false }
      exact ⟨c1, c2, c3, c6, c7, c8, c9⟩

theorem timer_isr_iterate_dist (n : Nat) : ∀ s : State,
    (timer_isr^[n] s).dist = s.dist - n * s.speed ∧ (timer_isr^[n] s).speed = s.speed := by
  induction n with
  | zero => intro s; simp
  | succ n ih =>
    intro s
    rw [Function.iterate_succ_apply]
    obtain ⟨h1, h2⟩ := ih (timer_isr s)
    obtain ⟨f1, f2, _⟩ := timer_isr_fields s
    rw [h1, h2, f1, f2]
    refine ⟨?_, rfl⟩
    rw [Nat.succ_mul, Nat.sub_sub, Nat.add_comm]

theorem to_hex_of_nibble (n : Nat) (h : n < 16) :
    hex_digit_value (to_hex n) = some n ∧ to_nibble (to_hex n) = n ∧
    ((48 ≤ to_hex n ∧ to_hex n ≤ 57) ∨ (65 ≤ to_hex n ∧ to_hex n ≤ 70)) := by
  interval_cases n <;> simp [to_hex, hex_digit_value, to_nibble]

theorem and_fifteen_lt (x : Nat) : x &&& 0xF < 16 := by
  have : (0xF : Nat) = 2 ^ 4 - 1 := by norm_num
  rw [this, Nat.and_pow_two_sub_one_eq_mod]
  omega

theorem to_hex_mark (x : Nat) : to_hex (x &&& 0xF) ≠ 36 ∧ to_hex (x &&& 0xF) ≠ 35 := by
  have := (to_hex_of_nibble (x &&& 0xF) (and_fifteen_lt x)).2.2
  omega

theorem hex4_chars (v : Nat) : ∀ c ∈ hex4 v, c ≠ 36 ∧ c ≠ 35 := by
  intro c hc
  simp only [hex4, List.mem_cons, List.mem_singleton, List.not_mem_nil, or_false] at hc
  rcases hc with rfl | rfl | rfl | rfl <;> exact to_hex_mark _

theorem hex2_chars (v : Nat) : ∀ c ∈ hex2 v, c ≠ 36 ∧ c ≠ 35 := by
  intro c hc
  simp only [hex2, List.mem_cons, List.mem_singleton, List.not_mem_nil, or_false] at hc
  rcases hc with rfl | rfl <;> exact to_hex_mark _

theorem dst_frame_complete (d : Nat) : complete_frame (dst_frame d) := by
  refine ⟨[68, 83, 84] ++ hex4 d, by simp [dst_frame], ?_⟩
  intro c hc
  rcases List.mem_append.1 hc with h | h
  · simp at h; omega
  · exact hex4_chars d c h

theorem alt_frame_complete (a : Nat) : complete_frame (alt_frame a) := by
  refine ⟨[65, 76, 84] ++ hex4 (adc_to_alt a), by simp [alt_frame], ?_⟩
  intro c hc
  rcases List.mem_append.1 hc with h | h
  · simp at h; omega
  · exact hex4_chars _ c h

theorem prs_frame_complete (b : Nat) : complete_frame (prs_frame b) := by
  refine ⟨[80, 82, 83] ++ hex2 b, by simp [prs_frame], ?_⟩
  intro c hc
  rcases List.mem_append.1 hc with h | h
  · simp at h; omega
  · exact hex2_chars _ c h

theorem outbound_send_altitude (a : Nat) (s t : State) (h : outbound s = outbound t) :
    outbound (send_altitude a s) = outbound (buf_push_all (alt_frame a) buf_t.OUTBUF t) := by
  rw [send_altitude_eq]; exact outbound_push_all _ s t h

theorem outbound_send_distance (d : Nat) (s t : State) (h : outbound s = outbound t) :
    outbound (send_distance d s) = outbound (buf_push_all (dst_frame d) buf_t.OUTBUF t) := by
  rw [send_distance_eq]; exact outbound_push_all _ s t h

theorem outbound_send_button_press (b : Nat) (s t : State) (h : outbound s = outbound t) :
    outbound (send_button_press b s) = outbound (buf_push_all (prs_frame b) buf_t.OUTBUF t) := by
  rw [send_button_press_eq]; exact outbound_push_all _ s t h

theorem outbound_tick_pre (s : State) : outbound (tick_pre s) = outbound s := rfl

theorem outbound_sent_pre (f : List Nat) (s : State) :
    outbound (sent f (tick_pre s)) = outbound (buf_push_all f buf_t.OUTBUF s) := by
  rw [← sent_eq]
  exact outbound_push_all f (tick_pre s) s (outbound_tick_pre s)

theorem outbound_counter (t : State) (c : Nat) :
    outbound { t with counter := c } = outbound t := rfl

theorem outbound_portb_send (t : State) (a : Bool4) :
    outbound { t with portb_send := a } = outbound t := rfl

/-- The outbound channel after a tick, by the three cases of the selection. -/
theorem timer_isr_outbound (s : State) :
    (altitude_due s ∧
      outbound (timer_isr s) = outbound (buf_push_all (alt_frame s.adc) buf_t.OUTBUF s) ∧
      (timer_isr s).portb_send = s.portb_send) ∨
    (¬ altitude_due s ∧ ∃ i, lowest_pending s.portb_send = some i ∧ i < 4 ∧
      outbound (timer_isr s) = outbound (buf_push_all (prs_frame (4 + i)) buf_t.OUTBUF s) ∧
      (timer_isr s).portb_send = s.portb_send.set i false) ∨
    (¬ altitude_due s ∧ lowest_pending s.portb_send = none ∧
      outbound (timer_isr s) =
        outbound (buf_push_all (dst_frame (timer_isr s).dist) buf_t.OUTBUF s) ∧
      (timer_isr s).portb_send = s.portb_send) := by
  by_cases hd : altitude_due s
  · left
    refine ⟨hd, ?_, ?_⟩
    · rw [timer_isr_of_due s hd, outbound_counter, outbound_sent_pre]
    · rw [timer_isr_of_due s hd]; rfl
  · right
    rcases lowest_pending_cases s.portb_send with hp | ⟨i, hp, hi, _⟩
    · right
      have hdist := (timer_isr_fields s).1
      refine ⟨hd, hp, ?_, ?_⟩
      · rw [hdist, timer_isr_of_idle s hd hp, (timer_isr_clear_fields _).2.2.2.2.1,
          outbound_sent_pre]
      · rw [timer_isr_of_idle s hd hp, (timer_isr_clear_fields _).2.2.2.1]; rfl
    · left
      refine ⟨hd, i, hp, hi, ?_, ?_⟩
      · rw [timer_isr_of_button s i hd hp, (timer_isr_clear_fields _).2.2.2.2.1,
          outbound_portb_send, outbound_sent_pre]
      · rw [timer_isr_of_button s i hd hp, (timer_isr_clear_fields _).2.2.2.1]

theorem iterate_due_portb_send (n : Nat) (t : State)
    (h : ∀ k < n, altitude_due (timer_isr^[k] t)) :
    (timer_isr^[n] t).portb_send = t.portb_send := by
  induction n with
  | zero => rfl
  | succ n ih =>
    rw [Function.iterate_succ_apply']
    have hn := h n (Nat.lt_succ_self n)
    rcases timer_isr_outbound (timer_isr^[n] t) with ⟨_, _, hps⟩ | ⟨hnd, _⟩ | ⟨hnd, _⟩
    · rw [hps]; exact ih (fun k hk => h k (Nat.lt_succ_of_lt hk))
    · exact absurd hn hnd
    · exact absurd hn hnd

theorem and_fifteen (x : Nat) : x &&& 0xF = x % 16 := by
  have : (0xF : Nat) = 2 ^ 4 - 1 := by norm_num
  rw [this, Nat.and_pow_two_sub_one_eq_mod]

theorem shift_four (x : Nat) : x >>> 4 = x / 16 := by
  rw [Nat.shiftRight_eq_div_pow]

theorem hex_value_hex4 (v : Nat) (hv : v < 65536) : hex_value (hex4 v) = some v := by
  simp only [hex4, hex_value, hex_value_from, and_fifteen, shift_four]
  rw [(to_hex_of_nibble (v / 16 / 16 / 16 % 16) (by omega)).1]
  simp only
  rw [(to_hex_of_nibble (v / 16 / 16 % 16) (by omega)).1]
  simp only
  rw [(to_hex_of_nibble (v / 16 % 16) (by omega)).1]
  simp only
  rw [(to_hex_of_nibble (v % 16) (by omega)).1]
  simp only [Option.some.injEq]
  omega

theorem hex_value_hex2 (b : Nat) (hb : b < 256) : hex_value (hex2 b) = some b := by
  simp only [hex2, hex_value, hex_value_from, and_fifteen, shift_four]
  rw [(to_hex_of_nibble (b / 16 % 16) (by omega)).1]
  simp only
  rw [(to_hex_of_nibble (b % 16) (by omega)).1]
  simp only [Option.some.injEq]
  omega

/-! ## The outbound ring -/

theorem buf_contents_out (s : State) :
    buf_contents buf_t.OUTBUF s = ring_contents s.outbuf s.head_out s.tail_out := rfl

theorem ring_contents_push (v : Nat) (a : List Nat) (h t : Nat) (ha : a.length = BUFSIZE)
    (hh : h < BUFSIZE) (ht : t < BUFSIZE) (hroom : (ring_contents a h t).length < 254) :
    ring_contents (ring_push v (a, h)).1 (ring_push v (a, h)).2 t = ring_contents a h t ++ [v] ∧
    (ring_push v (a, h)).1.length = BUFSIZE ∧ (ring_push v (a, h)).2 < BUFSIZE := by
  unfold BUFSIZE at *
  simp only [ring_contents, List.length_map, List.length_range, BUFSIZE] at hroom
  have hm : (h + 1) % 256 = h + 1 := by omega
  have hcount : ((if h + 1 = 255 then 0 else h + 1) + 255 - t) % 255 =
      (h + 255 - t) % 255 + 1 := by
    split <;> omega
  refine ⟨?_, by simp [ring_push, ha], by simp only [ring_push, hm, BUFSIZE]; split <;> omega⟩
  simp only [ring_contents, ring_push, hm, BUFSIZE, hcount, List.range_succ, List.map_append,
    List.map_cons, List.map_nil]
  congr 1
  · apply List.map_congr_left
    intro i hi
    rw [List.mem_range] at hi
    have hne : h ≠ (t + i) % 255 := by omega
    simp [List.getD_eq_getElem?_getD, List.getElem?_set, hne]
  · have he : (t + (h + 255 - t) % 255) % 255 = h := by omega
    simp [List.getD_eq_getElem?_getD, List.getElem?_set, he, ha, hh]

theorem ring_contents_push_all (bs : List Nat) : ∀ (a : List Nat) (h t : Nat),
    a.length = BUFSIZE → h < BUFSIZE → t < BUFSIZE →
    (ring_contents a h t).length + bs.length ≤ 254 →
    ring_contents (ring_push_all bs (a, h)).1 (ring_push_all bs (a, h)).2 t =
      ring_contents a h t ++ bs ∧
    (ring_push_all bs (a, h)).1.length = BUFSIZE ∧ (ring_push_all bs (a, h)).2 < BUFSIZE := by
  induction bs with
  | nil => intro a h t ha hh _ _; simp [ring_push_all, ha, hh]
  | cons b bs ih =>
    intro a h t ha hh ht hroom
    simp only [List.length_cons] at hroom
    obtain ⟨p1, p2, p3⟩ := ring_contents_push b a h t ha hh ht (by omega)
    have e : ring_push_all (b :: bs) (a, h) = ring_push_all bs (ring_push b (a, h)) := rfl
    obtain ⟨q1, q2, q3⟩ := ih (ring_push b (a, h)).1 (ring_push b (a, h)).2 t p2 p3 ht
      (by rw [p1]; simp only [List.length_append, List.length_singleton]; omega)
    rw [e]
    refine ⟨?_, q2, q3⟩
    rw [q1, p1, List.append_assoc]
    rfl

/-- With room in the ring, pushing bytes appends them to the waiting bytes. -/
theorem buf_contents_of_outbound (s t : State) (f : List Nat) (hs : OutbufReady s)
    (hroom : (buf_contents buf_t.OUTBUF s).length + f.length ≤ 254)
    (ht : outbound t = outbound (buf_push_all f buf_t.OUTBUF s)) :
    buf_contents buf_t.OUTBUF t = buf_contents buf_t.OUTBUF s ++ f ∧ OutbufReady t := by
  obtain ⟨h1, h2, h3⟩ := hs
  rw [buf_push_all_out] at ht
  simp only [outbound, Prod.mk.injEq] at ht
  obtain ⟨e1, e2, e3⟩ := ht
  rw [buf_contents_out] at hroom
  obtain ⟨q1, q2, q3⟩ := ring_contents_push_all f s.outbuf s.head_out s.tail_out h1 h2 h3 hroom
  rw [buf_contents_out, buf_contents_out, e1, e2, e3]
  exact ⟨q1, by rw [e1]; exact q2, by rw [e2]; exact q3, by rw [e3]; exact h3⟩

/-! ## Channels, latches and the tick counter -/

theorem buf_contents_ring (buf : buf_t) (s : State) :
    buf_contents buf s = ring_contents (s.data buf) (s.head buf) (s.tail buf) := rfl

theorem buf_push_fields (v : Nat) (buf : buf_t) (s : State) :
    (buf_push v buf s).data buf = (ring_push v (s.data buf, s.head buf)).1 ∧
    (buf_push v buf s).head buf = (ring_push v (s.data buf, s.head buf)).2 ∧
    (buf_push v buf s).tail buf = s.tail buf := by
  cases buf <;>
    (unfold buf_push ring_push
     dsimp only [State.data, State.head, State.tail]
     split <;> exact ⟨rfl, rfl, rfl⟩)

theorem buf_pop_fields (buf : buf_t) (s : State) (hne : s.head buf ≠ s.tail buf)
    (ht : s.tail buf < BUFSIZE) :
    (buf_pop buf s).1 = (s.data buf).getD (s.tail buf) 0 ∧
    (buf_pop buf s).2.data buf = s.data buf ∧
    (buf_pop buf s).2.head buf = s.head buf ∧
    (buf_pop buf s).2.tail buf = (if s.tail buf + 1 = BUFSIZE then 0 else s.tail buf + 1) := by
  have he : ¬ buf_isempty buf s ≠ 0 := by simp [buf_isempty, hne]
  unfold buf_pop
  rw [if_neg he]
  unfold BUFSIZE at *
  cases buf <;>
    (dsimp only [State.data, State.head, State.tail] at *
     have hm : ∀ t, t < 255 → (t + 1) % 256 = t + 1 := fun t h => by omega
     simp only [hm _ ht]
     split <;> simp_all)

theorem ring_contents_pop (a : List Nat) (h t : Nat) (hh : h < BUFSIZE) (ht : t < BUFSIZE)
    (hne : h ≠ t) :
    ring_contents a h t =
      a.getD t 0 :: ring_contents a h (if t + 1 = BUFSIZE then 0 else t + 1) := by
  unfold BUFSIZE at *
  have hcount : (h + 255 - t) % 255 =
      (h + 255 - (if t + 1 = 255 then 0 else t + 1)) % 255 + 1 := by
    split <;> omega
  simp only [ring_contents, BUFSIZE]
  rw [hcount, List.range_succ_eq_map, List.map_cons, List.map_map]
  congr 1
  · have : (t + 0) % 255 = t := by omega
    rw [this]
  · apply List.map_congr_left
    intro i _
    have : (t + (i + 1)) % 255 = ((if t + 1 = 255 then 0 else t + 1) + i) % 255 := by
      split <;> omega
    simp only [Function.comp, Nat.succ_eq_add_one, this]

theorem isempty_iff_contents (buf : buf_t) (s : State) (hs : ChannelReady buf s) :
    buf_isempty buf s = 1 ↔ buf_contents buf s = [] := by
  obtain ⟨_, hh, ht⟩ := hs
  unfold BUFSIZE at *
  simp only [buf_isempty, buf_contents, BUFSIZE, List.map_eq_nil_iff, List.range_eq_nil]
  constructor
  · intro h
    have : s.head buf = s.tail buf := by
      by_contra hne; simp [hne] at h
    omega
  · intro h
    have : s.head buf = s.tail buf := by omega
    simp [this]

theorem buf_pop_of_empty (buf : buf_t) (s : State) (h : s.head buf = s.tail buf) :
    buf_pop buf s = (0xFF, s) := by
  unfold buf_pop
  rw [if_pos (by simp [buf_isempty, h])]

theorem within_capacity_le (ops : List ChanOp) (q : List Nat)
    (h : within_capacity ops q = true) : q.length ≤ 254 := by
  cases ops with
  | nil => simpa [within_capacity] using h
  | cons o ops =>
    cases o <;> simp only [within_capacity, Bool.and_eq_true, decide_eq_true_eq] at h <;>
      exact h.1

theorem buf_contents_push (v : Nat) (buf : buf_t) (s : State) (hs : ChannelReady buf s)
    (hroom : (buf_contents buf s).length < 254) :
    buf_contents buf (buf_push v buf s) = buf_contents buf s ++ [v] ∧
    ChannelReady buf (buf_push v buf s) := by
  obtain ⟨h1, h2, h3⟩ := hs
  obtain ⟨f1, f2, f3⟩ := buf_push_fields v buf s
  rw [buf_contents_ring] at hroom
  obtain ⟨p1, p2, p3⟩ := ring_contents_push v (s.data buf) (s.head buf) (s.tail buf) h1 h2 h3 hroom
  refine ⟨?_, ?_, ?_, ?_⟩
  · rw [buf_contents_ring, buf_contents_ring, f1, f2, f3]; exact p1
  · rw [f1]; exact p2
  · rw [f2]; exact p3
  · rw [f3]; exact h3

theorem buf_contents_pop (buf : buf_t) (s : State) (hs : ChannelReady buf s) (x : Nat)
    (q : List Nat) (hq : buf_contents buf s = x :: q) :
    (buf_pop buf s).1 = x ∧ buf_contents buf (buf_pop buf s).2 = q ∧
    ChannelReady buf (buf_pop buf s).2 := by
  obtain ⟨h1, h2, h3⟩ := hs
  have hne : s.head buf ≠ s.tail buf := by
    intro he
    have : buf_contents buf s = [] :=
      (isempty_iff_contents buf s ⟨h1, h2, h3⟩).1 (by simp [buf_isempty, he])
    rw [this] at hq
    exact absurd hq (by simp)
  obtain ⟨f1, f2, f3, f4⟩ := buf_pop_fields buf s hne h3
  have hc := ring_contents_pop (s.data buf) (s.head buf) (s.tail buf) h2 h3 hne
  rw [← buf_contents_ring, hq] at hc
  simp only [List.cons.injEq] at hc
  refine ⟨f1.trans hc.1.symm, ?_, ?_, ?_, ?_⟩
  · rw [buf_contents_ring, f2, f3, f4]; exact hc.2.symm
  · rw [f2]; exact h1
  · rw [f3]; exact h2
  · rw [f4]; unfold BUFSIZE at *; split <;> omega

/-- The two buffer functions refine the first-in first-out queue while at most 254 bytes
are stored. -/
theorem run_ops_fifo (buf : buf_t) (ops : List ChanOp) : ∀ s : State,
    ChannelReady buf s → within_capacity ops (buf_contents buf s) = true →
    (run_ops buf ops s).2 =
      (fifo_ops ops (buf_contents buf s)).2.map (fun o => o.getD 0xFF) ∧
    buf_contents buf (run_ops buf ops s).1 = (fifo_ops ops (buf_contents buf s)).1 ∧
    ChannelReady buf (run_ops buf ops s).1 := by
  induction ops with
  | nil => intro s hs _; exact ⟨rfl, rfl, hs⟩
  | cons o ops ih =>
    intro s hs hcap
    cases o with
    | push v =>
      simp only [within_capacity, Bool.and_eq_true, decide_eq_true_eq] at hcap
      have hlen := within_capacity_le ops _ hcap.2
      simp only [List.length_append, List.length_singleton] at hlen
      obtain ⟨c1, c2⟩ := buf_contents_push v buf s hs (by omega)
      have := ih (buf_push v buf s) c2 (by rw [c1]; exact hcap.2)
      rw [c1] at this
      exact this
    | pop =>
      simp only [within_capacity, Bool.and_eq_true, decide_eq_true_eq] at hcap
      cases hq : buf_contents buf s with
      | nil =>
        have he : s.head buf = s.tail buf := by
          have := (isempty_iff_contents buf s hs).2 hq
          by_contra hne
          simp [buf_isempty, hne] at this
        rw [hq] at hcap
        have := ih s hs (by rw [hq]; exact hcap.2)
        rw [hq] at this
        obtain ⟨a1, a2, a3⟩ := this
        simp only [run_ops, fifo_ops, buf_pop_of_empty buf s he, List.map_cons, a1, a2]
        exact ⟨rfl, trivial, a3⟩
      | cons x q =>
        obtain ⟨p1, p2, p3⟩ := buf_contents_pop buf s hs x q hq
        rw [hq] at hcap
        have := ih (buf_pop buf s).2 p3 (by rw [p2]; exact hcap.2)
        rw [p2] at this
        obtain ⟨a1, a2, a3⟩ := this
        simp only [run_ops, fifo_ops, List.map_cons, a1, a2, p1]
        exact ⟨rfl, trivial, a3⟩

/-- The queue is first-in first-out: what the pops returned, followed by what is still
stored, is what was stored at the start followed by what was pushed. -/
theorem fifo_ops_order (ops : List ChanOp) : ∀ q : List Nat,
    (fifo_ops ops q).2.filterMap id ++ (fifo_ops ops q).1 = q ++ pushed ops := by
  induction ops with
  | nil => intro q; simp [fifo_ops, pushed]
  | cons o ops ih =>
    intro q
    cases o with
    | push v => simp [fifo_ops, pushed, ih]
    | pop =>
      cases q with
      | nil => simp [fifo_ops, pushed, ih]
      | cons x q => simp [fifo_ops, pushed, ih]

/-- The function `portb_isr` in closed form. -/
theorem portb_isr_eq (cur : Bool4) (s : State) :
    portb_isr cur s =
      { s with
        portb_send :=
          ⟨latch s.portb_send.b0 s.portb_enable.b0 s.portb_prev.b0 cur.b0,
           latch s.portb_send.b1 s.portb_enable.b1 s.portb_prev.b1 cur.b1,
           latch s.portb_send.b2 s.portb_enable.b2 s.portb_prev.b2 cur.b2,
           latch s.portb_send.b3 s.portb_enable.b3 s.portb_prev.b3 cur.b3⟩,
        portb_prev := cur } := by
  cases h0 : (s.portb_enable.b0 && !cur.b0 && s.portb_prev.b0) <;>
  cases h1 : (s.portb_enable.b1 && !cur.b1 && s.portb_prev.b1) <;>
  cases h2 : (s.portb_enable.b2 && !cur.b2 && s.portb_prev.b2) <;>
  cases h3 : (s.portb_enable.b3 && !cur.b3 && s.portb_prev.b3) <;>
  simp [portb_isr, latch, h0, h1, h2, h3]

theorem portb_isr_get (cur : Bool4) (s : State) (i : Nat) (hi : i < 4) :
    (portb_isr cur s).portb_send.get i =
      latch (s.portb_send.get i) (s.portb_enable.get i) (s.portb_prev.get i) (cur.get i) ∧
    (portb_isr cur s).portb_prev.get i = cur.get i ∧
    (portb_isr cur s).portb_enable = s.portb_enable := by
  rw [portb_isr_eq]
  rcases i with _ | _ | _ | _ | i
  · exact ⟨rfl, rfl, rfl⟩
  · exact ⟨rfl, rfl, rfl⟩
  · exact ⟨rfl, rfl, rfl⟩
  · exact ⟨rfl, rfl, rfl⟩
  · omega

theorem get_led_zero_get (s : State) (i : Nat) :
    (get_led 0 s).portb_enable.get i = false ∧ (get_led 0 s).portb_send = s.portb_send ∧
    (get_led 0 s).portb_prev = s.portb_prev := by
  refine ⟨?_, rfl, rfl⟩
  rcases i with _ | _ | _ | _ | i <;> rfl

theorem channel_ready_reset (buf : buf_t) : ChannelReady buf reset_state := by
  cases buf <;>
    (refine ⟨?_, by decide, by decide⟩
     show (List.replicate BUFSIZE 0).length = BUFSIZE
     simp)

theorem to_hex_upper (n : Nat) (h : n < 16) : to_hex n = upper_hex n := by
  interval_cases n <;> rfl

theorem upper_hex_range (n : Nat) (h : n < 16) :
    (48 ≤ upper_hex n ∧ upper_hex n ≤ 57) ∨ (65 ≤ upper_hex n ∧ upper_hex n ≤ 70) := by
  interval_cases n <;> decide

theorem hex4_upper (v : Nat) :
    hex4 v = [upper_hex (v / 4096 % 16), upper_hex (v / 256 % 16), upper_hex (v / 16 % 16),
      upper_hex (v % 16)] := by
  simp only [hex4, and_fifteen, shift_four]
  rw [to_hex_upper _ (Nat.mod_lt _ (by norm_num)), to_hex_upper _ (Nat.mod_lt _ (by norm_num)),
    to_hex_upper _ (Nat.mod_lt _ (by norm_num)), to_hex_upper _ (Nat.mod_lt _ (by norm_num))]
  have e1 : v / 16 / 16 / 16 = v / 4096 := by omega
  have e2 : v / 16 / 16 = v / 256 := by omega
  rw [e1, e2]

theorem sent_frame (f : List Nat) (s : State) :
    { sent f s with outbuf := s.outbuf, head_out := s.head_out, txen := s.txen } = s := rfl

theorem sent_contents (f : List Nat) (s : State) (hs : OutbufReady s)
    (hroom : (buf_contents buf_t.OUTBUF s).length + f.length ≤ 254) :
    buf_contents buf_t.OUTBUF (sent f s) = buf_contents buf_t.OUTBUF s ++ f :=
  (buf_contents_of_outbound s (sent f s) f hs hroom (outbound_sent f s)).1

theorem outbuf_ready_reset : OutbufReady reset_state := by
  refine ⟨?_, by decide, by decide⟩
  show (List.replicate BUFSIZE 0).length = BUFSIZE
  simp

theorem alt_frame_cases (x : Nat) :
    alt_frame x =
      if x < 256 then ascii "$ALT2328#"
      else if x < 512 then ascii "$ALT2710#"
      else if x < 768 then ascii "$ALT2AF8#"
      else ascii "$ALT2EE0#" := by
  unfold alt_frame adc_to_alt
  split_ifs <;> decide

theorem tick_inv_congr (s t : State) (hp : t.altitude_period = s.altitude_period)
    (hc : t.counter = s.counter) (h : tick_inv s) : tick_inv t := by
  unfold tick_inv at *
  rw [hp, hc]
  exact h

theorem receive_isr_cadence (b : Nat) (s : State) :
    (receive_isr b s).altitude_period = s.altitude_period ∧
    (receive_isr b s).counter = s.counter := by
  unfold receive_isr buf_push
  dsimp only
  split <;> exact ⟨rfl, rfl⟩

theorem buf_pop_cadence (s : State) :
    (buf_pop buf_t.INBUF s).2.altitude_period = s.altitude_period ∧
    (buf_pop buf_t.INBUF s).2.counter = s.counter := by
  unfold buf_pop
  split
  · exact ⟨rfl, rfl⟩
  · dsimp only
    split <;> exact ⟨rfl, rfl⟩

theorem parse_byte_calls (s : State) (c : Nat) :
    ((parse_byte s c).2 = [] ∧ parser_blanked (parse_byte s c).1 = parser_blanked s) ∨
    ((parse_byte s c).2 = [dispatch_call s] ∧
      parser_blanked (parse_byte s c).1 = parser_blanked (run_call (dispatch_call s) s)) := by
  unfold parse_byte
  cases hps : s.parse_state
  · simp only
    split <;> exact Or.inl ⟨rfl, rfl⟩
  · simp only [header_matched]
    split_ifs <;> exact Or.inl ⟨rfl, rfl⟩
  · simp only
    split_ifs
    all_goals first | exact Or.inl ⟨rfl, rfl⟩ | exact Or.inr ⟨rfl, rfl⟩

theorem run_call_inv (c : Call) (s : State) (h : tick_inv s) (hv : valid_call c = true) :
    tick_inv (run_call c s) := by
  cases c with
  | get_go d => exact h
  | get_end => exact ⟨Or.inl rfl, fun h => absurd rfl h, fun _ => rfl⟩
  | get_speed d => exact h
  | get_altitude p =>
    simp only [valid_call, Bool.or_eq_true, beq_iff_eq] at hv
    rcases hv with ((rfl | rfl) | rfl) | rfl <;>
      simp [tick_inv, run_call, get_altitude]
  | get_manual a =>
    refine tick_inv_congr s _ ?_ ?_ h <;>
      (by_cases ha : a = 0 <;> simp [run_call, get_manual, ha])
  | get_led l =>
    rcases l with _ | _ | _ | _ | _ | l <;> exact h

theorem parse_byte_inv (s : State) (c : Nat) (h : tick_inv s)
    (hv : ∀ call ∈ (parse_byte s c).2, valid_call call = true) :
    tick_inv (parse_byte s c).1 := by
  rcases parse_byte_calls s c with ⟨_, e⟩ | ⟨e1, e⟩
  · exact tick_inv_congr s _ (congrArg State.altitude_period e :)
      (congrArg State.counter e :) h
  · have hvalid : valid_call (dispatch_call s) = true := hv _ (by rw [e1]; simp)
    exact tick_inv_congr (run_call (dispatch_call s) s) _
      (congrArg State.altitude_period e :) (congrArg State.counter e :)
      (run_call_inv _ s h hvalid)

theorem parse_loop_inv (fuel : Nat) : ∀ (s : State) (r : State × List Call),
    parse_loop fuel s = some r → (∀ c ∈ r.2, valid_call c = true) → tick_inv s →
    tick_inv r.1 := by
  induction fuel with
  | zero =>
    intro s r hr _ h
    by_cases he : buf_isempty buf_t.INBUF s ≠ 0
    · rw [parse_loop_empty 0 s he] at hr
      cases hr
      exact h
    · unfold parse_loop at hr
      rw [if_neg he] at hr
      cases hr
  | succ n ih =>
    intro s r hr hv h
    by_cases he : buf_isempty buf_t.INBUF s ≠ 0
    · rw [parse_loop_empty _ s he] at hr
      cases hr
      exact h
    · have he0 : buf_isempty buf_t.INBUF s = 0 := by simpa using he
      rw [parse_loop_step n s he0] at hr
      cases hq : parse_loop n
          (parse_byte (buf_pop buf_t.INBUF s).2 (buf_pop buf_t.INBUF s).1).1 with
      | none => rw [hq] at hr; cases hr
      | some q =>
        rw [hq] at hr
        simp only [Option.some.injEq] at hr
        subst hr
        have hpop : tick_inv (buf_pop buf_t.INBUF s).2 :=
          tick_inv_congr s _ (buf_pop_cadence s).1 (buf_pop_cadence s).2 h
        have hb := parse_byte_inv _ (buf_pop buf_t.INBUF s).1 hpop
          (fun c hc => hv c (List.mem_append_left _ hc))
        exact ih _ q hq (fun c hc => hv c (List.mem_append_right _ hc)) hb

theorem timer_isr_counter (s : State) :
    (timer_isr s).altitude_period = s.altitude_period ∧
    (timer_isr s).counter =
      if s.altitude_period = 0 then 0
      else if (s.counter + 1) % 256 = s.altitude_period then 0
      else (s.counter + 1) % 256 := by
  refine ⟨(timer_isr_fields s).2.2.1, ?_⟩
  by_cases hd : altitude_due s
  · rw [timer_isr_of_due s hd, if_neg hd.1, if_pos hd.2]
  · have hsel : ∀ t : State, t.altitude_period = s.altitude_period →
        t.counter = (s.counter + 1) % 256 →
        (timer_isr_clear t).counter =
          if s.altitude_period = 0 then 0
          else if (s.counter + 1) % 256 = s.altitude_period then 0
          else (s.counter + 1) % 256 := by
      intro t hp hc
      unfold timer_isr_clear
      by_cases h0 : s.altitude_period = 0
      · rw [if_pos (hp.trans h0), if_pos h0]
      · have hne : ¬ (s.counter + 1) % 256 = s.altitude_period := fun e => hd ⟨h0, e⟩
        rw [if_neg (by rw [hp]; exact h0), if_neg h0, if_neg hne, hc]
    rcases lowest_pending_cases s.portb_send with hp | ⟨i, hp, _, _⟩
    · rw [timer_isr_of_idle s hd hp]
      exact hsel _ rfl rfl
    · rw [timer_isr_of_button s i hd hp]
      exact hsel _ rfl rfl

theorem timer_isr_inv (s : State) (h : tick_inv s) : tick_inv (timer_isr s) := by
  obtain ⟨hp, hc⟩ := timer_isr_counter s
  obtain ⟨h1, h2, h3⟩ := h
  unfold tick_inv
  rw [hp, hc]
  refine ⟨h1, ?_, ?_⟩
  · intro hne
    have := h2 hne
    rw [if_neg hne]
    split
    · omega
    · rcases h1 with h1 | h1 | h1 | h1 <;> omega
  · intro h0
    rw [if_pos h0]

theorem run_event_inv (e : Event) (s : State) (r : State × List Call)
    (hr : run_event e s = some r) (hv : ∀ c ∈ r.2, valid_call c = true) (h : tick_inv s) :
    tick_inv r.1 := by
  cases e with
  | byte b =>
    exact parse_loop_inv BUFSIZE (receive_isr b s) r hr hv
      (tick_inv_congr s _ (receive_isr_cadence b s).1 (receive_isr_cadence b s).2 h)
  | tick =>
    simp only [run_event, Option.some.injEq] at hr
    subst hr
    exact timer_isr_inv s h
  | button cur =>
    simp only [run_event, Option.some.injEq] at hr
    subst hr
    rw [portb_isr_eq]
    exact h
  | sample a b =>
    simp only [run_event, Option.some.injEq] at hr
    subst hr
    exact h

theorem run_events_inv (es : List Event) : ∀ (s : State) (r : State × List Call),
    run_events s es = some r → (∀ c ∈ r.2, valid_call c = true) → tick_inv s →
    tick_inv r.1 := by
  induction es with
  | nil =>
    intro s r hr _ h
    simp only [run_events, Option.some.injEq] at hr
    subst hr
    exact h
  | cons e es ih =>
    intro s r hr hv h
    unfold run_events at hr
    cases h1 : run_event e s with
    | none => rw [h1] at hr; cases hr
    | some a =>
      rw [h1] at hr
      dsimp only at hr
      cases h2 : run_events a.1 es with
      | none => rw [h2] at hr; cases hr
      | some q =>
        rw [h2] at hr
        simp only [Option.some.injEq] at hr
        subst hr
        exact ih a.1 q h2 (fun c hc => hv c (List.mem_append_right _ hc))
          (run_event_inv e s a h1 (fun c hc => hv c (List.mem_append_left _ hc)) h)

theorem ticks_in_cons_tick (es : List Event) : ticks_in (Event.tick :: es) = ticks_in es + 1 := by
  simp [ticks_in]

theorem ticks_in_cons_other (e : Event) (es : List Event) (h : e ≠ Event.tick) :
    ticks_in (e :: es) = ticks_in es := by
  simp [ticks_in, h]

theorem run_events_cons_total (e : Event) (es : List Event) (s u t : State)
    (h1 : run_event e s = some (u, [])) (h2 : run_events u es = some (t, [])) :
    run_events s (e :: es) = some (t, []) := by
  unfold run_events
  rw [h1]
  dsimp only
  rw [h2]
  rfl

/-- Events that carry no command leave the period alone and advance the counter by one per
tick, modulo the period. -/
theorem quiet_run (k : Nat) (hk : k = 2 ∨ k = 4 ∨ k = 6) (es : List Event) :
    ∀ u : State, u.altitude_period = k → u.counter < k →
      (∀ e ∈ es, Event.is_command e = false) →
      ∃ t, run_events u es = some (t, []) ∧ t.altitude_period = k ∧
        t.counter = (u.counter + ticks_in es) % k := by
  induction es with
  | nil =>
    intro u _ hc _
    exact ⟨u, rfl, by assumption, by simp [ticks_in, Nat.mod_eq_of_lt hc]⟩
  | cons e es ih =>
    intro u hp hc hq
    have hrest : ∀ e ∈ es, Event.is_command e = false :=
      fun x hx => hq x (List.mem_cons_of_mem _ hx)
    cases e with
    | byte b =>
      have := hq (Event.byte b) (List.mem_cons_self _ _)
      simp [Event.is_command] at this
    | tick =>
      obtain ⟨tp, tc⟩ := timer_isr_counter u
      have hne : u.altitude_period ≠ 0 := by rcases hk with h | h | h <;> omega
      rw [if_neg hne] at tc
      have hc2 : (timer_isr u).counter = (u.counter + 1) % k := by
        rw [tc, hp]
        rcases hk with h | h | h <;> subst h <;> split <;> omega
      have hlt : (timer_isr u).counter < k := by
        rw [hc2]; exact Nat.mod_lt _ (by rcases hk with h | h | h <;> omega)
      obtain ⟨t, r1, r2, r3⟩ := ih (timer_isr u) (tp.trans hp) hlt hrest
      refine ⟨t, run_events_cons_total _ es u _ t rfl r1, r2, ?_⟩
      rw [r3, hc2, ticks_in_cons_tick]
      rcases hk with h | h | h <;> subst h <;> omega
    | button cur =>
      have e1 : (portb_isr cur u).altitude_period = u.altitude_period := by
        rw [portb_isr_eq]
      have e2 : (portb_isr cur u).counter = u.counter := by rw [portb_isr_eq]
      obtain ⟨t, r1, r2, r3⟩ := ih (portb_isr cur u) (e1.trans hp) (by rw [e2]; exact hc) hrest
      refine ⟨t, run_events_cons_total _ es u _ t rfl r1, r2, ?_⟩
      rw [r3, e2, ticks_in_cons_other _ _ (by simp)]
    | sample a b =>
      obtain ⟨t, r1, r2, r3⟩ := ih (adc_isr a b u) hp hc hrest
      refine ⟨t, run_events_cons_total _ es u _ t rfl r1, r2, ?_⟩
      rw [r3, ticks_in_cons_other _ _ (by simp)]
      rfl

theorem prs_frame_length (b : Nat) : (prs_frame b).length = 7 := by simp [prs_frame, hex2]

theorem dst_frame_length (d : Nat) : (dst_frame d).length = 9 := by simp [dst_frame, hex4]

theorem alt_frame_length (x : Nat) : (alt_frame x).length = 9 := by simp [alt_frame, hex4]

/-- The frame a tick pushes: the altitude frame of the latest sample on a due tick, else a
frame that is no altitude frame. -/
theorem tick_emission (t : State) :
    (altitude_due t →
      outbound (timer_isr t) = outbound (buf_push_all (alt_frame t.adc) buf_t.OUTBUF t)) ∧
    (¬ altitude_due t → ∃ f, f.length ≤ 9 ∧ (∀ x, f ≠ alt_frame x) ∧
      outbound (timer_isr t) = outbound (buf_push_all f buf_t.OUTBUF t)) := by
  rcases timer_isr_outbound t with ⟨hd, h, _⟩ | ⟨hd, i, _, _, h, _⟩ | ⟨hd, _, h, _⟩
  · exact ⟨fun _ => h, fun hn => absurd hd hn⟩
  · refine ⟨fun h2 => absurd h2 hd, fun _ => ⟨_, ?_, ?_, h⟩⟩
    · rw [prs_frame_length]; omega
    · intro x hx
      have := congrArg List.length hx
      rw [prs_frame_length, alt_frame_length] at this
      omega
  · refine ⟨fun h2 => absurd h2 hd, fun _ => ⟨_, ?_, ?_, h⟩⟩
    · rw [dst_frame_length]
    · intro x hx
      simp [dst_frame, alt_frame] at hx

theorem tick_emits_altitude_iff (t : State) (hs : OutbufReady t)
    (hroom : (buf_contents buf_t.OUTBUF t).length + 9 ≤ 254) :
    (∃ x, buf_contents buf_t.OUTBUF (timer_isr t) =
      buf_contents buf_t.OUTBUF t ++ alt_frame x) ↔ altitude_due t := by
  constructor
  · rintro ⟨x, hx⟩
    by_contra hd
    obtain ⟨f, hl, hne, ho⟩ := (tick_emission t).2 hd
    have := (buf_contents_of_outbound t (timer_isr t) f hs (by omega) ho).1
    rw [this] at hx
    exact hne x (List.append_cancel_left hx)
  · intro hd
    refine ⟨t.adc, (buf_contents_of_outbound t (timer_isr t) _ hs ?_ ((tick_emission t).1 hd)).1⟩
    rw [alt_frame_length]; exact hroom

theorem due_iff_dvd (k : Nat) (hk : k = 2 ∨ k = 4 ∨ k = 6) (t : State) (n : Nat)
    (hp : t.altitude_period = k) (hc : t.counter = n % k) :
    altitude_due t ↔ k ∣ n + 1 := by
  unfold altitude_due
  rw [hp, hc, Nat.dvd_iff_mod_eq_zero]
  rcases hk with h | h | h <;> subst h <;> omega

/-! ## Served buttons, ring wrap-around and the stale accumulator -/

theorem lowest_pending_iff (a : Bool4) (i : Nat) (hi : i < 4) :
    lowest_pending a = some i ↔ (a.get i = true ∧ ∀ j, j < i → a.get j = false) := by
  rcases a with ⟨b0, b1, b2, b3⟩
  interval_cases i <;> cases b0 <;> cases b1 <;> cases b2 <;> cases b3 <;> decide

theorem bool4_get_set (a : Bool4) (k j : Nat) (v : Bool) (hk : k < 4) :
    (a.set k v).get j = if j = k then v else a.get j := by
  rcases a with ⟨b0, b1, b2, b3⟩
  interval_cases k <;> rcases j with _ | _ | _ | _ | j <;> simp [Bool4.set, Bool4.get]

theorem prs_frame_button (i : Nat) (hi : i < 4) :
    prs_frame (4 + i) = [36, 80, 82, 83, 48, 52 + i, 35] := by
  interval_cases i <;> decide

theorem button_served (s : State) (i : Nat) :
    (s.portb_send.get i = true ∧ (timer_isr s).portb_send.get i = false) ↔
      (¬ altitude_due s ∧ lowest_pending s.portb_send = some i) := by
  rcases timer_isr_outbound s with ⟨hd, _, hp⟩ | ⟨hd, k, hk, hk4, _, hp⟩ | ⟨hd, hn, _, hp⟩
  · rw [hp]
    constructor
    · rintro ⟨h1, h2⟩; rw [h1] at h2; cases h2
    · rintro ⟨h1, _⟩; exact absurd hd h1
  · rw [hp, bool4_get_set _ _ _ _ hk4]
    have hkset := ((lowest_pending_iff s.portb_send k hk4).1 hk).1
    constructor
    · rintro ⟨h1, h2⟩
      by_cases hik : i = k
      · subst hik; exact ⟨hd, hk⟩
      · rw [if_neg hik, h1] at h2; cases h2
    · rintro ⟨_, h2⟩
      have hik : i = k := by rw [hk] at h2; exact (Option.some.inj h2).symm
      subst hik
      exact ⟨hkset, by simp⟩
  · rw [hp]
    constructor
    · rintro ⟨h1, h2⟩; rw [h1] at h2; cases h2
    · rintro ⟨_, h2⟩; rw [hn] at h2; cases h2

theorem flag_kept (s : State) (j : Nat)
    (h : ¬ (¬ altitude_due s ∧ lowest_pending s.portb_send = some j)) :
    (timer_isr s).portb_send.get j = s.portb_send.get j := by
  rcases timer_isr_outbound s with ⟨hd, _, hp⟩ | ⟨hd, k, hk, hk4, _, hp⟩ | ⟨hd, hn, _, hp⟩
  · rw [hp]
  · rw [hp, bool4_get_set _ _ _ _ hk4]
    have hjk : j ≠ k := fun e => h ⟨hd, by rw [e]; exact hk⟩
    rw [if_neg hjk]
  · rw [hp]

theorem ring_push_all_head (bs : List Nat) : ∀ (a : List Nat) (h : Nat), h < BUFSIZE →
    (ring_push_all bs (a, h)).2 = (h + bs.length) % BUFSIZE := by
  induction bs with
  | nil => intro a h hh; simp [ring_push_all, Nat.mod_eq_of_lt hh]
  | cons b bs ih =>
    intro a h hh
    have e : ring_push_all (b :: bs) (a, h) = ring_push_all bs (ring_push b (a, h)) := rfl
    have hp : (ring_push b (a, h)).2 = (h + 1) % BUFSIZE := by
      unfold BUFSIZE at *
      simp only [ring_push, BUFSIZE]
      split <;> omega
    have hlt : (ring_push b (a, h)).2 < BUFSIZE := by
      rw [hp]; exact Nat.mod_lt _ (by decide)
    rw [e]
    have := ih (ring_push b (a, h)).1 (ring_push b (a, h)).2 hlt
    rw [this, hp]
    unfold BUFSIZE
    simp only [List.length_cons]
    omega

theorem buf_push_all_fields (bs : List Nat) (buf : buf_t) : ∀ s : State,
    (buf_push_all bs buf s).data buf = (ring_push_all bs (s.data buf, s.head buf)).1 ∧
    (buf_push_all bs buf s).head buf = (ring_push_all bs (s.data buf, s.head buf)).2 ∧
    (buf_push_all bs buf s).tail buf = s.tail buf := by
  induction bs with
  | nil => intro s; exact ⟨rfl, rfl, rfl⟩
  | cons b bs ih =>
    intro s
    have e : buf_push_all (b :: bs) buf s = buf_push_all bs buf (buf_push b buf s) := rfl
    obtain ⟨f1, f2, f3⟩ := buf_push_fields b buf s
    obtain ⟨g1, g2, g3⟩ := ih (buf_push b buf s)
    rw [e, g1, g2, g3, f1, f2, f3]
    exact ⟨rfl, rfl, rfl⟩

theorem buf_contents_push_all (bs : List Nat) (buf : buf_t) : ∀ s : State,
    ChannelReady buf s → (buf_contents buf s).length + bs.length ≤ 254 →
    buf_contents buf (buf_push_all bs buf s) = buf_contents buf s ++ bs := by
  induction bs with
  | nil => intro s _ _; simp [buf_push_all]
  | cons b bs ih =>
    intro s hs hroom
    simp only [List.length_cons] at hroom
    have e : buf_push_all (b :: bs) buf s = buf_push_all bs buf (buf_push b buf s) := rfl
    obtain ⟨p1, p2⟩ := buf_contents_push b buf s hs (by omega)
    rw [e, ih _ p2 (by rw [p1]; simp only [List.length_append, List.length_singleton]; omega),
      p1]
    simp

theorem pops_on_empty (buf : buf_t) (s : State) (h : s.head buf = s.tail buf) (n : Nat) :
    run_ops buf (List.replicate n ChanOp.pop) s = (s, List.replicate n 0xFF) := by
  induction n with
  | zero => rfl
  | succ n ih =>
    simp only [List.replicate_succ, run_ops, buf_pop_of_empty buf s h, ih]

theorem adc_isr_high (L : Nat) (s : State) :
    (adc_isr 0 L s).adc = 0 ∧ (adc_isr 1 L s).adc = 257 ∧ (adc_isr 2 L s).adc = 514 ∧
    (adc_isr 3 L s).adc = 771 := ⟨rfl, rfl, rfl, rfl⟩

theorem adc_to_alt_latched (H L : Nat) (s : State) (hH : H ≤ 3) (hL : L ≤ 255) :
    adc_to_alt (adc_isr H L s).adc = adc_to_alt (256 * H + L) := by
  obtain ⟨h0, h1, h2, h3⟩ := adc_isr_high L s
  interval_cases H
  · have hlt : L < 256 := by omega
    rw [h0]; simp [adc_to_alt, hlt]
  · rw [h1]; unfold adc_to_alt
    rw [if_neg (by omega), if_pos (by omega), if_neg (by omega), if_pos (by omega)]
  · rw [h2]; unfold adc_to_alt
    rw [if_neg (by omega), if_neg (by omega), if_pos (by omega), if_neg (by omega),
      if_neg (by omega), if_pos (by omega)]
  · rw [h3]; unfold adc_to_alt
    rw [if_neg (by omega), if_neg (by omega), if_neg (by omega), if_neg (by omega),
      if_neg (by omega), if_neg (by omega)]

theorem state_eq_of_core_inbound (a b : State) (h1 : core a = core b)
    (h2 : inbound a = inbound b) : a = b := by
  rcases a with ⟨⟩
  rcases b with ⟨⟩
  simp only [core, State.mk.injEq] at h1
  simp only [inbound, Prod.mk.injEq] at h2
  simp only [State.mk.injEq]
  tauto

theorem inbuf_ready_of_inbound (s t : State) (h : inbound s = inbound t) (hs : InbufReady s) :
    InbufReady t := by
  simp only [inbound, Prod.mk.injEq] at h
  obtain ⟨e1, e2, e3⟩ := h
  unfold InbufReady at *
  rw [← e1, ← e2, ← e3]
  exact hs

theorem rx_inbound (b : Nat) (s t : State) (h : inbound s = inbound t) :
    inbound (rx b s) = inbound (rx b t) := by
  simp only [inbound, Prod.mk.injEq] at h
  obtain ⟨e1, e2, e3⟩ := h
  simp only [inbound, rx, e1, e2]

theorem run_call_inbound (c : Call) (s : State) (hc : c ≠ Call.get_end) :
    inbound (run_call c s) = inbound s := by
  cases c with
  | get_go d => rfl
  | get_end => exact absurd rfl hc
  | get_speed d => rfl
  | get_altitude d => rfl
  | get_manual a => by_cases h : a = 0 <;> simp [run_call, get_manual, inbound, h]
  | get_led l => rcases l with _ | _ | _ | _ | _ | l <;> rfl

theorem parse_byte_inbound (s : State) (v : Nat) (h : Call.get_end ∉ (parse_byte s v).2) :
    inbound (parse_byte s v).1 = inbound s := by
  rcases parse_byte_calls s v with ⟨_, e⟩ | ⟨e1, e⟩
  · exact (congrArg inbound e :)
  · have hne : dispatch_call s ≠ Call.get_end := by
      intro he; apply h; rw [e1, he]; simp
    exact ((congrArg inbound e :)).trans (run_call_inbound _ s hne)

/-- Two runs over the same bytes from states with the same inbound channel, neither of which
restarts the device, end with the same inbound channel. -/
theorem serial_in_inbound (bs : List Nat) : ∀ (s1 s2 t1 t2 : State) (c1 c2 : List Call),
    InbufReady s1 → inbound s1 = inbound s2 →
    serial_in s1 bs = some (t1, c1) → serial_in s2 bs = some (t2, c2) →
    Call.get_end ∉ c1 → Call.get_end ∉ c2 → inbound t1 = inbound t2 := by
  induction bs with
  | nil =>
    intro s1 s2 t1 t2 c1 c2 _ hin h1 h2 _ _
    simp only [serial_in, Option.some.injEq, Prod.mk.injEq] at h1 h2
    rw [← h1.1, ← h2.1]; exact hin
  | cons b bs ih =>
    intro s1 s2 t1 t2 c1 c2 hr1 hin h1 h2 hn1 hn2
    have hr2 := inbuf_ready_of_inbound s1 s2 hin hr1
    unfold serial_in at h1 h2
    rw [parse_receive b s1 hr1] at h1
    rw [parse_receive b s2 hr2] at h2
    dsimp only at h1 h2
    cases hq1 : serial_in (parse_byte (rx b s1) b).1 bs with
    | none => rw [hq1] at h1; cases h1
    | some q1 =>
      cases hq2 : serial_in (parse_byte (rx b s2) b).1 bs with
      | none => rw [hq2] at h2; cases h2
      | some q2 =>
        rw [hq1] at h1
        rw [hq2] at h2
        simp only [Option.some.injEq, Prod.mk.injEq] at h1 h2
        obtain ⟨a1, a2⟩ := h1
        obtain ⟨b1, b2⟩ := h2
        subst a1 a2 b1 b2
        have k1 : Call.get_end ∉ (parse_byte (rx b s1) b).2 :=
          fun hm => hn1 (List.mem_append_left _ hm)
        have k2 : Call.get_end ∉ (parse_byte (rx b s2) b).2 :=
          fun hm => hn2 (List.mem_append_left _ hm)
        have e : inbound (parse_byte (rx b s1) b).1 = inbound (parse_byte (rx b s2) b).1 := by
          rw [parse_byte_inbound _ _ k1, parse_byte_inbound _ _ k2]
          exact rx_inbound b s1 s2 hin
        exact ih _ _ q1.1 q2.1 q1.2 q2.2 (parse_byte_ready _ _ (rx_ready b s1 hr1)) e
          (by rw [hq1]) (by rw [hq2])
          (fun hm => hn1 (List.mem_append_right _ hm))
          (fun hm => hn2 (List.mem_append_right _ hm))

theorem frame_done_accumulator (c : Call) (s : State) (n : Nat) :
    frame_done c { s with parsed_number := n } = frame_done c s := by
  cases c with
  | get_go d => rfl
  | get_end => rfl
  | get_speed d => rfl
  | get_altitude d => rfl
  | get_manual a => by_cases h : a = 0 <;> simp [frame_done, run_call, get_manual, h]
  | get_led l => rcases l with _ | _ | _ | _ | _ | l <;> rfl

theorem frame_call_ne_end (h : MessageType) (v : Nat) (hne : h ≠ MessageType.MT_END) :
    frame_call h v ≠ Call.get_end := by
  cases h <;> simp [frame_call] at hne ⊢

/-- A well-formed frame fed to an idle parser: the call, and the state up to the inbound
channel, whatever the accumulator holds. -/
theorem serial_in_frame_stale (s : State) (h : MessageType) (digits : List Nat) (v a : Nat)
    (hbuf : InbufReady s) (hidle : s.parse_state = ParseState.PARSE_IDLE)
    (hpos : s.message_pos = 0) (hlen : digits.length = frame_digits h)
    (hv : hex_value digits = some v) :
    ∃ t, serial_in { s with parsed_number := a } (frame h digits) =
        some (t, [frame_call h v]) ∧
      core t = core (frame_done (frame_call h v) (body_read h digits s)) := by
  obtain ⟨t, ht, hc, _⟩ := serial_in_parse_bytes (frame h digits)
    { s with parsed_number := a } { s with parsed_number := a } hbuf rfl
  rw [parse_bytes_frame h digits v { s with parsed_number := a } hidle hpos hlen hv] at ht hc
  refine ⟨t, ht, ?_⟩
  rw [hc]
  have e : body_read h digits { s with parsed_number := a } =
      { body_read h digits s with parsed_number := accumulate a digits } := rfl
  rw [e, frame_done_accumulator]

/-! ## The counter at its limit and the stores of the header state -/

theorem timer_isr_clear_buttons (t : State) :
    (timer_isr_clear t).portb_enable = t.portb_enable ∧
    (timer_isr_clear t).portb_prev = t.portb_prev := by
  unfold timer_isr_clear
  split <;> exact ⟨rfl, rfl⟩

theorem timer_isr_buttons (s : State) :
    (timer_isr s).portb_enable = s.portb_enable ∧ (timer_isr s).portb_prev = s.portb_prev := by
  by_cases hd : altitude_due s
  · rw [timer_isr_of_due s hd]; exact ⟨rfl, rfl⟩
  · rcases lowest_pending_cases s.portb_send with hp | ⟨i, hp, _, _⟩
    · rw [timer_isr_of_idle s hd hp]; exact timer_isr_clear_buttons _
    · rw [timer_isr_of_button s i hd hp]; exact timer_isr_clear_buttons _

theorem timer_isr_counter_lt (u : State) : (timer_isr u).counter < 256 := by
  rw [(timer_isr_counter u).2]
  split_ifs <;> omega

theorem iterate_tick_bounds (n : Nat) (u : State) :
    (timer_isr^[n] (timer_isr u)).counter < 256 ∧
    (timer_isr^[n] (timer_isr u)).altitude_period = u.altitude_period := by
  induction n with
  | zero => exact ⟨timer_isr_counter_lt u, (timer_isr_counter u).1⟩
  | succ n ih =>
    rw [Function.iterate_succ_apply']
    exact ⟨timer_isr_counter_lt _, ((timer_isr_counter _).1).trans ih.2⟩

theorem due_iff_of_bounds (u : State) (hc : u.counter < 256) (hp : u.altitude_period ≤ 255) :
    altitude_due u ↔ (u.altitude_period ≠ 0 ∧ u.counter + 1 = u.altitude_period) := by
  unfold altitude_due
  constructor
  · rintro ⟨h1, h2⟩; exact ⟨h1, by omega⟩
  · rintro ⟨h1, h2⟩; exact ⟨h1, by omega⟩

/-- With a period of 256 ticks and no button pending, ticks only count: the 8-bit counter
never meets the period. -/
theorem wrap_ticks (n : Nat) (u : State) (hp : u.altitude_period = 256) (hc : u.counter < 256)
    (hs : u.portb_send = ⟨false, false, false, false⟩) :
    (timer_isr^[n] u).altitude_period = 256 ∧
    (timer_isr^[n] u).counter = (u.counter + n) % 256 ∧
    (timer_isr^[n] u).portb_send = ⟨false, false, false, false⟩ ∧
    (timer_isr^[n] u).portb_enable = u.portb_enable ∧
    (timer_isr^[n] u).portb_prev = u.portb_prev := by
  induction n with
  | zero => exact ⟨hp, by simp [Nat.mod_eq_of_lt hc], hs, rfl, rfl⟩
  | succ n ih =>
    obtain ⟨i1, i2, i3, i4, i5⟩ := ih
    rw [Function.iterate_succ_apply']
    obtain ⟨c1, c2⟩ := timer_isr_counter (timer_isr^[n] u)
    obtain ⟨b1, b2⟩ := timer_isr_buttons (timer_isr^[n] u)
    have hd : ¬ altitude_due (timer_isr^[n] u) := by
      rintro ⟨_, h2⟩
      rw [i1] at h2
      omega
    have hnone : lowest_pending (timer_isr^[n] u).portb_send = none := by rw [i3]; rfl
    refine ⟨c1.trans i1, ?_, ?_, b1.trans i4, b2.trans i5⟩
    · rw [c2, i1, i2]
      rw [if_neg (by omega), if_neg (by omega)]
      omega
    · rcases timer_isr_outbound (timer_isr^[n] u) with ⟨h, _⟩ | ⟨_, k, hk, _⟩ | ⟨_, _, _, h⟩
      · exact absurd h hd
      · rw [hnone] at hk; cases hk
      · rw [h, i3]

/-- A due tick pushes the altitude frame and keeps the pending flags; the first later tick
that is not due serves the lowest pending button. -/
theorem due_tick_then_button (s : State) (hd : altitude_due s)
    (hpend : ∃ j, s.portb_send.get j = true) :
    outbound (timer_isr s) = outbound (buf_push_all (alt_frame s.adc) buf_t.OUTBUF s) ∧
    (timer_isr s).portb_send = s.portb_send ∧
    ∀ n, (∀ k < n, altitude_due (timer_isr^[k] (timer_isr s))) →
      ¬ altitude_due (timer_isr^[n] (timer_isr s)) →
      ∃ i, i < 4 ∧ s.portb_send.get i = true ∧ lowest_pending s.portb_send = some i ∧
        outbound (timer_isr (timer_isr^[n] (timer_isr s))) =
          outbound (buf_push_all (prs_frame (4 + i)) buf_t.OUTBUF
            (timer_isr^[n] (timer_isr s))) ∧
        (timer_isr (timer_isr^[n] (timer_isr s))).portb_send = s.portb_send.set i false := by
  rcases timer_isr_outbound s with ⟨_, ho, hps⟩ | ⟨hnd, _⟩ | ⟨hnd, _⟩
  · refine ⟨ho, hps, ?_⟩
    intro n hbefore hnot
    have hkeep : (timer_isr^[n] (timer_isr s)).portb_send = s.portb_send := by
      rw [iterate_due_portb_send n (timer_isr s) hbefore, hps]
    rcases lowest_pending_cases s.portb_send with hnone | ⟨i, hi, hlt, hget⟩
    · obtain ⟨j, hj⟩ := hpend
      rw [lowest_pending_none s.portb_send hnone j] at hj
      exact absurd hj (by decide)
    · refine ⟨i, hlt, hget, hi, ?_⟩
      rcases timer_isr_outbound (timer_isr^[n] (timer_isr s)) with
        ⟨hd2, _⟩ | ⟨_, i2, hi2, _, ho2, hps2⟩ | ⟨_, hn2, _⟩
      · exact absurd hd2 hnot
      · rw [hkeep, hi] at hi2
        obtain rfl : i = i2 := by simpa using hi2
        exact ⟨ho2, by rw [hps2, hkeep]⟩
      · rw [hkeep, hi] at hn2
        exact absurd hn2 (by simp)
  · exact absurd hd hnd
  · exact absurd hd hnd

/-- From a state with period 256, counter 255, button 1 enabled and nothing pending, button 1
sampled high and then low is latched, and the next tick serves it: no report is due. -/
theorem reached_fields (u : State) (hp : u.altitude_period = 256) (hc : u.counter = 255)
    (hs : u.portb_send = ⟨false, false, false, false⟩)
    (he : u.portb_enable = ⟨false, true, false, false⟩)
    (hv : u.portb_prev = ⟨false, false, false, false⟩) :
    (portb_isr ⟨true, false, true, true⟩
      (portb_isr ⟨true, true, true, true⟩ u)).altitude_period = 256 ∧
    (portb_isr ⟨true, false, true, true⟩ (portb_isr ⟨true, true, true, true⟩ u)).counter = 255 ∧
    (portb_isr ⟨true, false, true, true⟩ (portb_isr ⟨true, true, true, true⟩ u)).portb_send =
      ⟨false, true, false, false⟩ ∧
    (timer_isr (portb_isr ⟨true, false, true, true⟩
      (portb_isr ⟨true, true, true, true⟩ u))).portb_send = ⟨false, false, false, false⟩ := by
  have e : portb_isr ⟨true, false, true, true⟩ (portb_isr ⟨true, true, true, true⟩ u) =
      { u with portb_send := ⟨false, true, false, false⟩,
               portb_prev := ⟨true, false, true, true⟩ } := by
    rw [portb_isr_eq, portb_isr_eq]
    simp only [hs, he, hv]
    rfl
  rw [e]
  refine ⟨hp, hc, rfl, ?_⟩
  have hd : ¬ altitude_due
      { u with portb_send := ⟨false, true, false, false⟩,
               portb_prev := ⟨true, false, true, true⟩ } := by
    rintro ⟨_, h2⟩
    have h3 : (u.counter + 1) % 256 = u.altitude_period := h2
    rw [hp, hc] at h3
    omega
  rcases timer_isr_outbound
      { u with portb_send := ⟨false, true, false, false⟩,
               portb_prev := ⟨true, false, true, true⟩ } with
    ⟨h, _⟩ | ⟨_, k, hk, _, _, hs2⟩ | ⟨_, hn, _⟩
  · exact absurd h hd
  · have h1 : lowest_pending ⟨false, true, false, false⟩ = some 1 := rfl
    have hk2 : lowest_pending ⟨false, true, false, false⟩ = some k := hk
    rw [h1] at hk2
    have : k = 1 := (Option.some.inj hk2).symm
    subst this
    rw [hs2]; rfl
  · have hn2 : lowest_pending ⟨false, true, false, false⟩ = none := hn
    cases hn2

theorem stores_in_array_cons (s : State) (b : Nat) (bs : List Nat) :
    stores_in_array s (b :: bs) =
      ((match header_store_index s with
        | some i => decide (i < 3)
        | none => true) && stores_in_array (parse_byte s b).1 bs) := rfl

theorem stores_in_array_append (a b : List Nat) : ∀ s : State,
    stores_in_array s (a ++ b) =
      (stores_in_array s a && stores_in_array (parse_bytes s a).1 b) := by
  induction a with
  | nil => intro s; simp [stores_in_array, parse_bytes]
  | cons x xs ih =>
    intro s
    rw [List.cons_append, stores_in_array_cons, stores_in_array_cons, ih, parse_bytes_cons,
      Bool.and_assoc]

theorem header_store_index_none (s : State) (h : s.parse_state ≠ ParseState.PARSE_HEADER) :
    header_store_index s = none := by
  unfold header_store_index
  cases hps : s.parse_state
  · rfl
  · exact absurd hps h
  · rfl

theorem parse_byte_not_header (s : State) (b : Nat)
    (h : s.parse_state ≠ ParseState.PARSE_HEADER) (hb : b ≠ 36) :
    (parse_byte s b).1.parse_state ≠ ParseState.PARSE_HEADER := by
  unfold parse_byte
  cases hps : s.parse_state
  · simp [hb, hps]
  · exact absurd hps h
  · simp only
    split_ifs <;> simp [hps]

/-- Outside the header state and without a `$`, no byte is stored in `message_name`. -/
theorem stores_in_array_quiet (bs : List Nat) : ∀ s : State,
    s.parse_state ≠ ParseState.PARSE_HEADER → (∀ c ∈ bs, c ≠ 36) →
    stores_in_array s bs = true := by
  induction bs with
  | nil => intro s _ _; rfl
  | cons b bs ih =>
    intro s h hb
    rw [stores_in_array_cons, header_store_index_none s h]
    simp only [Bool.true_and]
    exact ih _ (parse_byte_not_header s b h (hb b (List.mem_cons_self _ _)))
      (fun c hc => hb c (List.mem_cons_of_mem _ hc))

theorem stores_in_array_header (h : MessageType) (s : State)
    (hidle : s.parse_state = ParseState.PARSE_IDLE) (hpos : s.message_pos = 0) :
    stores_in_array s (36 :: frame_header h) = true := by
  cases h <;>
    simp [frame_header, stores_in_array, header_store_index, parse_byte, hidle, hpos,
      Name3.set, header_matched]

/-- A well-formed frame parsed from an idle context with `message_pos` 0 stores its three
header letters at the indices 0, 1 and 2. -/
theorem stores_in_array_frame (h : MessageType) (digits : List Nat) (v : Nat) (s : State)
    (hidle : s.parse_state = ParseState.PARSE_IDLE) (hpos : s.message_pos = 0)
    (hv : hex_value digits = some v) :
    stores_in_array s (frame h digits) = true := by
  have e : frame h digits = (36 :: frame_header h) ++ (digits ++ [35]) := by
    simp [frame]
  rw [e, stores_in_array_append, stores_in_array_header h s hidle hpos,
    parse_bytes_header h s hidle hpos]
  simp only [Bool.true_and]
  apply stores_in_array_quiet
  · simp [body_start]
  · intro c hc
    exact frame_tail_no_dollar h digits v hv c (by
      simp only [List.mem_append, List.mem_singleton] at hc ⊢
      rcases hc with hc | hc
      · exact Or.inl (Or.inr hc)
      · exact Or.inr hc)

/-- A well-formed frame parsed from a body context stores nothing in `message_name`. -/
theorem stores_in_array_frame_body (h : MessageType) (digits : List Nat) (v : Nat) (s : State)
    (hbody : s.parse_state = ParseState.PARSE_BODY) (hv : hex_value digits = some v) :
    stores_in_array s (frame h digits) = true := by
  have hdollar : ¬ is_hex 36 := by decide
  unfold frame
  rw [stores_in_array_cons, header_store_index_none s (by rw [hbody]; simp),
    parse_byte_body_invalid s 36 hbody hdollar (by decide)]
  simp only [Bool.true_and]
  exact stores_in_array_quiet _ _ (by simp) (frame_tail_no_dollar h digits v hv)

theorem parse_bytes_frame_from_body (h : MessageType) (digits : List Nat) (v : Nat)
    (s : State) (hbody : s.parse_state = ParseState.PARSE_BODY)
    (hv : hex_value digits = some v) :
    parse_bytes s (frame h digits) = ({ s with parse_state := ParseState.PARSE_IDLE }, []) := by
  have hdollar : ¬ is_hex 36 := by decide
  unfold frame
  rw [parse_bytes_cons, parse_byte_body_invalid s 36 hbody hdollar (by decide)]
  dsimp only
  rw [parse_bytes_idle_skip _ _ rfl (frame_tail_no_dollar h digits v hv)]
  rfl

/-! ## Theorems for the claims -/

/-- C1. Well-formed frame dispatch. The parser is idle with `message_pos`
0 and the inbound buffer is drained (as after initialisation). The bytes
fed are a prefix `p` without `$`, then the frame `$`, header of command `h`,
`digits`, `#`, where `digits` has the digit count of `h` and renders `v` in
hexadecimal (upper or lower case letters). Then `parse` makes exactly one
handler call, the one of `h` with argument `v`; up to the inbound buffer the
final state is the one the handler leaves, with the parser idle, the digit
count 0 and the accumulator 0; `GOO` leaves `dist = v`, `SPD` leaves
`speed = v`. -/
theorem parse_wellformed_frame_dispatch (s : State) (h : MessageType) (p digits : List Nat)
    (v : Nat) (hbuf : InbufReady s)
    (hidle : s.parse_state = ParseState.PARSE_IDLE) (hpos : s.message_pos = 0)
    (hp : ∀ c ∈ p, c ≠ 36) (hlen : digits.length = frame_digits h)
    (hv : hex_value digits = some v) :
    ∃ t, serial_in s (p ++ frame h digits) = some (t, [frame_call h v]) ∧
      core t = core (frame_done (frame_call h v) (body_read h digits s)) ∧
      t.parse_state = ParseState.PARSE_IDLE ∧ t.parsed_digit_count = 0 ∧
      t.parsed_number = 0 ∧
      (h = MessageType.MT_GO → t.dist = v) ∧ (h = MessageType.MT_SPEED → t.speed = v) := by
  obtain ⟨t, ht, hc, _⟩ := serial_in_parse_bytes (p ++ frame h digits) s s hbuf rfl
  have hpb : parse_bytes s (p ++ frame h digits) =
      (frame_done (frame_call h v) (body_read h digits s), [frame_call h v]) := by
    rw [parse_bytes_append, parse_bytes_idle_skip p s hidle hp]
    dsimp only
    rw [parse_bytes_frame h digits v s hidle hpos hlen hv]
    simp
  rw [hpb] at ht hc
  refine ⟨t, ht, hc, ?_, ?_, ?_, ?_, ?_⟩
  · exact congrArg State.parse_state hc
  · exact congrArg State.parsed_digit_count hc
  · exact congrArg State.parsed_number hc
  · rintro rfl; exact congrArg State.dist hc
  · rintro rfl; exact congrArg State.speed hc

/-- C1 at a concrete input: the bytes `ab$GOO03e8#` fed to the state after
reset make the single call `get_go 1000`. -/
theorem parse_wellformed_frame_dispatch_witness :
    InbufReady reset_state ∧ reset_state.parse_state = ParseState.PARSE_IDLE ∧
    reset_state.message_pos = 0 ∧ (∀ c ∈ [97, 98], c ≠ 36) ∧
    [48, 51, 101, 56].length = frame_digits MessageType.MT_GO ∧
    hex_value [48, 51, 101, 56] = some 1000 ∧
    ∃ t, serial_in reset_state ([97, 98] ++ frame MessageType.MT_GO [48, 51, 101, 56]) =
        some (t, [frame_call MessageType.MT_GO 1000]) ∧
      core t = core (frame_done (frame_call MessageType.MT_GO 1000)
        (body_read MessageType.MT_GO [48, 51, 101, 56] reset_state)) ∧
      t.parse_state = ParseState.PARSE_IDLE ∧ t.parsed_digit_count = 0 ∧
      t.parsed_number = 0 ∧
      (MessageType.MT_GO = MessageType.MT_GO → t.dist = 1000) ∧
      (MessageType.MT_GO = MessageType.MT_SPEED → t.speed = 1000) :=
  ⟨inbuf_ready_reset, rfl, rfl, by decide, rfl, rfl,
    parse_wellformed_frame_dispatch reset_state MessageType.MT_GO [97, 98] [48, 51, 101, 56]
      1000 inbuf_ready_reset rfl rfl (by decide) rfl rfl⟩

/-- C2, evaluation of the code at the failing input. After `$XYZ` (an
unknown header) the parser is idle but `message_pos` is still 3; the `$` of
the following `$END#` enters the header state, the next bytes are stored at
indices 3, 4, 5, 6 of the 3-byte header buffer (stores outside the array,
which the model drops), `message_pos` never equals 3 again, and the input
ends in the header state with no handler called. -/
theorem unmatched_header_blocks_next_frame :
    (serial_in reset_state [36, 88, 89, 90]).map
        (fun r => (r.1.parse_state, r.1.message_pos, r.2)) =
      some (ParseState.PARSE_IDLE, 3, []) ∧
    (serial_in reset_state ([36, 88, 89, 90] ++ frame MessageType.MT_END [])).map
        (fun r => (r.1.parse_state, r.1.message_pos, r.2)) =
      some (ParseState.PARSE_HEADER, 7, []) := by
  decide

/-- C3. Resynchronisation after a wrong digit count. From an idle parser
with `message_pos` 0 and a drained inbound buffer, a frame with a known
header `h` and a run `ds` of hexadecimal digits whose length differs from
the digit count of `h` calls no handler; the frame `$END#` fed after it
calls `get_end` and nothing else, and leaves the state of a restarted
device, whose parser is idle. -/
theorem resync_after_wrong_digit_count (s : State) (h : MessageType) (ds : List Nat)
    (hbuf : InbufReady s) (hidle : s.parse_state = ParseState.PARSE_IDLE)
    (hpos : s.message_pos = 0) (hds : ∀ c ∈ ds, is_hex c)
    (hk : ds.length ≠ frame_digits h) :
    (∃ t, serial_in s (frame h ds) = some (t, []) ∧
      serial_in t (frame MessageType.MT_END []) = some (reset_state, [Call.get_end])) ∧
    serial_in s (frame h ds ++ frame MessageType.MT_END []) =
      some (reset_state, [Call.get_end]) ∧
    reset_state.parse_state = ParseState.PARSE_IDLE := by
  obtain ⟨a1, a2, a3⟩ := parse_bytes_dropped_frame h ds s hidle hpos
    (fun c hc => hex_ne_marks c (hds c hc)) (Or.inl hk)
  obtain ⟨t, ht, hc, hr⟩ := serial_in_parse_bytes (frame h ds) s s hbuf rfl
  rw [a1] at ht
  have h1 : t.parse_state = ParseState.PARSE_IDLE := (congrArg State.parse_state hc).trans a2
  have h2 : t.message_pos = 0 := (congrArg State.message_pos hc).trans a3
  have hend := serial_in_end_frame t hr h1 h2
  refine ⟨⟨t, ht, hend⟩, ?_, rfl⟩
  rw [serial_in_append, ht]
  dsimp only
  rw [hend]
  rfl

/-- C3 at a concrete input: `$GOO12345#` (five digits) then `$END#`, fed to
the state after reset. -/
theorem resync_after_wrong_digit_count_witness :
    InbufReady reset_state ∧ reset_state.parse_state = ParseState.PARSE_IDLE ∧
    reset_state.message_pos = 0 ∧ (∀ c ∈ [49, 50, 51, 52, 53], is_hex c) ∧
    [49, 50, 51, 52, 53].length ≠ frame_digits MessageType.MT_GO ∧
    ((∃ t, serial_in reset_state (frame MessageType.MT_GO [49, 50, 51, 52, 53]) = some (t, []) ∧
      serial_in t (frame MessageType.MT_END []) = some (reset_state, [Call.get_end])) ∧
    serial_in reset_state
        (frame MessageType.MT_GO [49, 50, 51, 52, 53] ++ frame MessageType.MT_END []) =
      some (reset_state, [Call.get_end]) ∧
    reset_state.parse_state = ParseState.PARSE_IDLE) :=
  ⟨inbuf_ready_reset, rfl, rfl, by decide, by decide,
    resync_after_wrong_digit_count reset_state MessageType.MT_GO [49, 50, 51, 52, 53]
      inbuf_ready_reset rfl rfl (by decide) (by decide)⟩

/-- C4 fails in a body context and in a header context. Feeding `$GOO`
after initialisation leaves the parser in the body state (no digit read);
the well-formed frame `$END#` fed in that context calls no handler: its `$`
is consumed as an invalid body byte and the rest is discarded in the idle
state. Feeding `$A` leaves the parser in the header state; `$END#` fed in
that context calls no handler either: its `$` and `E` complete the header
`A$E`, which matches no command. -/
theorem frame_in_body_context_not_dispatched :
    (serial_in reset_state [36, 71, 79, 79]).map (fun r => (r.1.parse_state, r.2)) =
      some (ParseState.PARSE_BODY, []) ∧
    ([] : List Nat).length = frame_digits MessageType.MT_END ∧ hex_value [] = some 0 ∧
    ((serial_in reset_state [36, 71, 79, 79]).bind
        (fun r => serial_in r.1 (frame MessageType.MT_END []))).map
        (fun r => (r.1.parse_state, r.2)) =
      some (ParseState.PARSE_IDLE, []) ∧
    (serial_in reset_state [36, 65]).map (fun r => (r.1.parse_state, r.2)) =
      some (ParseState.PARSE_HEADER, []) ∧
    ((serial_in reset_state [36, 65]).bind
        (fun r => serial_in r.1 (frame MessageType.MT_END []))).map
        (fun r => (r.1.parse_state, r.2)) =
      some (ParseState.PARSE_IDLE, []) := by
  decide

/-- C4, amended. Let the parser context be reached from initialisation by
feeding any bytes `bs` during which every header byte is stored inside the
three-byte array `message_name` (`stores_in_array`; a store past the array
occurs only after an unknown header and is left out). The feed always
returns. If the context is idle with `message_pos` 0, feeding a well-formed
frame makes exactly the handler call of that frame. If the context is the
body state, the frame fed is dropped without any handler call, the parser is
idle with `message_pos` 0 afterwards, and the next well-formed frame fed
makes exactly its handler call. In both cases the whole run, the bytes `bs`
followed by the frames fed, stores every header byte inside the array. -/
theorem resync_from_idle_or_body (bs : List Nat) (h : MessageType) (digits : List Nat)
    (v : Nat) (g : MessageType) (gdigits : List Nat) (w : Nat)
    (hin : stores_in_array reset_state bs = true)
    (hlen : digits.length = frame_digits h) (hv : hex_value digits = some v)
    (glen : gdigits.length = frame_digits g) (gv : hex_value gdigits = some w) :
    ∃ s cs, serial_in reset_state bs = some (s, cs) ∧
      (s.parse_state = ParseState.PARSE_IDLE → s.message_pos = 0 →
        stores_in_array reset_state (bs ++ frame h digits) = true ∧
        ∃ t, serial_in s (frame h digits) = some (t, [frame_call h v])) ∧
      (s.parse_state = ParseState.PARSE_BODY →
        stores_in_array reset_state (bs ++ frame h digits ++ frame g gdigits) = true ∧
        ∃ t u, serial_in s (frame h digits) = some (t, []) ∧
          t.parse_state = ParseState.PARSE_IDLE ∧ t.message_pos = 0 ∧
          serial_in t (frame g gdigits) = some (u, [frame_call g w])) := by
  obtain ⟨s, hs, hc, hr⟩ := serial_in_parse_bytes bs reset_state reset_state inbuf_ready_reset rfl
  have hinv : BodyPosClear (parse_bytes reset_state bs).1 :=
    parse_bytes_body_pos bs reset_state (fun _ => rfl)
  have e1 : s.parse_state = (parse_bytes reset_state bs).1.parse_state :=
    (congrArg State.parse_state hc :)
  have e2 : s.message_pos = (parse_bytes reset_state bs).1.message_pos :=
    (congrArg State.message_pos hc :)
  refine ⟨s, _, hs, ?_, ?_⟩
  · intro hidle hpos
    obtain ⟨t, ht, _, _⟩ := serial_in_parse_bytes (frame h digits) s s hr rfl
    rw [parse_bytes_frame h digits v s hidle hpos hlen hv] at ht
    refine ⟨?_, t, ht⟩
    rw [stores_in_array_append, hin, Bool.true_and]
    exact stores_in_array_frame h digits v _ (e1 ▸ hidle) (e2 ▸ hpos) hv
  · intro hbody
    have hpos : s.message_pos = 0 := by
      rw [e2]; exact hinv (e1 ▸ hbody)
    obtain ⟨t, ht, htc, htr⟩ := serial_in_parse_bytes (frame h digits) s s hr rfl
    rw [parse_bytes_frame_from_body h digits v s hbody hv] at ht htc
    have h1 : t.parse_state = ParseState.PARSE_IDLE := (congrArg State.parse_state htc :)
    have h2 : t.message_pos = 0 := (congrArg State.message_pos htc :).trans hpos
    obtain ⟨u, hu, _, _⟩ := serial_in_parse_bytes (frame g gdigits) t t htr rfl
    rw [parse_bytes_frame g gdigits w t h1 h2 glen gv] at hu
    refine ⟨?_, t, u, ht, h1, h2, hu⟩
    rw [stores_in_array_append, stores_in_array_append, hin, Bool.true_and, parse_bytes_append,
      parse_bytes_frame_from_body h digits v _ (e1 ▸ hbody) hv,
      stores_in_array_frame_body h digits v _ (e1 ▸ hbody) hv, Bool.true_and]
    exact stores_in_array_frame g gdigits w _ rfl (hinv (e1 ▸ hbody)) gv

/-- C4, amended, at a concrete input: the context reached by `$GOO1` (body
state, one digit read, header letters stored at 0, 1 and 2), the frame
`$SPD0001#` and then the frame `$END#`. -/
theorem resync_from_idle_or_body_witness :
    stores_in_array reset_state [36, 71, 79, 79, 49] = true ∧
    [48, 48, 48, 49].length = frame_digits MessageType.MT_SPEED ∧
    hex_value [48, 48, 48, 49] = some 1 ∧
    ([] : List Nat).length = frame_digits MessageType.MT_END ∧
    hex_value [] = some 0 ∧
    stores_in_array reset_state (ascii "$XYZ$E") = false ∧
    ∃ s cs, serial_in reset_state [36, 71, 79, 79, 49] = some (s, cs) ∧
      (s.parse_state = ParseState.PARSE_IDLE → s.message_pos = 0 →
        stores_in_array reset_state
          ([36, 71, 79, 79, 49] ++ frame MessageType.MT_SPEED [48, 48, 48, 49]) = true ∧
        ∃ t, serial_in s (frame MessageType.MT_SPEED [48, 48, 48, 49]) =
          some (t, [frame_call MessageType.MT_SPEED 1])) ∧
      (s.parse_state = ParseState.PARSE_BODY →
        stores_in_array reset_state
          ([36, 71, 79, 79, 49] ++ frame MessageType.MT_SPEED [48, 48, 48, 49] ++
            frame MessageType.MT_END []) = true ∧
        ∃ t u, serial_in s (frame MessageType.MT_SPEED [48, 48, 48, 49]) = some (t, []) ∧
          t.parse_state = ParseState.PARSE_IDLE ∧ t.message_pos = 0 ∧
          serial_in t (frame MessageType.MT_END []) =
            some (u, [frame_call MessageType.MT_END 0])) :=
  ⟨by decide, rfl, rfl, rfl, rfl, by decide,
    resync_from_idle_or_body [36, 71, 79, 79, 49] MessageType.MT_SPEED [48, 48, 48, 49] 1
      MessageType.MT_END [] 0 (by decide) rfl rfl rfl rfl⟩

/-- C5. Malformed frames are silently dropped. From an idle parser with
`message_pos` 0 and a drained inbound buffer, in any vehicle state, feeding
a single malformed frame (`MalformedFrame`) calls no handler, ends with the
parser idle, and leaves `dist`, `speed`, `altitude_period`, `counter`,
`is_manual` and the three per-button arrays unchanged; indeed every
variable outside the parser context and the inbound buffer is unchanged. -/
theorem malformed_frame_dropped (s : State) (f : List Nat) (hbuf : InbufReady s)
    (hidle : s.parse_state = ParseState.PARSE_IDLE) (hpos : s.message_pos = 0)
    (hf : MalformedFrame f) :
    ∃ t, serial_in s f = some (t, []) ∧ t.parse_state = ParseState.PARSE_IDLE ∧
      t.dist = s.dist ∧ t.speed = s.speed ∧ t.altitude_period = s.altitude_period ∧
      t.counter = s.counter ∧ t.is_manual = s.is_manual ∧
      t.portb_prev = s.portb_prev ∧ t.portb_enable = s.portb_enable ∧
      t.portb_send = s.portb_send ∧
      parser_blanked (core t) = parser_blanked (core s) := by
  have key : (parse_bytes s f).2 = [] ∧
      (parse_bytes s f).1.parse_state = ParseState.PARSE_IDLE := by
    cases hf with
    | unknown_header x y z rest hunk hrest =>
      have e : 36 :: x :: y :: z :: rest = [36, x, y, z] ++ rest := rfl
      rw [e, parse_bytes_append, parse_bytes_unknown_header x y z s hidle hpos hunk]
      dsimp only
      rw [parse_bytes_idle_skip rest _ rfl hrest]
      exact ⟨rfl, rfl⟩
    | wrong_digit_count h ds hds hk =>
      obtain ⟨a1, a2, _⟩ := parse_bytes_dropped_frame h ds s hidle hpos
        (fun c hc => hex_ne_marks c (hds c hc)) (Or.inl hk)
      exact ⟨a1, a2⟩
    | invalid_byte h body hb hx =>
      obtain ⟨a1, a2, _⟩ := parse_bytes_dropped_frame h body s hidle hpos hb (Or.inr hx)
      exact ⟨a1, a2⟩
  obtain ⟨t, ht, hc, _⟩ := serial_in_parse_bytes f s s hbuf rfl
  rw [key.1] at ht
  have hb := parse_bytes_no_call f s key.1
  have hbc : parser_blanked (core t) = parser_blanked (core s) := by
    have e1 : parser_blanked (core t) = parser_blanked (core (parse_bytes s f).1) := by rw [hc]
    have e2 : parser_blanked (core (parse_bytes s f).1) = core (parser_blanked (parse_bytes s f).1) := rfl
    rw [e1, e2, hb]
    rfl
  refine ⟨t, ht, (congrArg State.parse_state hc :).trans key.2, ?_, ?_, ?_, ?_, ?_, ?_, ?_, ?_, hbc⟩
  · exact (congrArg State.dist hbc :)
  · exact (congrArg State.speed hbc :)
  · exact (congrArg State.altitude_period hbc :)
  · exact (congrArg State.counter hbc :)
  · exact (congrArg State.is_manual hbc :)
  · exact (congrArg State.portb_prev hbc :)
  · exact (congrArg State.portb_enable hbc :)
  · exact (congrArg State.portb_send hbc :)

/-- C5 at a concrete input: the frame `$GOO1x4#`, whose body holds the
invalid byte `x`, fed to the state after reset. -/
theorem malformed_frame_dropped_witness :
    InbufReady reset_state ∧ reset_state.parse_state = ParseState.PARSE_IDLE ∧
    reset_state.message_pos = 0 ∧
    MalformedFrame (frame MessageType.MT_GO [49, 120, 52]) ∧
    ∃ t, serial_in reset_state (frame MessageType.MT_GO [49, 120, 52]) = some (t, []) ∧
      t.parse_state = ParseState.PARSE_IDLE ∧
      t.dist = reset_state.dist ∧ t.speed = reset_state.speed ∧
      t.altitude_period = reset_state.altitude_period ∧
      t.counter = reset_state.counter ∧ t.is_manual = reset_state.is_manual ∧
      t.portb_prev = reset_state.portb_prev ∧ t.portb_enable = reset_state.portb_enable ∧
      t.portb_send = reset_state.portb_send ∧
      parser_blanked (core t) = parser_blanked (core reset_state) :=
  ⟨inbuf_ready_reset, rfl, rfl,
    MalformedFrame.invalid_byte MessageType.MT_GO [49, 120, 52] (by decide) (by decide),
    malformed_frame_dropped reset_state (frame MessageType.MT_GO [49, 120, 52])
      inbuf_ready_reset rfl rfl
      (MalformedFrame.invalid_byte MessageType.MT_GO [49, 120, 52] (by decide) (by decide))⟩

/-- C6. Exactly one telemetry message per tick. For every state, one run
of `timer_isr` leaves the outbound channel as exactly one of `send_altitude`
(of the stored sample), `send_button_press` (of 4, 5, 6 or 7) or
`send_distance` (of the distance after the countdown) leaves it: the bytes of
one complete `$` ... `#` frame `f` (an `ALT`, `PRS` or `DST` frame) are
pushed, in order, and nothing else. When the ring is well formed and has
room for `f`, the bytes waiting in the channel afterwards are those waiting
before followed by `f`. The inbound channel is untouched. -/
theorem timer_isr_sends_one_frame (s : State) :
    ∃ f,
      ((f = alt_frame s.adc ∧
          outbound (timer_isr s) = outbound (send_altitude s.adc s)) ∨
        (∃ b, (b = 4 ∨ b = 5 ∨ b = 6 ∨ b = 7) ∧ f = prs_frame b ∧
          outbound (timer_isr s) = outbound (send_button_press b s)) ∨
        (f = dst_frame (timer_isr s).dist ∧
          outbound (timer_isr s) = outbound (send_distance (timer_isr s).dist s))) ∧
      complete_frame f ∧
      outbound (timer_isr s) = outbound (buf_push_all f buf_t.OUTBUF s) ∧
      (OutbufReady s → (buf_contents buf_t.OUTBUF s).length + f.length ≤ 254 →
        buf_contents buf_t.OUTBUF (timer_isr s) = buf_contents buf_t.OUTBUF s ++ f) ∧
      (timer_isr s).inbuf = s.inbuf ∧ (timer_isr s).head_in = s.head_in ∧
      (timer_isr s).tail_in = s.tail_in := by
  obtain ⟨_, _, _, i1, i2, i3, _⟩ := timer_isr_fields s
  have room : ∀ f, outbound (timer_isr s) = outbound (buf_push_all f buf_t.OUTBUF s) →
      OutbufReady s → (buf_contents buf_t.OUTBUF s).length + f.length ≤ 254 →
      buf_contents buf_t.OUTBUF (timer_isr s) = buf_contents buf_t.OUTBUF s ++ f :=
    fun f ho hs hr => (buf_contents_of_outbound s (timer_isr s) f hs hr ho).1
  rcases timer_isr_outbound s with ⟨_, ho, _⟩ | ⟨_, i, _, hi, ho, _⟩ | ⟨_, _, ho, _⟩
  · refine ⟨alt_frame s.adc, Or.inl ⟨rfl, ?_⟩, alt_frame_complete _, ho, room _ ho,
      i1, i2, i3⟩
    rw [ho, outbound_send_altitude _ s s rfl]
  · refine ⟨prs_frame (4 + i), Or.inr (Or.inl ⟨4 + i, by omega, rfl, ?_⟩),
      prs_frame_complete _, ho, room _ ho, i1, i2, i3⟩
    rw [ho, outbound_send_button_press _ s s rfl]
  · refine ⟨dst_frame (timer_isr s).dist, Or.inr (Or.inr ⟨rfl, ?_⟩), dst_frame_complete _, ho,
      room _ ho, i1, i2, i3⟩
    rw [outbound_send_distance _ s s rfl]
    exact ho

set_option maxRecDepth 1000000 in
/-- C7 fails when the 8-bit counter wraps. In `counter_wrap_example` the period is
256 (not Off), the counter is 255, so the counter plus one equals the period, and button 1
is pending; the tick increments the 8-bit counter to 0, which is not the period, sends
`$PRS05#` instead of the altitude frame and clears the flag of button 1. The period 256 is
the quotient the parser stores for `$ALT6400#`, and the state is reached from reset: after
the calls of `$LED02#` and `$ALT6400#`, 255 ticks and button 1 sampled high and then low,
the period is 256, the counter 255 and button 1 pending, and the next tick clears its
flag. -/
theorem counter_wrap_serves_button :
    counter_wrap_example.altitude_period ≠ 0 ∧
    counter_wrap_example.counter + 1 = counter_wrap_example.altitude_period ∧
    counter_wrap_example.portb_send.get 1 = true ∧
    buf_contents buf_t.OUTBUF (timer_isr counter_wrap_example) = ascii "$PRS05#" ∧
    (timer_isr counter_wrap_example).portb_send = ⟨false, false, false, false⟩ ∧
    (serial_in reset_state (ascii "$LED02#$ALT6400#")).map
        (fun r => (r.1.altitude_period, r.1.counter, r.1.portb_enable, r.2)) =
      some (256, 0, ⟨false, true, false, false⟩, [Call.get_led 2, Call.get_altitude 25600]) ∧
    counter_wrap_reached.altitude_period = 256 ∧ counter_wrap_reached.counter = 255 ∧
    counter_wrap_reached.portb_send = ⟨false, true, false, false⟩ ∧
    (timer_isr counter_wrap_reached).portb_send = ⟨false, false, false, false⟩ := by
  obtain ⟨w1, w2, w3, w4, w5⟩ := wrap_ticks 255 (get_altitude 25600 (get_led 2 reset_state))
    rfl (by decide) rfl
  have w2b : (timer_isr^[255] (get_altitude 25600 (get_led 2 reset_state))).counter = 255 :=
    w2
  obtain ⟨r1, r2, r3, r4⟩ := reached_fields _ w1 w2b w3 w4 w5
  exact ⟨by decide, by decide, by decide, by decide, by decide, by decide, r1, r2, r3, r4⟩

/-- C7, amended. Telemetry priority. Let an altitude report be due at a tick (the
period is not 0 and the tick counter plus one equals the period) with a period of at most
255, while at least one `portb_send` flag is set. Then the tick pushes the altitude frame
and leaves every `portb_send` flag as it was. On the first later tick at which no report is
due in the same sense (only ticks in between), the frame `$PRS0x#` of the lowest pending
button is pushed and the flag of that button is cleared, the other flags being those before
the first tick. -/
theorem altitude_report_preempts_button (s : State) (hperiod : s.altitude_period ≠ 0)
    (hdue : s.counter + 1 = s.altitude_period) (hmax : s.altitude_period ≤ 255)
    (hpend : ∃ j, s.portb_send.get j = true) :
    outbound (timer_isr s) = outbound (buf_push_all (alt_frame s.adc) buf_t.OUTBUF s) ∧
    (timer_isr s).portb_send = s.portb_send ∧
    ∀ n,
      (∀ k < n, (timer_isr^[k] (timer_isr s)).altitude_period ≠ 0 ∧
        (timer_isr^[k] (timer_isr s)).counter + 1 =
          (timer_isr^[k] (timer_isr s)).altitude_period) →
      ¬ ((timer_isr^[n] (timer_isr s)).altitude_period ≠ 0 ∧
        (timer_isr^[n] (timer_isr s)).counter + 1 =
          (timer_isr^[n] (timer_isr s)).altitude_period) →
      ∃ i, i < 4 ∧ s.portb_send.get i = true ∧ lowest_pending s.portb_send = some i ∧
        (∀ j, j < i → s.portb_send.get j = false) ∧
        outbound (timer_isr (timer_isr^[n] (timer_isr s))) =
          outbound (buf_push_all (prs_frame (4 + i)) buf_t.OUTBUF
            (timer_isr^[n] (timer_isr s))) ∧
        (timer_isr (timer_isr^[n] (timer_isr s))).portb_send = s.portb_send.set i false := by
  have hd : altitude_due s := ⟨hperiod, by rw [← hdue]; omega⟩
  obtain ⟨a1, a2, a3⟩ := due_tick_then_button s hd hpend
  refine ⟨a1, a2, ?_⟩
  intro n hbefore hnot
  have conv : ∀ k, altitude_due (timer_isr^[k] (timer_isr s)) ↔
      ((timer_isr^[k] (timer_isr s)).altitude_period ≠ 0 ∧
        (timer_isr^[k] (timer_isr s)).counter + 1 =
          (timer_isr^[k] (timer_isr s)).altitude_period) := by
    intro k
    obtain ⟨b1, b2⟩ := iterate_tick_bounds k s
    exact due_iff_of_bounds _ b1 (by rw [b2]; exact hmax)
  obtain ⟨i, i1, i2, i3, i4, i5⟩ := a3 n (fun k hk => (conv k).2 (hbefore k hk))
    (fun h => hnot ((conv n).1 h))
  exact ⟨i, i1, i2, i3, ((lowest_pending_iff s.portb_send i i1).1 i3).2, i4, i5⟩

set_option maxRecDepth 1000000 in
/-- C7, amended, at a concrete input: period 2, counter 1, button 1 pending; the tick
sends `$ALT2328#`, the tick after it is not due and sends `$PRS05#`. -/
theorem altitude_report_preempts_button_witness :
    report_due_example.altitude_period ≠ 0 ∧
    report_due_example.counter + 1 = report_due_example.altitude_period ∧
    report_due_example.altitude_period ≤ 255 ∧
    (∃ j, report_due_example.portb_send.get j = true) ∧
    ¬ ((timer_isr report_due_example).altitude_period ≠ 0 ∧
      (timer_isr report_due_example).counter + 1 =
        (timer_isr report_due_example).altitude_period) ∧
    buf_contents buf_t.OUTBUF (timer_isr (timer_isr report_due_example)) =
      ascii "$ALT2328#$PRS05#" ∧
    (outbound (timer_isr report_due_example) =
      outbound (buf_push_all (alt_frame report_due_example.adc) buf_t.OUTBUF
        report_due_example) ∧
    (timer_isr report_due_example).portb_send = report_due_example.portb_send) :=
  ⟨by decide, by decide, by decide, ⟨1, rfl⟩, by decide, by decide,
    (altitude_report_preempts_button report_due_example (by decide) (by decide)
      (by decide) ⟨1, rfl⟩).1,
    (altitude_report_preempts_button report_due_example (by decide) (by decide)
      (by decide) ⟨1, rfl⟩).2.1⟩

/-- C8. Distance countdown. After `n` ticks from any state (whatever the
period, the counter and the buttons), `dist` is `max 0 (d - n * s)` computed
over the integers, where `d` and `s` are the distance and the speed at the
start; the speed is unchanged, and a further tick never increases `dist`. -/
theorem distance_countdown_closed_form (s : State) (n : Nat) :
    ((timer_isr^[n] s).dist : Int) = max 0 ((s.dist : Int) - (n : Int) * (s.speed : Int)) ∧
    (timer_isr^[n] s).speed = s.speed ∧
    (timer_isr^[n + 1] s).dist ≤ (timer_isr^[n] s).dist := by
  obtain ⟨h1, h2⟩ := timer_isr_iterate_dist n s
  refine ⟨?_, h2, ?_⟩
  · rw [h1]
    have hm : ((n * s.speed : Nat) : Int) = (n : Int) * (s.speed : Int) := by push_cast; rfl
    rw [← hm]
    omega
  · rw [Function.iterate_succ_apply']
    rw [(timer_isr_fields _).1]
    omega

set_option maxRecDepth 1000000 in
/-- C9. Scenario. Feeding `$GOO03E8#` then `$SPD000A#` from the initial
state calls `get_go 1000` and `get_speed 10`, leaves the timer enabled, the
period 0, no button pending and the outbound channel empty. Ten ticks later
the outbound channel holds exactly ten `$DSTxxxx#` frames, for the strictly
decreasing distances 990, 980, ..., 900, the last being `$DST0384#`. -/
theorem scenario_goo_spd_ten_ticks :
    (serial_in reset_state (ascii "$GOO03E8#" ++ ascii "$SPD000A#")).map
        (fun r => (r.2, r.1.tmr0ie && r.1.tmr0on, r.1.altitude_period,
          lowest_pending r.1.portb_send,
          buf_contents buf_t.OUTBUF r.1,
          buf_contents buf_t.OUTBUF (timer_isr^[10] r.1))) =
      some ([Call.get_go 1000, Call.get_speed 10], true, 0, none, [],
        ten_dst_frames) ∧
    ten_dst_frames =
      dst_frame 990 ++ dst_frame 980 ++ dst_frame 970 ++ dst_frame 960 ++ dst_frame 950 ++
        dst_frame 940 ++ dst_frame 930 ++ dst_frame 920 ++ dst_frame 910 ++ dst_frame 900 ∧
    [990, 980, 970, 960, 950, 940, 930, 920, 910, 900].Pairwise (fun a b => b < a) ∧
    dst_frame 900 = ascii "$DST0384#" := by
  refine ⟨by rfl, by decide, ?_, by decide⟩
  simp

/-- C10. Round trip of the numeric payload. The encoder pushes, for a
16-bit `v`, the four characters `hex4 v` between `$DST` and `#`, and for an
8-bit `b` the two characters `hex2 b` between `$PRS` and `#`. From an idle
parser with `message_pos` 0 and a drained inbound buffer, a frame of any
4-digit command with body `hex4 v` makes exactly the handler call with
argument `v`, a frame of any 2-digit command with body `hex2 b` makes exactly
the handler call with argument `b`, and `to_nibble (to_hex n) = n` for every
nibble `n < 16`. -/
theorem encoded_payload_round_trip (s : State) (v b : Nat) (h4 h2 : MessageType)
    (hbuf : InbufReady s) (hidle : s.parse_state = ParseState.PARSE_IDLE)
    (hpos : s.message_pos = 0) (hv : v < 65536) (hb : b < 256)
    (hh4 : frame_digits h4 = 4) (hh2 : frame_digits h2 = 2) :
    send_distance v s =
      send (buf_push_all ([36, 68, 83, 84] ++ hex4 v ++ [35]) buf_t.OUTBUF s) ∧
    send_button_press b s =
      send (buf_push_all ([36, 80, 82, 83] ++ hex2 b ++ [35]) buf_t.OUTBUF s) ∧
    (∃ t, serial_in s (frame h4 (hex4 v)) = some (t, [frame_call h4 v])) ∧
    (∃ t, serial_in s (frame h2 (hex2 b)) = some (t, [frame_call h2 b])) ∧
    (∀ n, n < 16 → to_nibble (to_hex n) = n) := by
  refine ⟨send_distance_eq v s, send_button_press_eq b s, ?_, ?_, ?_⟩
  · obtain ⟨t, ht, _, _⟩ := serial_in_parse_bytes (frame h4 (hex4 v)) s s hbuf rfl
    rw [parse_bytes_frame h4 (hex4 v) v s hidle hpos (by rw [hh4]; rfl)
      (hex_value_hex4 v hv)] at ht
    exact ⟨t, ht⟩
  · obtain ⟨t, ht, _, _⟩ := serial_in_parse_bytes (frame h2 (hex2 b)) s s hbuf rfl
    rw [parse_bytes_frame h2 (hex2 b) b s hidle hpos (by rw [hh2]; rfl)
      (hex_value_hex2 b hb)] at ht
    exact ⟨t, ht⟩
  · intro n hn
    exact (to_hex_of_nibble n hn).2.1

/-- C10 at a concrete input: `v = 43981` (0xABCD) in a `GOO` frame and
`b = 7` in a `LED` frame, fed to the state after reset. -/
theorem encoded_payload_round_trip_witness :
    InbufReady reset_state ∧ reset_state.parse_state = ParseState.PARSE_IDLE ∧
    reset_state.message_pos = 0 ∧ 43981 < 65536 ∧ 7 < 256 ∧
    frame_digits MessageType.MT_GO = 4 ∧ frame_digits MessageType.MT_LED = 2 ∧
    (send_distance 43981 reset_state =
      send (buf_push_all ([36, 68, 83, 84] ++ hex4 43981 ++ [35]) buf_t.OUTBUF reset_state) ∧
    send_button_press 7 reset_state =
      send (buf_push_all ([36, 80, 82, 83] ++ hex2 7 ++ [35]) buf_t.OUTBUF reset_state) ∧
    (∃ t, serial_in reset_state (frame MessageType.MT_GO (hex4 43981)) =
      some (t, [frame_call MessageType.MT_GO 43981])) ∧
    (∃ t, serial_in reset_state (frame MessageType.MT_LED (hex2 7)) =
      some (t, [frame_call MessageType.MT_LED 7])) ∧
    (∀ n, n < 16 → to_nibble (to_hex n) = n)) :=
  ⟨inbuf_ready_reset, rfl, rfl, by decide, by decide, rfl, rfl,
    encoded_payload_round_trip reset_state 43981 7 MessageType.MT_GO MessageType.MT_LED
      inbuf_ready_reset rfl rfl (by decide) (by decide) rfl rfl⟩

/-- C11. The byte channel is a first-in first-out queue. For either buffer, in a state
whose buffer has 255 slots and is empty (head equal to tail, at any index below 255), and
for every sequence of `buf_push` and `buf_pop` during which the queue of the specification
never holds more than 254 bytes: the values the pops return are those of the queue (the
oldest byte pushed and not yet popped; the sentinel 0xFF when the queue is empty), the bytes
left in the buffer are the queue, the bytes popped followed by the bytes left are the bytes
pushed, in the order they were pushed, and `buf_isempty` is 1 exactly when the queue is
empty. -/
theorem byte_channel_fifo (buf : buf_t) (s : State) (ops : List ChanOp)
    (hs : ChannelReady buf s) (hempty : s.head buf = s.tail buf)
    (hcap : within_capacity ops [] = true) :
    buf_contents buf s = [] ∧
    (run_ops buf ops s).2 = (fifo_ops ops []).2.map (fun o => o.getD 0xFF) ∧
    buf_contents buf (run_ops buf ops s).1 = (fifo_ops ops []).1 ∧
    (fifo_ops ops []).2.filterMap id ++ (fifo_ops ops []).1 = pushed ops ∧
    (buf_isempty buf (run_ops buf ops s).1 = 1 ↔ (fifo_ops ops []).1 = []) := by
  have h0 : buf_contents buf s = [] :=
    (isempty_iff_contents buf s hs).1 (by simp [buf_isempty, hempty])
  obtain ⟨a1, a2, a3⟩ := run_ops_fifo buf ops s hs (by rw [h0]; exact hcap)
  rw [h0] at a1 a2
  refine ⟨h0, a1, a2, ?_, ?_⟩
  · simpa using fifo_ops_order ops []
  · rw [isempty_iff_contents buf _ a3, a2]

/-- C11 at a concrete input: on the inbound buffer of the state after reset, push 7, push 8,
pop, push 9, pop, pop stays within capacity and the three pops are 7, 8 and 9. -/
theorem byte_channel_fifo_witness :
    ChannelReady buf_t.INBUF reset_state ∧
    reset_state.head buf_t.INBUF = reset_state.tail buf_t.INBUF ∧
    within_capacity [ChanOp.push 7, ChanOp.push 8, ChanOp.pop, ChanOp.push 9, ChanOp.pop,
      ChanOp.pop] [] = true ∧
    (fifo_ops [ChanOp.push 7, ChanOp.push 8, ChanOp.pop, ChanOp.push 9, ChanOp.pop,
      ChanOp.pop] []).2 = [some 7, some 8, some 9] ∧
    (buf_contents buf_t.INBUF reset_state = [] ∧
    (run_ops buf_t.INBUF [ChanOp.push 7, ChanOp.push 8, ChanOp.pop, ChanOp.push 9, ChanOp.pop,
      ChanOp.pop] reset_state).2 =
      (fifo_ops [ChanOp.push 7, ChanOp.push 8, ChanOp.pop, ChanOp.push 9, ChanOp.pop,
        ChanOp.pop] []).2.map (fun o => o.getD 0xFF) ∧
    buf_contents buf_t.INBUF (run_ops buf_t.INBUF [ChanOp.push 7, ChanOp.push 8, ChanOp.pop,
      ChanOp.push 9, ChanOp.pop, ChanOp.pop] reset_state).1 =
      (fifo_ops [ChanOp.push 7, ChanOp.push 8, ChanOp.pop, ChanOp.push 9, ChanOp.pop,
        ChanOp.pop] []).1 ∧
    (fifo_ops [ChanOp.push 7, ChanOp.push 8, ChanOp.pop, ChanOp.push 9, ChanOp.pop,
        ChanOp.pop] []).2.filterMap id ++
      (fifo_ops [ChanOp.push 7, ChanOp.push 8, ChanOp.pop, ChanOp.push 9, ChanOp.pop,
        ChanOp.pop] []).1 =
      pushed [ChanOp.push 7, ChanOp.push 8, ChanOp.pop, ChanOp.push 9, ChanOp.pop,
        ChanOp.pop] ∧
    (buf_isempty buf_t.INBUF (run_ops buf_t.INBUF [ChanOp.push 7, ChanOp.push 8, ChanOp.pop,
      ChanOp.push 9, ChanOp.pop, ChanOp.pop] reset_state).1 = 1 ↔
      (fifo_ops [ChanOp.push 7, ChanOp.push 8, ChanOp.pop, ChanOp.push 9, ChanOp.pop,
        ChanOp.pop] []).1 = [])) :=
  ⟨channel_ready_reset buf_t.INBUF, rfl, by decide, by decide,
    byte_channel_fifo buf_t.INBUF reset_state
      [ChanOp.push 7, ChanOp.push 8, ChanOp.pop, ChanOp.push 9, ChanOp.pop, ChanOp.pop]
      (channel_ready_reset buf_t.INBUF) rfl (by decide)⟩

/-- C12. A pop on an empty buffer. For either buffer with head equal to tail, `buf_pop`
returns the sentinel 0xFF and leaves the state it was given, so head, tail and the stored
bytes of both buffers are unchanged; `buf_isempty` reports 1. `buf_isempty` is a function
from the state to a number: it has no state to write. -/
theorem pop_on_empty_channel (buf : buf_t) (s : State) (h : s.head buf = s.tail buf) :
    (buf_pop buf s).1 = 0xFF ∧ (buf_pop buf s).2 = s ∧ buf_isempty buf s = 1 := by
  rw [buf_pop_of_empty buf s h]
  exact ⟨rfl, rfl, by simp [buf_isempty, h]⟩

/-- C12 at a concrete input: the outbound buffer of the state after reset. -/
theorem pop_on_empty_channel_witness :
    reset_state.head buf_t.OUTBUF = reset_state.tail buf_t.OUTBUF ∧
    ((buf_pop buf_t.OUTBUF reset_state).1 = 0xFF ∧
      (buf_pop buf_t.OUTBUF reset_state).2 = reset_state ∧
      buf_isempty buf_t.OUTBUF reset_state = 1) :=
  ⟨rfl, pop_on_empty_channel buf_t.OUTBUF reset_state rfl⟩

/-- C13. The latch of `portb_isr`. For every button `i` below 4 and every sample `cur` of
the four levels: the pending flag after the routine is the flag before, or-ed with the
condition that the button is enabled, its previous level is high and its sampled level is
low; a flag that was set stays set; the previous
level becomes the sampled level, whatever the enable flag; nothing but the pending flags
and the previous levels changes. From previous level low and no pending flag: the samples
high, high, low on an enabled button leave the flag clear, clear, set; the samples low,
high, high leave it clear throughout; and with `get_led 0` run before the releasing sample
the flag stays clear. -/
theorem input_event_latch (cur : Bool4) (s : State) (i : Nat) (hi : i < 4) :
    (portb_isr cur s).portb_send.get i =
      (s.portb_send.get i ||
        (s.portb_enable.get i && s.portb_prev.get i && !cur.get i)) ∧
    (s.portb_send.get i = true → (portb_isr cur s).portb_send.get i = true) ∧
    (portb_isr cur s).portb_prev.get i = cur.get i ∧
    portb_isr cur s =
      { s with portb_send := (portb_isr cur s).portb_send, portb_prev := cur } ∧
    (∀ c1 c2 c3 : Bool4, s.portb_prev.get i = false → s.portb_send.get i = false →
      (s.portb_enable.get i = true → c1.get i = true → c2.get i = true → c3.get i = false →
        (portb_isr c1 s).portb_send.get i = false ∧
        (portb_isr c2 (portb_isr c1 s)).portb_send.get i = false ∧
        (portb_isr c3 (portb_isr c2 (portb_isr c1 s))).portb_send.get i = true) ∧
      (c1.get i = false → c2.get i = true → c3.get i = true →
        (portb_isr c1 s).portb_send.get i = false ∧
        (portb_isr c2 (portb_isr c1 s)).portb_send.get i = false ∧
        (portb_isr c3 (portb_isr c2 (portb_isr c1 s))).portb_send.get i = false) ∧
      (c1.get i = true → c2.get i = true → c3.get i = false →
        (portb_isr c3 (get_led 0 (portb_isr c2 (portb_isr c1 s)))).portb_send.get i =
          false)) := by
  obtain ⟨a1, a2, _⟩ := portb_isr_get cur s i hi
  refine ⟨?_, ?_, a2, ?_, ?_⟩
  · rw [a1]; simp only [latch]
    cases s.portb_send.get i <;> cases s.portb_enable.get i <;> cases s.portb_prev.get i <;>
      cases cur.get i <;> rfl
  · intro h; rw [a1, h]; rfl
  · rw [portb_isr_eq]
  · intro c1 c2 c3 hprev hsend
    obtain ⟨b1, b2, b3⟩ := portb_isr_get c1 s i hi
    obtain ⟨d1, d2, d3⟩ := portb_isr_get c2 (portb_isr c1 s) i hi
    obtain ⟨e1, _, _⟩ := portb_isr_get c3 (portb_isr c2 (portb_isr c1 s)) i hi
    obtain ⟨g1, g2, g3⟩ := get_led_zero_get (portb_isr c2 (portb_isr c1 s)) i
    obtain ⟨f1, _, _⟩ := portb_isr_get c3 (get_led 0 (portb_isr c2 (portb_isr c1 s))) i hi
    rw [d3, b3] at e1
    rw [b3] at d1
    rw [g1, g2, g3] at f1
    refine ⟨?_, ?_, ?_⟩
    · intro hen h1 h2 h3
      rw [e1, d1, d2, b1, b2, hprev, hsend, hen, h1, h2, h3]
      exact ⟨rfl, rfl, rfl⟩
    · intro h1 h2 h3
      rw [e1, d1, d2, b1, b2, hprev, hsend, h1, h2, h3]
      cases s.portb_enable.get i <;> exact ⟨rfl, rfl, rfl⟩
    · intro h1 h2 h3
      rw [f1, d1, d2, b1, b2, hprev, hsend, h1, h2, h3]
      cases s.portb_enable.get i <;> rfl

/-- C13 at a concrete input: button 0 enabled by `get_led 1` after reset; the samples high,
high, low of its level set its pending flag and no other. -/
theorem input_event_latch_witness :
    0 < 4 ∧
    ((portb_isr ⟨false, false, false, false⟩
        (portb_isr ⟨true, false, false, false⟩
          (portb_isr ⟨true, false, false, false⟩ (get_led 1 reset_state)))).portb_send =
      ⟨true, false, false, false⟩) ∧
    ((portb_isr ⟨true, false, false, false⟩ (get_led 1 reset_state)).portb_send.get 0 =
      ((get_led 1 reset_state).portb_send.get 0 ||
        ((get_led 1 reset_state).portb_enable.get 0 &&
          (get_led 1 reset_state).portb_prev.get 0 &&
          !(⟨true, false, false, false⟩ : Bool4).get 0)) ∧
    ((get_led 1 reset_state).portb_send.get 0 = true →
      (portb_isr ⟨true, false, false, false⟩ (get_led 1 reset_state)).portb_send.get 0 =
        true) ∧
    (portb_isr ⟨true, false, false, false⟩ (get_led 1 reset_state)).portb_prev.get 0 =
      (⟨true, false, false, false⟩ : Bool4).get 0 ∧
    portb_isr ⟨true, false, false, false⟩ (get_led 1 reset_state) =
      { (get_led 1 reset_state) with
        portb_send :=
          (portb_isr ⟨true, false, false, false⟩ (get_led 1 reset_state)).portb_send,
        portb_prev := ⟨true, false, false, false⟩ } ∧
    (∀ c1 c2 c3 : Bool4, (get_led 1 reset_state).portb_prev.get 0 = false →
      (get_led 1 reset_state).portb_send.get 0 = false →
      ((get_led 1 reset_state).portb_enable.get 0 = true → c1.get 0 = true →
        c2.get 0 = true → c3.get 0 = false →
        (portb_isr c1 (get_led 1 reset_state)).portb_send.get 0 = false ∧
        (portb_isr c2 (portb_isr c1 (get_led 1 reset_state))).portb_send.get 0 = false ∧
        (portb_isr c3 (portb_isr c2 (portb_isr c1 (get_led 1 reset_state)))).portb_send.get 0 =
          true) ∧
      (c1.get 0 = false → c2.get 0 = true → c3.get 0 = true →
        (portb_isr c1 (get_led 1 reset_state)).portb_send.get 0 = false ∧
        (portb_isr c2 (portb_isr c1 (get_led 1 reset_state))).portb_send.get 0 = false ∧
        (portb_isr c3 (portb_isr c2 (portb_isr c1 (get_led 1 reset_state)))).portb_send.get 0 =
          false) ∧
      (c1.get 0 = true → c2.get 0 = true → c3.get 0 = false →
        (portb_isr c3 (get_led 0 (portb_isr c2 (portb_isr c1
          (get_led 1 reset_state))))).portb_send.get 0 = false))) :=
  ⟨by decide, by decide,
    input_event_latch ⟨true, false, false, false⟩ (get_led 1 reset_state) 0 (by decide)⟩

/-- C14. The command `END` restarts the session. From every state with the parser idle,
`message_pos` 0 and the inbound buffer drained, the bytes of `$END#` make the single call
`get_end` and leave `reset_state`, the state in which `main` enters its loop after its
initialisation. `get_end` gives that state from every state. In it the timer interrupt and
the timer are off, `dist`, `speed`, `altitude_period`, `counter` and `adc` are 0,
`is_manual` is false, the three button arrays are all false, the parser is idle with its
counters 0, both buffers are empty, and `init_vars` changes nothing; `init_vars` sets these
variables to these values from every state. -/
theorem end_full_session_reset (s : State) (hbuf : InbufReady s)
    (hidle : s.parse_state = ParseState.PARSE_IDLE) (hpos : s.message_pos = 0) :
    serial_in s (frame MessageType.MT_END []) = some (reset_state, [Call.get_end]) ∧
    (∀ t : State, get_end t = reset_state) ∧
    reset_state = main_init power_on ∧
    (∀ t : State, (init_vars t).dist = 0 ∧ (init_vars t).speed = 0 ∧
      (init_vars t).altitude_period = 0 ∧ (init_vars t).counter = 0 ∧
      (init_vars t).is_manual = false ∧ (init_vars t).adc = 0 ∧
      (init_vars t).portb_enable = ⟨false, false, false, false⟩ ∧
      (init_vars t).portb_prev = ⟨false, false, false, false⟩ ∧
      (init_vars t).portb_send = ⟨false, false, false, false⟩ ∧
      (init_vars t).parse_state = ParseState.PARSE_IDLE ∧ (init_vars t).message_pos = 0 ∧
      (init_vars t).parsed_number = 0 ∧ (init_vars t).digit_count_to_be_parsed = 0 ∧
      (init_vars t).parsed_digit_count = 0 ∧
      buf_isempty buf_t.INBUF (init_vars t) = 1 ∧
      buf_isempty buf_t.OUTBUF (init_vars t) = 1) ∧
    init_vars reset_state = reset_state ∧
    reset_state.tmr0ie = false ∧ reset_state.tmr0on = false ∧
    reset_state.dist = 0 ∧ reset_state.speed = 0 ∧ reset_state.altitude_period = 0 ∧
    reset_state.counter = 0 ∧ reset_state.is_manual = false ∧ reset_state.adc = 0 ∧
    reset_state.portb_enable = ⟨false, false, false, false⟩ ∧
    reset_state.portb_prev = ⟨false, false, false, false⟩ ∧
    reset_state.portb_send = ⟨false, false, false, false⟩ ∧
    reset_state.parse_state = ParseState.PARSE_IDLE ∧ reset_state.message_pos = 0 ∧
    reset_state.parsed_number = 0 ∧ reset_state.digit_count_to_be_parsed = 0 ∧
    reset_state.parsed_digit_count = 0 ∧
    buf_contents buf_t.INBUF reset_state = [] ∧
    buf_contents buf_t.OUTBUF reset_state = [] := by
  refine ⟨serial_in_end_frame s hbuf hidle hpos, fun _ => rfl, rfl, ?_, rfl, rfl, rfl, rfl, rfl,
    rfl, rfl, rfl, rfl, rfl, rfl, rfl, rfl, rfl, rfl, rfl, rfl, rfl, rfl⟩
  intro t
  exact ⟨rfl, rfl, rfl, rfl, rfl, rfl, rfl, rfl, rfl, rfl, rfl, rfl, rfl, rfl, rfl, rfl⟩

set_option maxRecDepth 1000000 in
/-- C14 at a concrete input: a session with distance 1000, speed 10, period 2 and button 0
enabled is ended by `$END#`. -/
theorem end_full_session_reset_witness :
    InbufReady (get_led 1 (get_altitude 200 (get_speed 10 (get_go 1000 reset_state)))) ∧
    (get_led 1 (get_altitude 200 (get_speed 10 (get_go 1000 reset_state)))).parse_state =
      ParseState.PARSE_IDLE ∧
    (get_led 1 (get_altitude 200 (get_speed 10 (get_go 1000 reset_state)))).message_pos = 0 ∧
    (get_led 1 (get_altitude 200 (get_speed 10 (get_go 1000 reset_state)))).tmr0on = true ∧
    serial_in (get_led 1 (get_altitude 200 (get_speed 10 (get_go 1000 reset_state))))
        (frame MessageType.MT_END []) = some (reset_state, [Call.get_end]) :=
  ⟨inbuf_ready_reset, rfl, rfl, rfl,
    (end_full_session_reset
      (get_led 1 (get_altitude 200 (get_speed 10 (get_go 1000 reset_state))))
      inbuf_ready_reset rfl rfl).1⟩

/-- C15. The handler `get_led`. `get_led 0` switches the four enable flags and the four
indicators off and changes nothing else. For `id` from 1 to 4, `get_led id` switches enable
flag `id - 1` and its indicator on, leaves the three other enable flags and indicators as
they were, and changes nothing else: blanking the enable flags and the indicators of the
state before and of the state after gives the same state. The previous levels and the
pending flags are unchanged in every case. -/
theorem led_handler_frame (id : Nat) (s : State) (h1 : 1 ≤ id) (h4 : id ≤ 4) :
    get_led 0 s = led_blanked s ∧
    (∀ j, j < 4 → (get_led 0 s).portb_enable.get j = false ∧ indicator (get_led 0 s) j = false) ∧
    (get_led id s).portb_enable.get (id - 1) = true ∧
    indicator (get_led id s) (id - 1) = true ∧
    (∀ j, j < 4 → j ≠ id - 1 →
      (get_led id s).portb_enable.get j = s.portb_enable.get j ∧
      indicator (get_led id s) j = indicator s j) ∧
    led_blanked (get_led id s) = led_blanked s ∧
    (get_led 0 s).portb_prev = s.portb_prev ∧ (get_led 0 s).portb_send = s.portb_send ∧
    (get_led id s).portb_prev = s.portb_prev ∧ (get_led id s).portb_send = s.portb_send := by
  refine ⟨rfl, ?_, ?_⟩
  · intro j hj
    interval_cases j <;> exact ⟨rfl, rfl⟩
  · interval_cases id
    all_goals
      refine ⟨rfl, rfl, ?_, rfl, rfl, rfl, rfl, rfl⟩
      intro j hj hne
      interval_cases j <;> first | exact absurd rfl hne | exact ⟨rfl, rfl⟩

/-- C15 at a concrete input: `get_led 2` after `get_led 1` leaves buttons 0 and 1 enabled. -/
theorem led_handler_frame_witness :
    1 ≤ 2 ∧ 2 ≤ 4 ∧
    (get_led 2 (get_led 1 reset_state)).portb_enable = ⟨true, true, false, false⟩ ∧
    (get_led 0 (get_led 1 reset_state) = led_blanked (get_led 1 reset_state) ∧
    (∀ j, j < 4 → (get_led 0 (get_led 1 reset_state)).portb_enable.get j = false ∧
      indicator (get_led 0 (get_led 1 reset_state)) j = false) ∧
    (get_led 2 (get_led 1 reset_state)).portb_enable.get (2 - 1) = true ∧
    indicator (get_led 2 (get_led 1 reset_state)) (2 - 1) = true ∧
    (∀ j, j < 4 → j ≠ 2 - 1 →
      (get_led 2 (get_led 1 reset_state)).portb_enable.get j =
        (get_led 1 reset_state).portb_enable.get j ∧
      indicator (get_led 2 (get_led 1 reset_state)) j = indicator (get_led 1 reset_state) j) ∧
    led_blanked (get_led 2 (get_led 1 reset_state)) = led_blanked (get_led 1 reset_state) ∧
    (get_led 0 (get_led 1 reset_state)).portb_prev = (get_led 1 reset_state).portb_prev ∧
    (get_led 0 (get_led 1 reset_state)).portb_send = (get_led 1 reset_state).portb_send ∧
    (get_led 2 (get_led 1 reset_state)).portb_prev = (get_led 1 reset_state).portb_prev ∧
    (get_led 2 (get_led 1 reset_state)).portb_send = (get_led 1 reset_state).portb_send) :=
  ⟨by decide, by decide, rfl, led_handler_frame 2 (get_led 1 reset_state) (by decide) (by decide)⟩

set_option maxRecDepth 1000000 in
/-- C16. The handler `get_altitude`. For every argument `p` the period becomes the quotient
`p / 100`, the counter becomes 0 and no other variable changes; 0, 200, 400 and 600 give 0,
2, 4 and 6. No argument is rejected: 100, 250 and 65535 give 1, 2 and 655, and the bytes of
`$ALT0064#` received after reset call `get_altitude 100` and leave the period 1. -/
theorem altitude_handler_quotient (p : Nat) (s : State) :
    get_altitude p s = { s with altitude_period := p / 100, counter := 0 } ∧
    (get_altitude p s).altitude_period = p / 100 ∧ (get_altitude p s).counter = 0 ∧
    (get_altitude 0 s).altitude_period = 0 ∧ (get_altitude 200 s).altitude_period = 2 ∧
    (get_altitude 400 s).altitude_period = 4 ∧ (get_altitude 600 s).altitude_period = 6 ∧
    (get_altitude 100 s).altitude_period = 1 ∧ (get_altitude 250 s).altitude_period = 2 ∧
    (get_altitude 65535 s).altitude_period = 655 ∧
    (serial_in reset_state (ascii "$ALT0064#")).map
        (fun r => (r.1.altitude_period, r.1.counter, r.2)) =
      some (1, 0, [Call.get_altitude 100]) :=
  ⟨rfl, rfl, rfl, rfl, rfl, rfl, rfl, rfl, rfl, rfl, by decide⟩

set_option maxRecDepth 1000000 in
/-- C17, evaluation of the code at the failing input. After initialisation `RBIE` is set
(by `init_interrupts`) while `is_manual` is false. With button 0 enabled by `$LED01#`, a
press and a release of the button then set its pending flag although `is_manual` is false;
with `$MAN00#` received first, the same bytes and the same levels leave the flag clear. For
every argument and state, `get_manual v` sets `is_manual` and `RBIE` both to `v ≠ 0`. -/
theorem observation_on_without_manual_mode :
    reset_state.rbie = true ∧ reset_state.is_manual = false ∧
    (init_interrupts (init_ports (init_vars power_on))).rbie = true ∧
    (serial_in reset_state (ascii "$LED01#")).map
        (fun r =>
          ((port_change ⟨false, false, false, false⟩
              (port_change ⟨true, false, false, false⟩ r.1)).is_manual,
           (port_change ⟨false, false, false, false⟩
              (port_change ⟨true, false, false, false⟩ r.1)).portb_send,
           r.2)) =
      some (false, ⟨true, false, false, false⟩, [Call.get_led 1]) ∧
    (serial_in reset_state (ascii "$MAN00#$LED01#")).map
        (fun r =>
          ((port_change ⟨false, false, false, false⟩
              (port_change ⟨true, false, false, false⟩ r.1)).is_manual,
           (port_change ⟨false, false, false, false⟩
              (port_change ⟨true, false, false, false⟩ r.1)).portb_send,
           r.2)) =
      some (false, ⟨false, false, false, false⟩, [Call.get_manual 0, Call.get_led 1]) ∧
    (∀ (v : Nat) (s : State), (get_manual v s).is_manual = decide (v ≠ 0) ∧
      (get_manual v s).rbie = decide (v ≠ 0)) := by
  refine ⟨rfl, rfl, rfl, by decide, by decide, ?_⟩
  intro v s
  by_cases hv : v = 0
  · subst hv; exact ⟨rfl, rfl⟩
  · simp [get_manual, hv]

/-- C18. The distance message. For every 16-bit `d`, `send_distance d` pushes the nine
bytes of `dst_frame d` on the outbound buffer and enables the transmitter: `$`, `D`, `S`,
`T`, the digit of bits 15..12 of `d`, of bits 11..8, of bits 7..4 and of bits 3..0, each a
character of `0123456789ABCDEF`, then `#`. When the buffer is well formed and has room for
nine bytes, its contents afterwards are the contents before followed by these bytes. Only
the outbound array, its head index and the transmitter enable change: the inbound buffer
and the vehicle variables are as before. -/
theorem distance_message_encoding (d : Nat) (s : State) (hd : d < 65536)
    (hs : OutbufReady s) (hroom : (buf_contents buf_t.OUTBUF s).length + 9 ≤ 254) :
    send_distance d s = send (buf_push_all (dst_frame d) buf_t.OUTBUF s) ∧
    dst_frame d =
      [36, 68, 83, 84, upper_hex (d / 4096), upper_hex (d / 256 % 16), upper_hex (d / 16 % 16),
        upper_hex (d % 16), 35] ∧
    (dst_frame d).length = 9 ∧
    (∀ n, n < 16 → upper_hex n = (ascii "0123456789ABCDEF").getD n 0 ∧
      ((48 ≤ upper_hex n ∧ upper_hex n ≤ 57) ∨ (65 ≤ upper_hex n ∧ upper_hex n ≤ 70))) ∧
    buf_contents buf_t.OUTBUF (send_distance d s) = buf_contents buf_t.OUTBUF s ++ dst_frame d ∧
    { send_distance d s with outbuf := s.outbuf, head_out := s.head_out, txen := s.txen } = s ∧
    (send_distance d s).txen = true ∧ (send_distance d s).tail_out = s.tail_out ∧
    buf_contents buf_t.INBUF (send_distance d s) = buf_contents buf_t.INBUF s ∧
    (send_distance d s).dist = s.dist ∧ (send_distance d s).speed = s.speed ∧
    (send_distance d s).altitude_period = s.altitude_period ∧
    (send_distance d s).counter = s.counter ∧ (send_distance d s).is_manual = s.is_manual ∧
    (send_distance d s).adc = s.adc ∧ (send_distance d s).portb_send = s.portb_send := by
  have hf : dst_frame d =
      [36, 68, 83, 84, upper_hex (d / 4096), upper_hex (d / 256 % 16), upper_hex (d / 16 % 16),
        upper_hex (d % 16), 35] := by
    have e : d / 4096 % 16 = d / 4096 := by omega
    simp only [dst_frame, hex4_upper, e, List.cons_append, List.nil_append]
  have hl : (dst_frame d).length = 9 := by rw [hf]; rfl
  refine ⟨send_distance_eq d s, hf, hl, fun n hn => ⟨rfl, upper_hex_range n hn⟩, ?_, ?_⟩
  · rw [send_distance_sent]
    exact sent_contents _ s hs (by rw [hl]; exact hroom)
  · rw [send_distance_sent]
    exact ⟨rfl, rfl, rfl, rfl, rfl, rfl, rfl, rfl, rfl, rfl, rfl⟩

set_option maxRecDepth 1000000 in
/-- C18 at a concrete input: the distance 40000 sent from the state after reset gives
`$DST9C40#`. -/
theorem distance_message_encoding_witness :
    40000 < 65536 ∧ OutbufReady reset_state ∧
    (buf_contents buf_t.OUTBUF reset_state).length + 9 ≤ 254 ∧
    dst_frame 40000 = ascii "$DST9C40#" ∧
    (send_distance 40000 reset_state =
      send (buf_push_all (dst_frame 40000) buf_t.OUTBUF reset_state) ∧
    dst_frame 40000 =
      [36, 68, 83, 84, upper_hex (40000 / 4096), upper_hex (40000 / 256 % 16),
        upper_hex (40000 / 16 % 16), upper_hex (40000 % 16), 35] ∧
    (dst_frame 40000).length = 9 ∧
    (∀ n, n < 16 → upper_hex n = (ascii "0123456789ABCDEF").getD n 0 ∧
      ((48 ≤ upper_hex n ∧ upper_hex n ≤ 57) ∨ (65 ≤ upper_hex n ∧ upper_hex n ≤ 70))) ∧
    buf_contents buf_t.OUTBUF (send_distance 40000 reset_state) =
      buf_contents buf_t.OUTBUF reset_state ++ dst_frame 40000 ∧
    { send_distance 40000 reset_state with
      outbuf := reset_state.outbuf, head_out := reset_state.head_out,
      txen := reset_state.txen } = reset_state ∧
    (send_distance 40000 reset_state).txen = true ∧
    (send_distance 40000 reset_state).tail_out = reset_state.tail_out ∧
    buf_contents buf_t.INBUF (send_distance 40000 reset_state) =
      buf_contents buf_t.INBUF reset_state ∧
    (send_distance 40000 reset_state).dist = reset_state.dist ∧
    (send_distance 40000 reset_state).speed = reset_state.speed ∧
    (send_distance 40000 reset_state).altitude_period = reset_state.altitude_period ∧
    (send_distance 40000 reset_state).counter = reset_state.counter ∧
    (send_distance 40000 reset_state).is_manual = reset_state.is_manual ∧
    (send_distance 40000 reset_state).adc = reset_state.adc ∧
    (send_distance 40000 reset_state).portb_send = reset_state.portb_send) :=
  ⟨by decide, outbuf_ready_reset, by decide, by decide,
    distance_message_encoding 40000 reset_state (by decide) outbuf_ready_reset (by decide)⟩

/-- C19. The altitude mapping. For every 16-bit sample `x`, `adc_to_alt x` is 9000 below
256, 10000 from 256 below 512, 11000 from 512 below 768 and 12000 from 768 on; the five
values of the specification are instances. `send_altitude x` pushes the bytes of
`alt_frame x` on the outbound buffer: `$ALT`, the four upper-case hexadecimal digits of
`adc_to_alt x` (which read back as that value) and `#`, that is one of `$ALT2328#`,
`$ALT2710#`, `$ALT2AF8#` and `$ALT2EE0#`. When the buffer is well formed and has room for
nine bytes, its contents afterwards are the contents before followed by these bytes, and
only the outbound array, its head index and the transmitter enable change. -/
theorem altitude_mapping (x : Nat) (s : State) (hx : x < 65536)
    (hs : OutbufReady s) (hroom : (buf_contents buf_t.OUTBUF s).length + 9 ≤ 254) :
    (x < 256 → adc_to_alt x = 9000) ∧
    (256 ≤ x → x < 512 → adc_to_alt x = 10000) ∧
    (512 ≤ x → x < 768 → adc_to_alt x = 11000) ∧
    (768 ≤ x → adc_to_alt x = 12000) ∧
    adc_to_alt 0 = 9000 ∧ adc_to_alt 255 = 9000 ∧ adc_to_alt 256 = 10000 ∧
    adc_to_alt 767 = 11000 ∧ adc_to_alt 1023 = 12000 ∧
    send_altitude x s = send (buf_push_all (alt_frame x) buf_t.OUTBUF s) ∧
    alt_frame x = [36, 65, 76, 84] ++ hex4 (adc_to_alt x) ++ [35] ∧
    hex4 (adc_to_alt x) =
      [upper_hex (adc_to_alt x / 4096), upper_hex (adc_to_alt x / 256 % 16),
        upper_hex (adc_to_alt x / 16 % 16), upper_hex (adc_to_alt x % 16)] ∧
    hex_value (hex4 (adc_to_alt x)) = some (adc_to_alt x) ∧
    (alt_frame x =
      if x < 256 then ascii "$ALT2328#"
      else if x < 512 then ascii "$ALT2710#"
      else if x < 768 then ascii "$ALT2AF8#"
      else ascii "$ALT2EE0#") ∧
    buf_contents buf_t.OUTBUF (send_altitude x s) = buf_contents buf_t.OUTBUF s ++ alt_frame x ∧
    { send_altitude x s with outbuf := s.outbuf, head_out := s.head_out, txen := s.txen } =
      s := by
  have hlt : adc_to_alt x < 65536 := by unfold adc_to_alt; split_ifs <;> norm_num
  have hl : (alt_frame x).length = 9 := by simp [alt_frame, hex4]
  refine ⟨?_, ?_, ?_, ?_, rfl, rfl, rfl, rfl, rfl, send_altitude_eq x s, rfl, ?_,
    hex_value_hex4 _ hlt, alt_frame_cases x, ?_, ?_⟩
  · intro h; simp [adc_to_alt, h]
  · intro h1 h2
    have : ¬ x < 256 := by omega
    simp [adc_to_alt, this, h2]
  · intro h1 h2
    have a : ¬ x < 256 := by omega
    have b : ¬ x < 512 := by omega
    simp [adc_to_alt, a, b, h2]
  · intro h1
    have a : ¬ x < 256 := by omega
    have b : ¬ x < 512 := by omega
    have c : ¬ x < 768 := by omega
    simp [adc_to_alt, a, b, c]
  · have e : adc_to_alt x / 4096 % 16 = adc_to_alt x / 4096 := by omega
    rw [hex4_upper, e]
  · rw [send_altitude_sent]
    exact sent_contents _ s hs (by rw [hl]; exact hroom)
  · rw [send_altitude_sent]
    exact sent_frame _ s

set_option maxRecDepth 1000000 in
/-- C19 at a concrete input: the sample 600 sent from the state after reset gives
`$ALT2AF8#`. -/
theorem altitude_mapping_witness :
    600 < 65536 ∧ OutbufReady reset_state ∧
    (buf_contents buf_t.OUTBUF reset_state).length + 9 ≤ 254 ∧
    buf_contents buf_t.OUTBUF (send_altitude 600 reset_state) = ascii "$ALT2AF8#" ∧
    ((600 < 256 → adc_to_alt 600 = 9000) ∧
    (256 ≤ 600 → 600 < 512 → adc_to_alt 600 = 10000) ∧
    (512 ≤ 600 → 600 < 768 → adc_to_alt 600 = 11000) ∧
    (768 ≤ 600 → adc_to_alt 600 = 12000) ∧
    adc_to_alt 0 = 9000 ∧ adc_to_alt 255 = 9000 ∧ adc_to_alt 256 = 10000 ∧
    adc_to_alt 767 = 11000 ∧ adc_to_alt 1023 = 12000 ∧
    send_altitude 600 reset_state =
      send (buf_push_all (alt_frame 600) buf_t.OUTBUF reset_state) ∧
    alt_frame 600 = [36, 65, 76, 84] ++ hex4 (adc_to_alt 600) ++ [35] ∧
    hex4 (adc_to_alt 600) =
      [upper_hex (adc_to_alt 600 / 4096), upper_hex (adc_to_alt 600 / 256 % 16),
        upper_hex (adc_to_alt 600 / 16 % 16), upper_hex (adc_to_alt 600 % 16)] ∧
    hex_value (hex4 (adc_to_alt 600)) = some (adc_to_alt 600) ∧
    (alt_frame 600 =
      if 600 < 256 then ascii "$ALT2328#"
      else if 600 < 512 then ascii "$ALT2710#"
      else if 600 < 768 then ascii "$ALT2AF8#"
      else ascii "$ALT2EE0#") ∧
    buf_contents buf_t.OUTBUF (send_altitude 600 reset_state) =
      buf_contents buf_t.OUTBUF reset_state ++ alt_frame 600 ∧
    { send_altitude 600 reset_state with
      outbuf := reset_state.outbuf, head_out := reset_state.head_out,
      txen := reset_state.txen } = reset_state) :=
  ⟨by decide, outbuf_ready_reset, by decide, by decide,
    altitude_mapping 600 reset_state (by decide) outbuf_ready_reset (by decide)⟩

/-- C20. The tick counter and the cadence of the altitude report. Let `s` be the state
after any list of events from `reset_state` (serial bytes through `receive_isr` and
`parse`, ticks, button samples, conversions) in which every handler call the parser made
has a valid argument (a period of 0, 200, 400 or 600 for `get_altitude`). Then the period
of `s` is 0, 2, 4 or 6, the counter is below the period when the period is not 0, the
counter is 0 when the period is 0, and it is 0 again after a tick taken with period 0.
`get_altitude` with 200, 400 or 600 leaves the period `k` = 2, 4 or 6 and the counter 0;
from every state `u` with period `k` and counter 0, after any events without serial bytes
holding `n` ticks, the run ends in a state `t` with period `k` and counter `n mod k`, and
the next tick, the `n + 1`-th, is due exactly when `k` divides `n + 1`. A due tick pushes
the altitude frame of the latest sample; a tick that is not due pushes a frame of at most
nine bytes that is no altitude frame; so, when the outbound buffer is well formed and has
room for nine bytes, that tick appends an altitude frame to it exactly when `k` divides
`n + 1`. -/
theorem altitude_cadence (es : List Event) (s : State) (calls : List Call)
    (hrun : run_events reset_state es = some (s, calls))
    (hvalid : ∀ c ∈ calls, valid_call c = true) :
    (s.altitude_period = 0 ∨ s.altitude_period = 2 ∨ s.altitude_period = 4 ∨
      s.altitude_period = 6) ∧
    (s.altitude_period ≠ 0 → s.counter < s.altitude_period) ∧
    (s.altitude_period = 0 → s.counter = 0) ∧
    (s.altitude_period = 0 → (timer_isr s).counter = 0) ∧
    (∀ p : Nat, p = 200 ∨ p = 400 ∨ p = 600 →
      (get_altitude p s).altitude_period = p / 100 ∧ (get_altitude p s).counter = 0) ∧
    (∀ (k : Nat) (u : State) (quiet : List Event), (k = 2 ∨ k = 4 ∨ k = 6) →
      u.altitude_period = k → u.counter = 0 →
      (∀ e ∈ quiet, Event.is_command e = false) →
      ∃ t, run_events u quiet = some (t, []) ∧ t.altitude_period = k ∧
        t.counter = ticks_in quiet % k ∧
        (altitude_due t ↔ k ∣ ticks_in quiet + 1) ∧
        (altitude_due t →
          outbound (timer_isr t) =
            outbound (buf_push_all (alt_frame t.adc) buf_t.OUTBUF t)) ∧
        (¬ altitude_due t → ∃ f, f.length ≤ 9 ∧ (∀ x, f ≠ alt_frame x) ∧
          outbound (timer_isr t) = outbound (buf_push_all f buf_t.OUTBUF t)) ∧
        (OutbufReady t → (buf_contents buf_t.OUTBUF t).length + 9 ≤ 254 →
          ((∃ x, buf_contents buf_t.OUTBUF (timer_isr t) =
              buf_contents buf_t.OUTBUF t ++ alt_frame x) ↔ k ∣ ticks_in quiet + 1))) := by
  have hinit : tick_inv reset_state := ⟨Or.inl rfl, fun h => absurd rfl h, fun _ => rfl⟩
  obtain ⟨h1, h2, h3⟩ := run_events_inv es reset_state (s, calls) hrun hvalid hinit
  refine ⟨h1, h2, h3, ?_, ?_, ?_⟩
  · intro h0
    rw [(timer_isr_counter s).2, if_pos h0]
  · rintro p (rfl | rfl | rfl) <;> exact ⟨rfl, rfl⟩
  · intro k u quiet hk hp hc hq
    obtain ⟨t, r1, r2, r3⟩ := quiet_run k hk quiet u hp
      (by rw [hc]; rcases hk with h | h | h <;> omega) hq
    rw [hc, Nat.zero_add] at r3
    have hdue := due_iff_dvd k hk t (ticks_in quiet) r2 r3
    refine ⟨t, r1, r2, r3, hdue, (tick_emission t).1, (tick_emission t).2, ?_⟩
    intro hs hroom
    exact (tick_emits_altitude_iff t hs hroom).trans hdue

set_option maxRecDepth 1000000 in
/-- C20 at a concrete input: the bytes of `$ALT0190#` after reset, then three ticks with a
button sample and a conversion in between, leave period 4 and counter 3; the fourth tick is
due and appends `$ALT2AF8#` after three distance frames. -/
theorem altitude_cadence_witness :
    run_events reset_state cadence_events = some (cadence_example, [Call.get_altitude 400]) ∧
    (∀ c ∈ [Call.get_altitude 400], valid_call c = true) ∧
    (cadence_example.altitude_period, cadence_example.counter) = (4, 3) ∧
    altitude_due cadence_example ∧
    buf_contents buf_t.OUTBUF (timer_isr cadence_example) =
      ascii "$DST0000#$DST0000#$DST0000#$ALT2AF8#" ∧
    (cadence_example.altitude_period ≠ 0 →
      cadence_example.counter < cadence_example.altitude_period) :=
  ⟨rfl, by decide, by decide, by decide, by decide,
    (altitude_cadence cadence_events cadence_example [Call.get_altitude 400] rfl
      (by decide)).2.1⟩

/-- C21. Button events are served in a fixed order. For every state and every button `i`
below 4: the tick clears the pending flag of `i` (set before, clear after) exactly when no
altitude report is due on that tick, the flag of `i` is set and no flag of a lower index is
set. In that case the tick pushes the frame `prs_frame (4 + i)` on the outbound buffer,
that is `$PRS0`, the digit `4 + i` and `#`, which is appended to the contents when the
buffer is well formed and has room for seven bytes, and the flags after the tick are the
flags before with that of `i` cleared. The flag of every button that is not served in this
way is after the tick what it was before. -/
theorem button_events_fixed_order (s : State) (i : Nat) (hi : i < 4) :
    ((s.portb_send.get i = true ∧ (timer_isr s).portb_send.get i = false) ↔
      (¬ altitude_due s ∧ s.portb_send.get i = true ∧
        ∀ j, j < i → s.portb_send.get j = false)) ∧
    ((¬ altitude_due s ∧ s.portb_send.get i = true ∧
        ∀ j, j < i → s.portb_send.get j = false) →
      outbound (timer_isr s) = outbound (buf_push_all (prs_frame (4 + i)) buf_t.OUTBUF s) ∧
      (timer_isr s).portb_send = s.portb_send.set i false ∧
      (OutbufReady s → (buf_contents buf_t.OUTBUF s).length + 7 ≤ 254 →
        buf_contents buf_t.OUTBUF (timer_isr s) =
          buf_contents buf_t.OUTBUF s ++ prs_frame (4 + i))) ∧
    prs_frame (4 + i) = ascii "$PRS0" ++ [48 + (4 + i)] ++ ascii "#" ∧
    (∀ j, j < 4 →
      ¬ (¬ altitude_due s ∧ s.portb_send.get j = true ∧
        ∀ k, k < j → s.portb_send.get k = false) →
      (timer_isr s).portb_send.get j = s.portb_send.get j) := by
  refine ⟨?_, ?_, ?_, ?_⟩
  · rw [button_served s i, lowest_pending_iff _ i hi]
  · intro h
    rw [← lowest_pending_iff _ i hi] at h
    obtain ⟨hd, hp⟩ := h
    rcases timer_isr_outbound s with ⟨hd2, _, _⟩ | ⟨_, k, hk, _, ho, hs⟩ | ⟨_, hn, _, _⟩
    · exact absurd hd2 hd
    · have hik : k = i := by rw [hk] at hp; exact Option.some.inj hp
      subst hik
      refine ⟨ho, hs, ?_⟩
      intro hready hroom
      exact (buf_contents_of_outbound s (timer_isr s) _ hready
        (by rw [prs_frame_length]; exact hroom) ho).1
    · rw [hn] at hp; cases hp
  · rw [prs_frame_button i hi]
    have : 48 + (4 + i) = 52 + i := by omega
    rw [this]
    rfl
  · intro j hj h
    rw [← lowest_pending_iff _ j hj] at h
    exact flag_kept s j h

set_option maxRecDepth 1000000 in
/-- C21 at a concrete input: buttons 1 and 3 pending after reset, no report due; the tick
serves button 1 with `$PRS05#` and leaves button 3 pending. -/
theorem button_events_fixed_order_witness :
    1 < 4 ∧
    (timer_isr { reset_state with portb_send := ⟨false, true, false, true⟩ }).portb_send =
      ⟨false, false, false, true⟩ ∧
    buf_contents buf_t.OUTBUF
      (timer_isr { reset_state with portb_send := ⟨false, true, false, true⟩ }) =
        ascii "$PRS05#" ∧
    (((({ reset_state with portb_send := ⟨false, true, false, true⟩ } : State).portb_send.get 1
        = true ∧
      (timer_isr { reset_state with portb_send := ⟨false, true, false, true⟩ }).portb_send.get
        1 = false)) ↔
      (¬ altitude_due { reset_state with portb_send := ⟨false, true, false, true⟩ } ∧
        ({ reset_state with portb_send := ⟨false, true, false, true⟩ } : State).portb_send.get 1
          = true ∧
        ∀ j, j < 1 →
          ({ reset_state with portb_send := ⟨false, true, false, true⟩ } : State).portb_send.get
            j = false)) :=
  ⟨by decide, by decide, by decide,
    (button_events_fixed_order { reset_state with portb_send := ⟨false, true, false, true⟩ } 1
      (by decide)).1⟩

set_option maxRecDepth 1000000 in
/-- C22, evaluation of the code at the failing input. After the bytes `$XYZ` (an unknown
header) the parser is idle with `message_pos` still 3. The next `$` enters the header state,
so the byte after it is stored at `message_name[3]`, past the three-byte array; after
`$XYZ$E` the next store is at index 4 and `message_pos` is 4, and after `$XYZ$END#` both are
7. After a known header (`$GOO`) the position is back at 0 and no store is pending. -/
theorem header_store_past_the_array :
    (serial_in reset_state (ascii "$XYZ")).map
        (fun r => (r.1.parse_state, r.1.message_pos, r.2)) =
      some (ParseState.PARSE_IDLE, 3, []) ∧
    (serial_in reset_state (ascii "$XYZ$")).map
        (fun r => (header_store_index r.1, r.1.message_pos)) = some (some 3, 3) ∧
    (serial_in reset_state (ascii "$XYZ$E")).map
        (fun r => (header_store_index r.1, r.1.message_pos)) = some (some 4, 4) ∧
    (serial_in reset_state (ascii "$XYZ$END#")).map
        (fun r => (header_store_index r.1, r.1.message_pos)) = some (some 7, 7) ∧
    (serial_in reset_state (ascii "$GOO")).map
        (fun r => (header_store_index r.1, r.1.message_pos)) = some (none, 0) := by
  decide

/-- C23, evaluation of the code at the failing input. `adc_isr` stores
`(ADRESH << 8) | (ADRESH & 0xF)`: the low register is not read. For the high register 0, 1,
2, 3 the value stored is 0, 257, 514, 771 whatever the low register holds: the conversion
with high register 1 and low register 200 (reading 456) is stored as 257, and the one with
high register 0 and low register 255 (reading 255) as 0. -/
theorem adc_isr_reads_high_register_twice :
    (∀ (H L : Nat) (s : State),
      (adc_isr H L s).adc = ((H <<< 8) ||| (H &&& 0xF)) % 65536) ∧
    (∀ (L : Nat) (s : State), (adc_isr 0 L s).adc = 0 ∧ (adc_isr 1 L s).adc = 257 ∧
      (adc_isr 2 L s).adc = 514 ∧ (adc_isr 3 L s).adc = 771) ∧
    (adc_isr 1 200 reset_state).adc = 257 ∧ 256 * 1 + 200 = 456 ∧
    (adc_isr 0 255 reset_state).adc = 0 ∧ 256 * 0 + 255 = 255 :=
  ⟨fun _ _ _ => rfl, adc_isr_high, rfl, rfl, rfl, rfl⟩

/-- C24. The dispatched value does not depend on a stale accumulator. From a state with
the parser idle, `message_pos` 0 and the inbound buffer drained, with `parsed_number`
replaced by any two values `a1` and `a2`, the bytes of the same well-formed frame (header
`h`, digits of value `v`) make the same single call, the handler of `h` with `v`, and end in
the same state, whose accumulator is 0 and whose parser is idle. The two malformed exits of
the body state, a byte that is neither a digit nor `#` and a digit beyond the digit count,
only set the parser idle: they leave `parsed_number` as it was. -/
theorem dispatch_independent_of_stale_accumulator (s : State) (h : MessageType)
    (digits : List Nat) (v a1 a2 : Nat) (hbuf : InbufReady s)
    (hidle : s.parse_state = ParseState.PARSE_IDLE) (hpos : s.message_pos = 0)
    (hlen : digits.length = frame_digits h) (hv : hex_value digits = some v) :
    (∃ t, serial_in { s with parsed_number := a1 } (frame h digits) =
        some (t, [frame_call h v]) ∧
      serial_in { s with parsed_number := a2 } (frame h digits) =
        some (t, [frame_call h v]) ∧
      t.parsed_number = 0 ∧ t.parse_state = ParseState.PARSE_IDLE) ∧
    (∀ (u : State) (c : Nat), u.parse_state = ParseState.PARSE_BODY →
      ((¬ is_hex c ∧ c ≠ 35) ∨
        (is_hex c ∧ u.parsed_digit_count = u.digit_count_to_be_parsed)) →
      parse_byte u c = ({ u with parse_state := ParseState.PARSE_IDLE }, []) ∧
      (parse_byte u c).1.parsed_number = u.parsed_number) := by
  constructor
  · obtain ⟨t1, r1, c1⟩ := serial_in_frame_stale s h digits v a1 hbuf hidle hpos hlen hv
    obtain ⟨t2, r2, c2⟩ := serial_in_frame_stale s h digits v a2 hbuf hidle hpos hlen hv
    have ht : t1 = t2 := by
      by_cases hend : h = MessageType.MT_END
      · subst hend
        have hd : digits = [] := List.length_eq_zero.1 hlen
        subst hd
        have e1 := serial_in_end_frame { s with parsed_number := a1 } hbuf hidle hpos
        have e2 := serial_in_end_frame { s with parsed_number := a2 } hbuf hidle hpos
        rw [e1] at r1
        rw [e2] at r2
        simp only [Option.some.injEq, Prod.mk.injEq] at r1 r2
        rw [← r1.1, ← r2.1]
      · have hne := frame_call_ne_end h v hend
        have hnot : Call.get_end ∉ [frame_call h v] := by
          simp only [List.mem_singleton]
          exact fun e => hne e.symm
        exact state_eq_of_core_inbound t1 t2 (c1.trans c2.symm)
          (serial_in_inbound (frame h digits) { s with parsed_number := a1 }
            { s with parsed_number := a2 } t1 t2 _ _ hbuf rfl r1 r2 hnot hnot)
    subst ht
    exact ⟨t1, r1, r2, congrArg State.parsed_number c1, congrArg State.parse_state c1⟩
  · intro u c hbody hc
    have e : parse_byte u c = ({ u with parse_state := ParseState.PARSE_IDLE }, []) := by
      rcases hc with ⟨h1, h2⟩ | ⟨h1, h2⟩
      · exact parse_byte_body_invalid u c hbody h1 h2
      · exact parse_byte_body_extra u c hbody h1 h2
    exact ⟨e, by rw [e]⟩

set_option maxRecDepth 1000000 in
/-- C24 at a concrete input: `$GOO12X` received after reset leaves the parser idle with the
accumulator at 0x12, and `$MAN01#` after it still calls `get_manual 1`; the frame
`$SPD000a#` calls `get_speed 10` and ends in one state from the accumulators 0xBEEF and 0. -/
theorem dispatch_independent_of_stale_accumulator_witness :
    InbufReady reset_state ∧ reset_state.parse_state = ParseState.PARSE_IDLE ∧
    reset_state.message_pos = 0 ∧
    (ascii "000a").length = frame_digits MessageType.MT_SPEED ∧
    hex_value (ascii "000a") = some 10 ∧
    (serial_in reset_state (ascii "$GOO12X")).map
        (fun r => (r.1.parse_state, r.1.message_pos, r.1.parsed_number, r.2)) =
      some (ParseState.PARSE_IDLE, 0, 18, []) ∧
    (serial_in reset_state (ascii "$GOO12X$MAN01#")).map
        (fun r => (r.1.is_manual, r.1.parsed_number, r.2)) =
      some (true, 0, [Call.get_manual 1]) ∧
    ∃ t, serial_in { reset_state with parsed_number := 48879 }
          (frame MessageType.MT_SPEED (ascii "000a")) =
        some (t, [frame_call MessageType.MT_SPEED 10]) ∧
      serial_in { reset_state with parsed_number := 0 }
          (frame MessageType.MT_SPEED (ascii "000a")) =
        some (t, [frame_call MessageType.MT_SPEED 10]) ∧
      t.parsed_number = 0 ∧ t.parse_state = ParseState.PARSE_IDLE :=
  ⟨inbuf_ready_reset, rfl, rfl, by decide, by decide, by decide, by decide,
    (dispatch_independent_of_stale_accumulator reset_state MessageType.MT_SPEED (ascii "000a")
      10 48879 0 inbuf_ready_reset rfl rfl (by decide) (by decide)).1⟩

/-- C25. The capacity of a ring is 254 bytes. For either buffer, in a state whose buffer
has 255 slots and is empty (head equal to tail, below 255), after 255 bytes are pushed with
no pop in between the head is equal to the tail again and the tail has not moved:
`buf_isempty` reports 1, `buf_pop` returns the sentinel 0xFF and leaves the state as it is,
the readable contents are empty and any number of further pops return 0xFF each, so none of
the 255 bytes reaches the reader. Up to 254 bytes pushed are all readable, in order. -/
theorem channel_capacity_is_254 (buf : buf_t) (s : State) (bs : List Nat)
    (hs : ChannelReady buf s) (he : s.head buf = s.tail buf) (hlen : bs.length = 255) :
    (buf_push_all bs buf s).head buf = (buf_push_all bs buf s).tail buf ∧
    (buf_push_all bs buf s).tail buf = s.tail buf ∧
    buf_isempty buf (buf_push_all bs buf s) = 1 ∧
    buf_pop buf (buf_push_all bs buf s) = (0xFF, buf_push_all bs buf s) ∧
    buf_contents buf (buf_push_all bs buf s) = [] ∧
    (∀ n, run_ops buf (List.replicate n ChanOp.pop) (buf_push_all bs buf s) =
      (buf_push_all bs buf s, List.replicate n 0xFF)) ∧
    (∀ cs : List Nat, cs.length ≤ 254 → buf_contents buf (buf_push_all cs buf s) = cs) := by
  obtain ⟨h1, h2, h3⟩ := hs
  obtain ⟨_, f2, f3⟩ := buf_push_all_fields bs buf s
  have hhead : (buf_push_all bs buf s).head buf = (buf_push_all bs buf s).tail buf := by
    rw [f2, f3, ring_push_all_head bs _ _ h2, hlen, ← he]
    unfold BUFSIZE at *
    omega
  have hempty : buf_contents buf s = [] :=
    (isempty_iff_contents buf s ⟨h1, h2, h3⟩).1 (by simp [buf_isempty, he])
  refine ⟨hhead, f3, by simp [buf_isempty, hhead], buf_pop_of_empty _ _ hhead, ?_,
    pops_on_empty _ _ hhead, ?_⟩
  · simp [buf_contents, hhead, BUFSIZE]
  · intro cs hcs
    have := buf_contents_push_all cs buf s ⟨h1, h2, h3⟩ (by rw [hempty]; simpa using hcs)
    rw [this, hempty, List.nil_append]

set_option maxRecDepth 1000000 in
/-- C25 at a concrete input: the bytes 0 to 254 pushed on the inbound buffer of the state
after reset. -/
theorem channel_capacity_is_254_witness :
    ChannelReady buf_t.INBUF reset_state ∧
    reset_state.head buf_t.INBUF = reset_state.tail buf_t.INBUF ∧
    (List.range 255).length = 255 ∧
    buf_isempty buf_t.INBUF (buf_push_all (List.range 255) buf_t.INBUF reset_state) = 1 ∧
    buf_pop buf_t.INBUF (buf_push_all (List.range 255) buf_t.INBUF reset_state) =
      (0xFF, buf_push_all (List.range 255) buf_t.INBUF reset_state) :=
  ⟨channel_ready_reset buf_t.INBUF, rfl, List.length_range 255,
    (channel_capacity_is_254 buf_t.INBUF reset_state (List.range 255)
      (channel_ready_reset buf_t.INBUF) rfl (List.length_range 255)).2.2.1,
    (channel_capacity_is_254 buf_t.INBUF reset_state (List.range 255)
      (channel_ready_reset buf_t.INBUF) rfl (List.length_range 255)).2.2.2.1⟩

/-- C26. The altitude class reported is that of the true reading. For every conversion
with high register `H` up to 3 and low register `L` up to 255 and every state, `adc_to_alt`
of the value `adc_isr` stores equals `adc_to_alt (256 * H + L)`, one of 9000, 10000, 11000
and 12000; so the altitude frame of the stored value is the frame of the true reading, and
a due tick taken after the conversion pushes that frame on the outbound buffer, appending
it to the contents when the buffer is well formed and has room for nine bytes. -/
theorem altitude_class_of_true_reading (H L : Nat) (s : State) (hH : H ≤ 3)
    (hL : L ≤ 255) :
    adc_to_alt (adc_isr H L s).adc = adc_to_alt (256 * H + L) ∧
    (adc_to_alt (256 * H + L) = 9000 ∨ adc_to_alt (256 * H + L) = 10000 ∨
      adc_to_alt (256 * H + L) = 11000 ∨ adc_to_alt (256 * H + L) = 12000) ∧
    alt_frame (adc_isr H L s).adc = alt_frame (256 * H + L) ∧
    send_altitude (adc_isr H L s).adc s = send_altitude (256 * H + L) s ∧
    (altitude_due (adc_isr H L s) →
      outbound (timer_isr (adc_isr H L s)) =
        outbound (buf_push_all (alt_frame (256 * H + L)) buf_t.OUTBUF (adc_isr H L s))) ∧
    (altitude_due (adc_isr H L s) → OutbufReady s →
      (buf_contents buf_t.OUTBUF s).length + 9 ≤ 254 →
      buf_contents buf_t.OUTBUF (timer_isr (adc_isr H L s)) =
        buf_contents buf_t.OUTBUF s ++ alt_frame (256 * H + L)) := by
  have hc := adc_to_alt_latched H L s hH hL
  have hf : alt_frame (adc_isr H L s).adc = alt_frame (256 * H + L) := by
    unfold alt_frame; rw [hc]
  refine ⟨hc, ?_, hf, ?_, ?_, ?_⟩
  · unfold adc_to_alt; split_ifs <;> simp
  · rw [send_altitude_sent, send_altitude_sent, hf]
  · intro hd
    rw [← hf]
    exact (tick_emission (adc_isr H L s)).1 hd
  · intro hd hready hroom
    have ho := (tick_emission (adc_isr H L s)).1 hd
    rw [hf] at ho
    exact (buf_contents_of_outbound (adc_isr H L s) (timer_isr (adc_isr H L s)) _ hready
      (by rw [alt_frame_length]; exact hroom) ho).1

set_option maxRecDepth 1000000 in
/-- C26 at a concrete input: the conversion with high register 2 and low register 200
(reading 712) is stored as 514; both are in the class 11000 and the due tick sends
`$ALT2AF8#`. -/
theorem altitude_class_of_true_reading_witness :
    2 ≤ 3 ∧ 200 ≤ 255 ∧ altitude_due (adc_isr 2 200 report_due_example) ∧
    (adc_isr 2 200 report_due_example).adc = 514 ∧ 256 * 2 + 200 = 712 ∧
    buf_contents buf_t.OUTBUF (timer_isr (adc_isr 2 200 report_due_example)) =
      ascii "$ALT2AF8#" ∧
    adc_to_alt (adc_isr 2 200 report_due_example).adc = adc_to_alt (256 * 2 + 200) :=
  ⟨by decide, by decide, by decide, rfl, rfl, by decide,
    (altitude_class_of_true_reading 2 200 report_due_example (by decide) (by decide)).1⟩

end Autopilot
